import Mathlib

/-!
# Axelar core: vote handlers of the tss and evm message servers

A shallow embedding of `x/tss/keeper/msg_server.go` and of the vote handlers of
`x/evm/keeper/msg_server.go`.

* The `sdk.Context` (the multistore behind every keeper) is an abstract type `σ`.
  Every keeper interface used by the handlers is a structure of functions over `σ`:
  a read is `σ → value`, a write is `σ → σ`, a write returning a Go `error` is
  `σ → error × σ`.  The theorems hold for every implementation of the interfaces.
* A handler returns an `Outcome`: the Go return value (`ok`, `err`, or a runtime
  `panic`), the context it leaves behind and the ordered list of state-mutating keeper
  calls, poll calls and emitted events it performed (`Call`).
* Logging and telemetry are not modelled.
-/

namespace Axelar

/-! ## Basic Go and SDK types -/

/-- Go byte slice; `none` is the nil slice, `some []` an empty non-nil slice. -/
abbrev Bytes := Option (List Nat)

/-- Go `error`; `none` is `nil`. -/
abbrev error := Option String

/-- The content of a byte slice (`nil` has no content). -/
def Bytes.toList (b : Bytes) : List Nat := b.getD []

/-- Go `len(b) == 0`, which holds for nil too. -/
def Bytes.Empty (b : Bytes) : Bool := b.toList.isEmpty

/-- Validator operator address, `sdk.ValAddress` (a byte slice). -/
abbrev ValAddress := Bytes

/-- Account address, `sdk.AccAddress` (a byte slice). -/
abbrev AccAddress := Bytes

/-- SDK `ValAddress.Equals`: both empty, or `bytes.Equal` on the contents. -/
def ValAddress.Equals (va va2 : ValAddress) : Bool :=
  if va.Empty && va2.Empty then true else va.toList == va2.toList

/-- Key identifier `exported.KeyID` (a Go string). -/
abbrev KeyID := String

/-- Parsed `ecdsa.PublicKey`, as its two coordinates. -/
abbrev PublicKey := Nat × Nat

/-- Poll key `vote.PollKey`. -/
structure PollKey where
  Module : String
  ID : String
deriving DecidableEq, Repr

/-- Poll states the spec names: `Is` is a membership test against these three. -/
inductive PollState
  | Pending
  | Completed
  | Failed
deriving DecidableEq, Repr

/-- Roster entry `vote.Voter`. -/
structure Voter where
  Validator : ValAddress
  VotingPower : Int
deriving DecidableEq, Repr

/-- One accused party of `tofnd.MessageOut_CriminalList`. -/
structure Criminal where
  PartyUid : String
  CrimeType : Nat
deriving DecidableEq, Repr

/-- Message `tofnd.MessageOut_CriminalList`. -/
structure CriminalList where
  Criminals : List Criminal
deriving DecidableEq, Repr

/-- Message `types.KeygenVoteData`. -/
structure KeygenVoteData where
  PubKey : Bytes
  GroupRecoveryInfo : Bytes
deriving DecidableEq, Repr

/-- The oneof `SignResultData` of `tofnd.MessageOut_SignResult`; `unset` is the nil oneof.
The `Criminals` case holds a pointer, `none` being the nil pointer. -/
inductive SignResultData
  | unset
  | Signature (sig : Bytes)
  | Criminals (list : Option CriminalList)
deriving DecidableEq, Repr

/-- Message `tofnd.MessageOut_SignResult`. -/
structure SignResult where
  SignResultData : SignResultData
deriving DecidableEq, Repr

/-- Generated getter `GetSignature`: the bytes of the `Signature` case, else nil. -/
def SignResult.GetSignature (r : SignResult) : Bytes :=
  match r.SignResultData with
  | .Signature sig => sig
  | _ => none

/-- Generated getter `GetCriminals`: the pointer of the `Criminals` case, else nil. -/
def SignResult.GetCriminals (r : SignResult) : Option CriminalList :=
  match r.SignResultData with
  | .Criminals list => list
  | _ => none

/-- Payload of `tofnd.MessageOut_KeygenResult_Data` (`KeygenOutput`). -/
structure KeygenOutput where
  PubKey : Bytes
  GroupRecoverInfo : Bytes
  PrivateRecoverInfo : Bytes
deriving DecidableEq, Repr

/-- The oneof `KeygenResultData` of `tofnd.MessageOut_KeygenResult`; `unset` is the nil
oneof. Both cases hold a pointer to a message decoded from the wire. -/
inductive KeygenResultData
  | unset
  | Data (data : KeygenOutput)
  | Criminals (list : CriminalList)
deriving DecidableEq, Repr

/-- A value voted on and returned by `GetResult` (a `codec.ProtoMarshaler`), as a tagged
variant; `Other` stands for every type no handler expects. -/
inductive VoteData
  | KeygenVoteData (d : KeygenVoteData)
  | CriminalList (l : CriminalList)
  | SignResult (r : SignResult)
  | BoolValue (b : Bool)
  | Other
deriving DecidableEq, Repr

/-- Enum `exported.AckType`; `Other` is any value that is neither keygen nor sign. -/
inductive AckType
  | Keygen
  | Sign
  | Other (code : Int)
deriving DecidableEq, Repr

/-- Enum `exported.KeyRole`. -/
inductive KeyRole
  | Unknown
  | MasterKey
  | SecondaryKey
  | ExternalKey
deriving DecidableEq, Repr

/-- Enum `exported.SigStatus`. -/
inductive SigStatus
  | Unspecified
  | Signing
  | Signed
  | Aborted
  | Invalid
deriving DecidableEq, Repr

/-- Enum `exported.KeyType`; `Other` is any value but Threshold and Multisig, the zero
value included. -/
inductive KeyType
  | Threshold
  | Multisig
  | Other (code : Int)
deriving DecidableEq, Repr

/-- Chain record `nexus.Chain`; `KeyType` is read by the evm command builders only. -/
structure Chain where
  Name : String
  NativeAsset : String
  SupportsForeignAssets : Bool
  KeyType : KeyType := KeyType.Other 0
deriving DecidableEq, Repr

/-- Threshold `utils.Threshold` (two int64 fields). -/
structure Threshold where
  Numerator : Int
  Denominator : Int
deriving DecidableEq, Repr

/-- Key record `exported.Key`. -/
structure Key where
  ID : KeyID
  Value : PublicKey
  Role : KeyRole
deriving DecidableEq, Repr

/-- Sign session record `exported.SignInfo`. -/
structure SignInfo where
  KeyID : KeyID
  SigID : String
  Msg : Bytes
  SnapshotCounter : Int
  RequestModule : String
  Metadata : String
deriving DecidableEq, Repr

/-- Modelled from the spec: the voting-power snapshot of x/snapshot/exported (not under
src/), an immutable record referenced by a counter that maps validator addresses to
weights. -/
structure Snapshot where
  Validators : List Voter
  Counter : Int
deriving DecidableEq, Repr

/-- Modelled from the spec: `Snapshot.GetValidator` of x/snapshot/exported (not under
src/), the lookup of an address in the snapshot's validator set. -/
def Snapshot.GetValidator (snap : Snapshot) (a : ValAddress) : Option Voter :=
  snap.Validators.find? (fun v => ValAddress.Equals a v.Validator)

/-! ## Events -/

/-- Event types used by the handlers (`types.EventType...`, `sdk.EventTypeMessage`). -/
inductive EventType
  | EventTypeKey
  | EventTypeKeygen
  | EventTypeSign
  | EventTypeMessage
  | EventTypeGatewayDeploymentConfirmation
  | EventTypeChainConfirmation
  | EventTypeDepositConfirmation
  | EventTypeTokenConfirmation
  | EventTypeTransferKeyConfirmation
deriving DecidableEq, Repr

/-- Attribute keys used by the handlers, named after the Go constants. -/
inductive AttrKey
  | AttributeKeyModule
  | AttributeKeyAction
  | AttributeKeySender
  | AttributeChain
  | AttributeKeyRole
  | AttributeKeyKeyID
  | AttributeKeyPoll
  | AttributeKeyPayload
  | AttributeKeySessionID
  | AttributeKeySigID
  | AttributeKeySigModule
  | AttributeKeyParticipants
  | AttributeKeyParticipantShareCounts
  | AttributeKeySigData
  | AttributeKeyValue
  | AttributeKeyChain
  | AttributeKeyAddress
  | AttributeKeyDestinationChain
  | AttributeKeyDestinationAddress
  | AttributeKeyTransferKeyType
deriving DecidableEq, Repr

/-- Action tags (`types.AttributeValue...`). -/
inductive ActionTag
  | AttributeValueAssigned
  | AttributeValueMsg
  | AttributeValueVote
  | AttributeValueDecided
  | AttributeValueConfirm
  | AttributeValueReject
deriving DecidableEq, Repr

/-- Attribute values, kept as the data they are rendered from. -/
inductive AttrValue
  | ModuleName (name : String)
  | Action (tag : ActionTag)
  | Str (s : String)
  | Address (a : Bytes)
  | PollKeyString (k : PollKey)
  | PollKeyJSON (k : PollKey)
  | RoleString (r : KeyRole)
  | KeygenVoteDataString (d : KeygenVoteData)
  | SignResultString (r : SignResult)
  | JSON (b : Bytes)
  | FormatBool (b : Bool)
  | Hex (b : List Nat)
  | TransferKeyTypeString (t : Nat)
deriving DecidableEq, Repr

/-- Event `sdk.Event`: its type (Go field `Type`) and its attributes in order. -/
structure Event where
  Ty : EventType
  Attributes : List (AttrKey × AttrValue)
deriving DecidableEq, Repr

/-- SDK `Event.AppendAttributes`: a copy of the event with the attributes appended. -/
def Event.AppendAttributes (e : Event) (attrs : List (AttrKey × AttrValue)) : Event :=
  { e with Attributes := e.Attributes ++ attrs }

/-- SDK `sdk.NewEvent`. -/
def NewEvent (ty : EventType) (attrs : List (AttrKey × AttrValue)) : Event :=
  { Ty := ty, Attributes := attrs }

/-! ## Requests of the tss message server -/

/-- One entry of `RegisterExternalKeysRequest.ExternalKeys`. -/
structure ExternalKey where
  ID : KeyID
  PubKey : Bytes
deriving DecidableEq, Repr

/-- Request `types.RegisterExternalKeysRequest`. -/
structure RegisterExternalKeysRequest where
  Sender : AccAddress
  Chain : String
  ExternalKeys : List ExternalKey
deriving DecidableEq, Repr

/-- Request `types.AckRequest`. -/
structure AckRequest where
  Sender : AccAddress
  ID : String
  AckType : AckType
  Height : Int
deriving DecidableEq, Repr

/-- Request `types.StartKeygenRequest`. -/
structure StartKeygenRequest where
  Sender : AccAddress
  KeyID : KeyID
  KeyRole : KeyRole
deriving DecidableEq, Repr

/-- Request `types.ProcessKeygenTrafficRequest` and `types.ProcessSignTrafficRequest`. -/
structure ProcessTrafficRequest where
  Sender : AccAddress
  SessionID : String
  Payload : Bytes
deriving DecidableEq, Repr

/-- Request `types.RotateKeyRequest`. -/
structure RotateKeyRequest where
  Sender : AccAddress
  Chain : String
  KeyRole : KeyRole
  KeyID : KeyID
deriving DecidableEq, Repr

/-- Request `types.VotePubKeyRequest`; `Result` is the oneof read by
`req.Result.GetKeygenResultData()`, which is `unset` for a nil `Result` too. -/
structure VotePubKeyRequest where
  Sender : AccAddress
  PollKey : PollKey
  Result : KeygenResultData
deriving DecidableEq, Repr

/-- Request `types.VoteSigRequest`, decoded with its result message present. -/
structure VoteSigRequest where
  Sender : AccAddress
  PollKey : PollKey
  Result : SignResult
deriving DecidableEq, Repr

/-! ## Data types of the evm module -/

/-- Hash `types.Hash` (a fixed-size byte array, compared by value). -/
abbrev Hash := List Nat

/-- Address `types.Address` (a fixed-size byte array, compared by value). -/
abbrev Address := List Nat

/-- SDK `sdk.Uint`, a struct holding a `*big.Int`: `ptr` identifies the pointer and `val`
is the number it points to. Go struct equality compares the pointer. -/
structure Uint where
  ptr : Nat
  val : Nat
deriving DecidableEq, Repr

/-- Deposit record `types.ERC20Deposit`. -/
structure ERC20Deposit where
  TxID : Hash
  Amount : Uint
  Asset : String
  DestinationChain : String
  BurnerAddress : Address
deriving DecidableEq, Repr

/-- Go `==` on two `ERC20Deposit` structs: field by field, the amount by its pointer. -/
def ERC20Deposit.eq (a b : ERC20Deposit) : Bool :=
  a.TxID == b.TxID && a.Amount.ptr == b.Amount.ptr && a.Asset == b.Asset &&
    a.DestinationChain == b.DestinationChain && a.BurnerAddress == b.BurnerAddress

/-- Enum `types.DepositState`; `Other` is any value but CONFIRMED and BURNED. -/
inductive DepositState
  | CONFIRMED
  | BURNED
  | Other (code : Int)
deriving DecidableEq, Repr

/-- Address on a chain, `nexus.CrossChainAddress`. -/
structure CrossChainAddress where
  Chain : Chain
  Address : String
deriving DecidableEq, Repr

/-- SDK `sdk.Coin`. -/
structure Coin where
  Denom : String
  Amount : Int
deriving DecidableEq, Repr

/-- Token status tested by `ERC20Token.Is`. -/
inductive TokenStatus
  | NonExistent
  | Initialized
  | Pending
  | Confirmed
deriving DecidableEq, Repr

/-- Token object `types.ERC20Token`, as far as `VoteConfirmToken` reads it. -/
structure ERC20Token where
  Asset : String
  TxID : Hash
  Status : TokenStatus
deriving DecidableEq, Repr

/-- Method `ERC20Token.Is` (x/evm/types, not under src/): the token has the status. -/
def ERC20Token.Is (t : ERC20Token) (status : TokenStatus) : Bool :=
  decide (t.Status = status)

/-- Record `types.TransferKey` of a pending or archived key transfer; `Ty` is its Go
field `Type`. -/
structure TransferKey where
  TxID : Hash
  Ty : Nat
  NextKeyID : KeyID
deriving DecidableEq, Repr

/-- Record `types.BurnerInfo` (x/evm/types, not under src/), kept as its encoded
bytes. -/
structure BurnerInfo where
  Data : List Nat
deriving DecidableEq, Repr

/-- Record `types.Command` (x/evm/types, not under src/): the command ID and the rest of
the command as its encoded bytes. -/
structure Command where
  ID : List Nat
  Data : List Nat
deriving DecidableEq, Repr

/-- Enum `types.TransferKeyType`; `Other` is any value but Ownership and Operatorship. -/
inductive TransferKeyType
  | Ownership
  | Operatorship
  | Other (code : Int)
deriving DecidableEq, Repr

/-- One entry of the evm module parameters, `types.Params`, as far as `getChainID` reads
it. -/
structure Params where
  Chain : String
  Network : String
deriving DecidableEq, Repr

/-! ## Calls, results and outcomes -/

/-- One recorded call of a handler: every state-mutating keeper call with its arguments
(and the error it returned, if it returns one), every poll call with what it returned,
and every emitted event. `GetResult` also records the state the poll was in when it
was called. -/
inductive Call
  | SetKey (keyID : KeyID) (pk : PublicKey)
  | SetKeyRole (keyID : KeyID) (role : KeyRole)
  | SetExternalKeyIDs (chain : Chain) (keyIDs : List KeyID)
  | SetAvailableOperator (ID : String) (ackType : AckType) (validator : ValAddress) (err : error)
  | ScheduleKeygen (req : StartKeygenRequest) (err : error)
  | AssignNextKey (chain : Chain) (role : KeyRole) (keyID : KeyID) (err : error)
  | RotateKey (chain : Chain) (role : KeyRole) (err : error)
  | SetPrivateRecoveryInfo (voter : ValAddress) (keyID : KeyID) (info : Bytes)
  | DeleteSnapshotCounterForKeyID (keyID : KeyID)
  | DeleteKeygenStart (keyID : KeyID)
  | DeleteParticipantsInKeygen (keyID : KeyID)
  | DeleteAllRecoveryInfos (keyID : KeyID)
  | SetGroupRecoveryInfo (keyID : KeyID) (info : Bytes)
  | PenalizeCriminal (criminal : ValAddress) (crimeType : Nat)
  | SetSig (sigID : String) (sig : Bytes)
  | SetSigStatus (sigID : String) (status : SigStatus)
  | DeleteInfoForSig (sigID : String)
  | Vote (voter : ValAddress) (data : VoteData) (err : error)
  | Is (state : PollState) (result : Bool)
  | GetResult (state : PollState) (result : VoteData)
  | AllowOverride
  | EmitEvent (e : Event)
  | DeletePendingGateway (chain : String) (err : error)
  | ConfirmPendingGateway (chain : String)
  | DeletePendingChain (name : String)
  | SetChain (chain : Chain)
  | RegisterAsset (chain : String) (asset : String)
  | DeletePendingDeposit (chain : String) (key : PollKey)
  | EnqueueForTransfer (sender : CrossChainAddress) (amount : Coin) (feeRate : Int) (err : error)
  | SetDeposit (chain : String) (deposit : ERC20Deposit) (state : DepositState)
  | RejectDeployment (chain : String) (asset : String)
  | ConfirmDeployment (chain : String) (asset : String)
  | DeletePendingTransferKey (chain : String) (key : PollKey)
  | ArchiveTransferKey (chain : String) (key : PollKey)
  | DeleteDeposit (chain : String) (deposit : ERC20Deposit)
  | EnqueueCommand (chain : String) (cmd : Command) (err : error)
deriving DecidableEq, Repr

/-- What a handler returns to its caller: a response (its `Log` field), an error, or a Go
runtime panic. -/
inductive Result
  | ok (Log : String)
  | err (msg : String)
  | panic (msg : String)
deriving DecidableEq, Repr

/-- The handler returned `(response, nil)`. -/
def Result.isOk : Result → Bool
  | .ok _ => true
  | _ => false

/-- The handler returned `(nil, err)` with a non-nil error. -/
def Result.isErr : Result → Bool
  | .err _ => true
  | _ => false

/-- Outcome of running a handler on context `ctx`: its result, the context it leaves,
the poll object it worked on (if it fetched one) and the calls it made, in order. -/
structure Outcome (σ π : Type) where
  result : Result
  ctx : σ
  trace : List Call
  poll : Option π := none

/-! ## Keeper interfaces shared by the tss and evm modules -/

/-- Interface `vote.Poll` (x/vote, not under src/), over a poll object of type `π`.
`State` is the state `Is` tests and `Result` the value `GetResult` returns. -/
structure Poll (π : Type) where
  Vote : π → ValAddress → VoteData → error × π
  State : π → PollState
  Result : π → VoteData
  AllowOverride : π → π
  GetVoters : π → List Voter
  GetKey : π → PollKey

/-- Modelled from the spec: `Poll.Is` of x/vote (not under src/), the read-only membership
test of the poll's state against Pending, Completed and Failed. -/
def Poll.Is {π : Type} (P : Poll π) (p : π) (state : PollState) : Bool :=
  decide (P.State p = state)

/-- Interface `types.Voter`: the vote keeper handing out poll objects. -/
structure types.Voter (σ π : Type) where
  GetPoll : σ → PollKey → π
  Poll : Poll π

/-- Interface `types.Snapshotter`, as far as the handlers use it. -/
structure Snapshotter (σ : Type) where
  GetOperator : σ → AccAddress → ValAddress
  GetSnapshot : σ → Int → Option Snapshot

namespace tss

/-- Interface `types.Nexus` of the tss module. -/
structure Nexus (σ : Type) where
  GetChain : σ → String → Option Chain

/-- Interface `types.TSSKeeper`, as far as the message server uses it. -/
structure TSSKeeper (σ : Type) where
  GetExternalMultisigThreshold : σ → Threshold
  GetKey : σ → KeyID → Option Key
  SetKey : σ → KeyID → PublicKey → σ
  SetKeyRole : σ → KeyID → KeyRole → σ
  SetExternalKeyIDs : σ → Chain → List KeyID → σ
  IsOperatorAvailable : σ → String → AckType → ValAddress → Bool
  HasKeygenStarted : σ → KeyID → Bool
  GetKeyForSigID : σ → String → Option Key
  SetAvailableOperator : σ → String → AckType → ValAddress → error × σ
  ScheduleKeygen : σ → StartKeygenRequest → error × σ
  DoesValidatorParticipateInKeygen : σ → KeyID → ValAddress → Bool
  DoesValidatorParticipateInSign : σ → String → ValAddress → Bool
  GetCurrentKeyID : σ → Chain → KeyRole → Option KeyID
  AssertMatchesRequirements : σ → Chain → KeyID → KeyRole → error
  AssignNextKey : σ → Chain → KeyRole → KeyID → error × σ
  RotateKey : σ → Chain → KeyRole → error × σ
  HasPrivateRecoveryInfos : σ → ValAddress → KeyID → Bool
  GetSnapshotCounterForKeyID : σ → KeyID → Option Int
  SetPrivateRecoveryInfo : σ → ValAddress → KeyID → Bytes → σ
  DeleteSnapshotCounterForKeyID : σ → KeyID → σ
  DeleteKeygenStart : σ → KeyID → σ
  DeleteParticipantsInKeygen : σ → KeyID → σ
  DeleteAllRecoveryInfos : σ → KeyID → σ
  SetGroupRecoveryInfo : σ → KeyID → Bytes → σ
  PenalizeCriminal : σ → ValAddress → Nat → σ
  GetSig : σ → String → Bytes × SigStatus
  GetInfoForSig : σ → String → Option SignInfo
  GetSignParticipantsAsJSON : σ → String → Bytes
  GetSignParticipantsSharesAsJSON : σ → String → Bytes
  DeleteInfoForSig : σ → String → σ
  SetSig : σ → String → Bytes → σ
  SetSigStatus : σ → String → SigStatus → σ

/-- Pure helper functions the handlers call whose code is not under src/. -/
structure Lib where
  /-- Method `exported.KeyID.Validate`. -/
  KeyIDValidate : KeyID → error
  /-- Function `btcec.ParsePubKey(bytes, btcec.S256())`; `none` when it returns an error. -/
  ParsePubKey : Bytes → Option PublicKey
  /-- Function `sdk.ValAddressFromBech32`, the address it returns (nil on error). -/
  ValAddressFromBech32 : String → ValAddress

/-- The tss `msgServer` struct. -/
structure msgServer (σ π : Type) where
  TSSKeeper : TSSKeeper σ
  snapshotter : Snapshotter σ
  voter : types.Voter σ π
  nexus : Nexus σ

/-! ## The tss message server (`x/tss/keeper/msg_server.go`) -/

variable {σ π : Type}

/-- Go `validateCriminal(criminal, poll)`, on the roster `poll.GetVoters()`. -/
def validateCriminal (criminal : ValAddress) (voters : List Voter) : error :=
  let criminalFound := voters.any (fun voter => ValAddress.Equals criminal voter.Validator)
  if !criminalFound then
    some "received criminal who is not a voter of poll"
  else
    none

/-- One iteration of the loop over the reported criminals in `VotePubKey` (lines 347-357)
and `VoteSig` (lines 480-490), on the context and the calls so far: an entry failing
`validateCriminal` is logged and skipped, every other entry is passed to
`PenalizeCriminal`. -/
def penalizeStep (s : msgServer σ π) (lib : Lib) (poll : π) (acc : σ × List Call)
    (criminal : Criminal) : σ × List Call :=
  let criminalAddress := lib.ValAddressFromBech32 criminal.PartyUid
  match validateCriminal criminalAddress (s.voter.Poll.GetVoters poll) with
  | some _ => acc
  | none =>
    (s.TSSKeeper.PenalizeCriminal acc.1 criminalAddress criminal.CrimeType,
      acc.2 ++ [Call.PenalizeCriminal criminalAddress criminal.CrimeType])

/-- The loop over the reported criminals, from context `ctx`: the context it leaves and
the calls it makes. -/
def penalizeCriminals (s : msgServer σ π) (lib : Lib) (ctx : σ) (poll : π)
    (criminals : List Criminal) : σ × List Call :=
  criminals.foldl (penalizeStep s lib poll) (ctx, [])

/-- One iteration state of the loop of `RegisterExternalKeys`: the context, the calls so
far and the key IDs collected. -/
structure RegisterLoop (σ : Type) where
  ctx : σ
  trace : List Call
  keyIDs : List KeyID

/-- The loop of `RegisterExternalKeys` (lines 60-81); `Except.error` is an early
return with the context and calls reached so far. -/
def registerExternalKeysLoop (s : msgServer σ π) (lib : Lib) (chain : Chain) :
    List ExternalKey → RegisterLoop σ → Except (String × RegisterLoop σ) (RegisterLoop σ)
  | [], st => .ok st
  | externalKey :: rest, st =>
    if (s.TSSKeeper.GetKey st.ctx externalKey.ID).isSome then
      .error ("external key ID is already used", st)
    else
      match lib.ParsePubKey externalKey.PubKey with
      | none => .error ("invalid external key received", st)
      | some pubKey =>
        let ctx1 := s.TSSKeeper.SetKey st.ctx externalKey.ID pubKey
        let ctx2 := s.TSSKeeper.SetKeyRole ctx1 externalKey.ID KeyRole.ExternalKey
        let event := NewEvent EventType.EventTypeKey
          [(AttrKey.AttributeKeyModule, AttrValue.ModuleName "tss"),
           (AttrKey.AttributeKeyAction, AttrValue.Action ActionTag.AttributeValueAssigned),
           (AttrKey.AttributeChain, AttrValue.Str chain.Name),
           (AttrKey.AttributeKeyRole, AttrValue.RoleString KeyRole.ExternalKey),
           (AttrKey.AttributeKeyKeyID, AttrValue.Str externalKey.ID)]
        registerExternalKeysLoop s lib chain rest
          { ctx := ctx2
            trace := st.trace ++ [Call.SetKey externalKey.ID pubKey,
              Call.SetKeyRole externalKey.ID KeyRole.ExternalKey, Call.EmitEvent event]
            keyIDs := st.keyIDs ++ [externalKey.ID] }

/-- Handler `msgServer.RegisterExternalKeys`. -/
def RegisterExternalKeys (s : msgServer σ π) (lib : Lib) (ctx : σ)
    (req : RegisterExternalKeysRequest) : Outcome σ π :=
  match s.nexus.GetChain ctx req.Chain with
  | none => { result := .err "unknown chain", ctx := ctx, trace := [] }
  | some chain =>
    let requiredExternalKeyCount := (s.TSSKeeper.GetExternalMultisigThreshold ctx).Denominator
    if (req.ExternalKeys.length : Int) ≠ requiredExternalKeyCount then
      { result := .err "external keys are required for chain", ctx := ctx, trace := [] }
    else
      match registerExternalKeysLoop s lib chain req.ExternalKeys
          { ctx := ctx, trace := [], keyIDs := [] } with
      | .error (msg, st) => { result := .err msg, ctx := st.ctx, trace := st.trace }
      | .ok st =>
        { result := .ok ""
          ctx := s.TSSKeeper.SetExternalKeyIDs st.ctx chain st.keyIDs
          trace := st.trace ++ [Call.SetExternalKeyIDs chain st.keyIDs] }

/-- Handler `msgServer.Ack`. -/
def Ack (s : msgServer σ π) (lib : Lib) (ctx : σ) (req : AckRequest) : Outcome σ π :=
  let validator := s.snapshotter.GetOperator ctx req.Sender
  if validator.Empty then
    { result := .err "sender is not a validator", ctx := ctx, trace := [] }
  else if s.TSSKeeper.IsOperatorAvailable ctx req.ID req.AckType validator then
    { result := .err "sender already submitted an ACK message for keygen/sig ID"
      ctx := ctx, trace := [] }
  else
    let setAvailable : Outcome σ π :=
      let r := s.TSSKeeper.SetAvailableOperator ctx req.ID req.AckType validator
      { result := match r.1 with
          | some e => .err e
          | none => .ok ""
        ctx := r.2
        trace := [Call.SetAvailableOperator req.ID req.AckType validator r.1] }
    match req.AckType with
    | .Keygen =>
      let keyID : KeyID := req.ID
      match lib.KeyIDValidate keyID with
      | some e => { result := .err e, ctx := ctx, trace := [] }
      | none =>
        if s.TSSKeeper.HasKeygenStarted ctx keyID then
          { result := .ok "", ctx := ctx, trace := [] }
        else
          setAvailable
    | .Sign =>
      if (s.TSSKeeper.GetKeyForSigID ctx req.ID).isSome then
        { result := .ok "", ctx := ctx, trace := [] }
      else
        setAvailable
    | .Other _ => { result := .err "unknown ack type", ctx := ctx, trace := [] }

/-- Handler `msgServer.StartKeygen`. -/
def StartKeygen (s : msgServer σ π) (ctx : σ) (req : StartKeygenRequest) : Outcome σ π :=
  if s.TSSKeeper.HasKeygenStarted ctx req.KeyID then
    { result := .err "key ID is already in use", ctx := ctx, trace := [] }
  else
    let r := s.TSSKeeper.ScheduleKeygen ctx req
    match r.1 with
    | some e => { result := .err e, ctx := r.2, trace := [Call.ScheduleKeygen req r.1] }
    | none => { result := .ok "", ctx := r.2, trace := [Call.ScheduleKeygen req r.1] }

/-- Handler `msgServer.ProcessKeygenTraffic`. -/
def ProcessKeygenTraffic (s : msgServer σ π) (lib : Lib) (ctx : σ)
    (req : ProcessTrafficRequest) : Outcome σ π :=
  let senderAddress := s.snapshotter.GetOperator ctx req.Sender
  if senderAddress.Empty then
    { result := .err "invalid message: sender is not a validator", ctx := ctx, trace := [] }
  else
    let keyID : KeyID := req.SessionID
    match lib.KeyIDValidate keyID with
    | some e => { result := .err e, ctx := ctx, trace := [] }
    | none =>
      if !s.TSSKeeper.DoesValidatorParticipateInKeygen ctx keyID senderAddress then
        { result := .err "invalid message: sender does not participate in keygen"
          ctx := ctx, trace := [] }
      else
        { result := .ok "", ctx := ctx
          trace := [Call.EmitEvent (NewEvent EventType.EventTypeKeygen
            [(AttrKey.AttributeKeyModule, AttrValue.ModuleName "tss"),
             (AttrKey.AttributeKeyAction, AttrValue.Action ActionTag.AttributeValueMsg),
             (AttrKey.AttributeKeySessionID, AttrValue.Str req.SessionID),
             (AttrKey.AttributeKeySender, AttrValue.Address senderAddress),
             (AttrKey.AttributeKeyPayload, AttrValue.JSON req.Payload)])] }

/-- Handler `msgServer.ProcessSignTraffic`. -/
def ProcessSignTraffic (s : msgServer σ π) (ctx : σ) (req : ProcessTrafficRequest) :
    Outcome σ π :=
  let senderAddress := s.snapshotter.GetOperator ctx req.Sender
  if senderAddress.Empty then
    { result := .err "invalid message: sender is not a validator", ctx := ctx, trace := [] }
  else if !s.TSSKeeper.DoesValidatorParticipateInSign ctx req.SessionID senderAddress then
    { result := .err "invalid message: sender does not participate in sign"
      ctx := ctx, trace := [] }
  else
    { result := .ok "", ctx := ctx
      trace := [Call.EmitEvent (NewEvent EventType.EventTypeSign
        [(AttrKey.AttributeKeyModule, AttrValue.ModuleName "tss"),
         (AttrKey.AttributeKeyAction, AttrValue.Action ActionTag.AttributeValueMsg),
         (AttrKey.AttributeKeySessionID, AttrValue.Str req.SessionID),
         (AttrKey.AttributeKeySender, AttrValue.Address senderAddress),
         (AttrKey.AttributeKeyPayload, AttrValue.JSON req.Payload)])] }

/-- Handler `msgServer.RotateKey`. -/
def RotateKey (s : msgServer σ π) (ctx : σ) (req : RotateKeyRequest) : Outcome σ π :=
  match s.nexus.GetChain ctx req.Chain with
  | none => { result := .err "unknown chain", ctx := ctx, trace := [] }
  | some chain =>
    if (s.TSSKeeper.GetCurrentKeyID ctx chain req.KeyRole).isSome then
      { result := .err "manual key rotation is only allowed when no key is active"
        ctx := ctx, trace := [] }
    else
      match s.TSSKeeper.AssertMatchesRequirements ctx chain req.KeyID req.KeyRole with
      | some _ =>
        { result := .err "key does not match requirements for chain and role"
          ctx := ctx, trace := [] }
      | none =>
        let a := s.TSSKeeper.AssignNextKey ctx chain req.KeyRole req.KeyID
        let t1 := [Call.AssignNextKey chain req.KeyRole req.KeyID a.1]
        match a.1 with
        | some e => { result := .err e, ctx := a.2, trace := t1 }
        | none =>
          let r := s.TSSKeeper.RotateKey a.2 chain req.KeyRole
          let t2 := t1 ++ [Call.RotateKey chain req.KeyRole r.1]
          match r.1 with
          | some e => { result := .err e, ctx := r.2, trace := t2 }
          | none =>
            { result := .ok "", ctx := r.2
              trace := t2 ++ [Call.EmitEvent (NewEvent EventType.EventTypeMessage
                [(AttrKey.AttributeKeyModule, AttrValue.ModuleName "tss"),
                 (AttrKey.AttributeKeySender, AttrValue.Address req.Sender),
                 (AttrKey.AttributeChain, AttrValue.Str chain.Name)])] }

/-- The four deletions of keygen bookkeeping made by `VotePubKey` (lines 298-301 and
337-340), in order. -/
def deleteKeygenState (s : msgServer σ π) (ctx : σ) (keyID : KeyID) : σ :=
  let ctx1 := s.TSSKeeper.DeleteSnapshotCounterForKeyID ctx keyID
  let ctx2 := s.TSSKeeper.DeleteKeygenStart ctx1 keyID
  let ctx3 := s.TSSKeeper.DeleteParticipantsInKeygen ctx2 keyID
  s.TSSKeeper.DeleteAllRecoveryInfos ctx3 keyID

/-- The calls recorded for `deleteKeygenState`. -/
def deleteKeygenCalls (keyID : KeyID) : List Call :=
  [Call.DeleteSnapshotCounterForKeyID keyID, Call.DeleteKeygenStart keyID,
   Call.DeleteParticipantsInKeygen keyID, Call.DeleteAllRecoveryInfos keyID]

/-- Handler `msgServer.VotePubKey`. `afterSwitch` is the handler from line 268 on, given
the vote data chosen by the switch on the request's keygen result (lines 229-266) and the
context and calls after that switch. The event deferred at line 289 is the event as it is
at that line (Go evaluates the arguments of a deferred call at the `defer` statement); it
is emitted last on every return after that line. -/
def VotePubKey (s : msgServer σ π) (lib : Lib) (ctx : σ) (req : VotePubKeyRequest) :
    Outcome σ π :=
  let voter := s.snapshotter.GetOperator ctx req.Sender
  if voter = none then
    { result := .err "account is not registered as a validator proxy", ctx := ctx, trace := [] }
  else
    let keyID : KeyID := req.PollKey.ID
    let afterSwitch (voteData : VoteData) (ctx1 : σ) (t1 : List Call) : Outcome σ π :=
      if (s.TSSKeeper.GetKey ctx1 keyID).isSome then
        { result := .ok "", ctx := ctx1, trace := t1 }
      else
        let P := s.voter.Poll
        let poll0 := s.voter.GetPoll ctx1 req.PollKey
        let v := P.Vote poll0 voter voteData
        let poll := v.2
        let t2 := t1 ++ [Call.Vote voter voteData v.1]
        match v.1 with
        | some e => { result := .err e, ctx := ctx1, trace := t2, poll := some poll }
        | none =>
          let t3 := t2 ++ [Call.Is PollState.Pending (P.Is poll PollState.Pending)]
          if P.Is poll PollState.Pending then
            { result := .ok "not enough votes to confirm public key yet"
              ctx := ctx1, trace := t3, poll := some poll }
          else
            let event := NewEvent EventType.EventTypeKeygen
              [(AttrKey.AttributeKeyModule, AttrValue.ModuleName "tss"),
               (AttrKey.AttributeKeyPoll, AttrValue.PollKeyString req.PollKey)]
            let deferred := [Call.EmitEvent event]
            let t4 := t3 ++ [Call.Is PollState.Failed (P.Is poll PollState.Failed)]
            if P.Is poll PollState.Failed then
              { result := .ok ""
                ctx := deleteKeygenState s ctx1 keyID
                trace := t4 ++ [Call.EmitEvent (event.AppendAttributes
                    [(AttrKey.AttributeKeyAction, AttrValue.Action ActionTag.AttributeValueReject)])]
                  ++ deleteKeygenCalls keyID ++ deferred
                poll := some poll }
            else
              let result := P.Result poll
              let t5 := t4 ++ [Call.GetResult (P.State poll) result]
              match result with
              | .KeygenVoteData keygenResult =>
                match lib.ParsePubKey keygenResult.PubKey with
                | none =>
                  { result := .err "could not parse public key bytes"
                    ctx := ctx1, trace := t5 ++ deferred, poll := some poll }
                | some pubKey =>
                  let ctx2 := s.TSSKeeper.SetKey ctx1 keyID pubKey
                  let ctx3 := s.TSSKeeper.SetGroupRecoveryInfo ctx2 keyID
                    keygenResult.GroupRecoveryInfo
                  { result := .ok ""
                    ctx := ctx3
                    trace := t5 ++ [Call.SetKey keyID pubKey,
                      Call.SetGroupRecoveryInfo keyID keygenResult.GroupRecoveryInfo,
                      Call.EmitEvent (event.AppendAttributes
                        [(AttrKey.AttributeKeyAction,
                            AttrValue.Action ActionTag.AttributeValueDecided),
                         (AttrKey.AttributeKeyPayload,
                            AttrValue.KeygenVoteDataString keygenResult)])]
                      ++ deferred
                    poll := some poll }
              | .CriminalList keygenResult =>
                let ctx2 := deleteKeygenState s ctx1 keyID
                let poll1 := P.AllowOverride poll
                let loop := penalizeCriminals s lib ctx2 poll1 keygenResult.Criminals
                { result := .ok ""
                  ctx := loop.1
                  trace := t5 ++ deleteKeygenCalls keyID ++ [Call.AllowOverride,
                    Call.EmitEvent (event.AppendAttributes
                      [(AttrKey.AttributeKeyAction,
                          AttrValue.Action ActionTag.AttributeValueReject)])]
                    ++ loop.2 ++ deferred
                  poll := some poll1 }
              | _ =>
                { result := .err "unrecognized voting result type"
                  ctx := ctx1, trace := t5 ++ deferred, poll := some poll }
    match req.Result with
    | .Criminals criminals => afterSwitch (VoteData.CriminalList criminals) ctx []
    | .Data data =>
      if s.TSSKeeper.HasPrivateRecoveryInfos ctx voter keyID then
        { result := .err "voter already submitted their private recovery info"
          ctx := ctx, trace := [] }
      else
        match s.TSSKeeper.GetSnapshotCounterForKeyID ctx keyID with
        | none =>
          { result := .err "could not obtain snapshot counter for key ID"
            ctx := ctx, trace := [] }
        | some counter =>
          match s.snapshotter.GetSnapshot ctx counter with
          | none =>
            { result := .err "could not obtain snapshot for counter", ctx := ctx, trace := [] }
          | some snapshot =>
            match snapshot.GetValidator voter with
            | none =>
              { result := .err "could not find validator in snapshot", ctx := ctx, trace := [] }
            | some _ =>
              match data.PubKey with
              | none => { result := .err "public key is nil", ctx := ctx, trace := [] }
              | some pubKey =>
                afterSwitch
                  (VoteData.KeygenVoteData
                    { PubKey := some pubKey, GroupRecoveryInfo := data.GroupRecoverInfo })
                  (s.TSSKeeper.SetPrivateRecoveryInfo ctx voter keyID data.PrivateRecoverInfo)
                  [Call.SetPrivateRecoveryInfo voter keyID data.PrivateRecoverInfo]
    | .unset => { result := .err "invalid data type", ctx := ctx, trace := [] }

/-- Handler `msgServer.VoteSig`. The deferred closure of line 442 emits the event
variable as it is when the handler returns or panics. Reading `.Criminals` of the nil
pointer returned by `GetCriminals()` (line 480) is a nil dereference: a runtime panic. -/
def VoteSig (s : msgServer σ π) (lib : Lib) (ctx : σ) (req : VoteSigRequest) : Outcome σ π :=
  if (s.TSSKeeper.GetSig ctx req.PollKey.ID).2 = SigStatus.Signed then
    { result := .ok "", ctx := ctx, trace := [] }
  else
    let voter := s.snapshotter.GetOperator ctx req.Sender
    if voter = none then
      { result := .err "account is not registered as a validator proxy"
        ctx := ctx, trace := [] }
    else
      match s.TSSKeeper.GetInfoForSig ctx req.PollKey.ID with
      | none => { result := .err "sig info does not exist", ctx := ctx, trace := [] }
      | some info =>
        let P := s.voter.Poll
        let poll0 := s.voter.GetPoll ctx req.PollKey
        let v := P.Vote poll0 voter (VoteData.SignResult req.Result)
        let poll := v.2
        let t1 := [Call.Vote voter (VoteData.SignResult req.Result) v.1]
        match v.1 with
        | some e => { result := .err e, ctx := ctx, trace := t1, poll := some poll }
        | none =>
          let t2 := t1 ++ [Call.Is PollState.Pending (P.Is poll PollState.Pending)]
          if P.Is poll PollState.Pending then
            { result := .ok "not enough votes to confirm signature yet"
              ctx := ctx, trace := t2, poll := some poll }
          else
            let event0 := NewEvent EventType.EventTypeSign
              [(AttrKey.AttributeKeyModule, AttrValue.ModuleName "tss"),
               (AttrKey.AttributeKeyPoll, AttrValue.PollKeyString req.PollKey),
               (AttrKey.AttributeKeySigID, AttrValue.Str req.PollKey.ID),
               (AttrKey.AttributeKeySigModule, AttrValue.Str info.RequestModule),
               (AttrKey.AttributeKeyParticipants,
                  AttrValue.JSON (s.TSSKeeper.GetSignParticipantsAsJSON ctx req.PollKey.ID)),
               (AttrKey.AttributeKeyParticipantShareCounts,
                  AttrValue.JSON (s.TSSKeeper.GetSignParticipantsSharesAsJSON ctx req.PollKey.ID))]
            let event1 :=
              if info.Metadata.length > 0 then
                event0.AppendAttributes [(AttrKey.AttributeKeySigData, AttrValue.Str info.Metadata)]
              else
                event0
            let reject := event1.AppendAttributes
              [(AttrKey.AttributeKeyAction, AttrValue.Action ActionTag.AttributeValueReject)]
            let t3 := t2 ++ [Call.Is PollState.Failed (P.Is poll PollState.Failed)]
            if P.Is poll PollState.Failed then
              { result := .ok ""
                ctx := s.TSSKeeper.DeleteInfoForSig ctx req.PollKey.ID
                trace := t3 ++ [Call.DeleteInfoForSig req.PollKey.ID, Call.EmitEvent reject]
                poll := some poll }
            else
              let result := P.Result poll
              let t4 := t3 ++ [Call.GetResult (P.State poll) result]
              match result with
              | .SignResult signResult =>
                match signResult.GetSignature with
                | some signature =>
                  let ctx1 := s.TSSKeeper.SetSig ctx req.PollKey.ID (some signature)
                  let ctx2 := s.TSSKeeper.SetSigStatus ctx1 req.PollKey.ID SigStatus.Signed
                  { result := .ok ""
                    ctx := ctx2
                    trace := t4 ++ [Call.SetSig req.PollKey.ID (some signature),
                      Call.SetSigStatus req.PollKey.ID SigStatus.Signed,
                      Call.EmitEvent (event1.AppendAttributes
                        [(AttrKey.AttributeKeyAction,
                            AttrValue.Action ActionTag.AttributeValueDecided),
                         (AttrKey.AttributeKeyPayload, AttrValue.SignResultString signResult)])]
                    poll := some poll }
                | none =>
                  let ctx1 := s.TSSKeeper.DeleteInfoForSig ctx req.PollKey.ID
                  let ctx2 := s.TSSKeeper.SetSigStatus ctx1 req.PollKey.ID SigStatus.Aborted
                  let poll1 := P.AllowOverride poll
                  let t5 := t4 ++ [Call.DeleteInfoForSig req.PollKey.ID,
                    Call.SetSigStatus req.PollKey.ID SigStatus.Aborted, Call.AllowOverride]
                  match signResult.GetCriminals with
                  | none =>
                    { result := .panic "invalid memory address or nil pointer dereference"
                      ctx := ctx2, trace := t5 ++ [Call.EmitEvent reject], poll := some poll1 }
                  | some criminalList =>
                    let loop := penalizeCriminals s lib ctx2 poll1 criminalList.Criminals
                    { result := .ok ""
                      ctx := loop.1
                      trace := t5 ++ loop.2 ++ [Call.EmitEvent reject]
                      poll := some poll1 }
              | _ =>
                { result := .err "unrecognized voting result type"
                  ctx := ctx, trace := t4 ++ [Call.EmitEvent event1], poll := some poll }

end tss

/-! ## Vote handlers of the evm message server (`x/evm/keeper/msg_server.go`) -/

namespace evm

variable {σ π : Type}

/-- Request `types.VoteConfirmGatewayDeploymentRequest`. -/
structure VoteConfirmGatewayDeploymentRequest where
  Sender : AccAddress
  Chain : String
  PollKey : PollKey
  Confirmed : Bool
deriving DecidableEq, Repr

/-- Request `types.VoteConfirmChainRequest`. -/
structure VoteConfirmChainRequest where
  Sender : AccAddress
  Name : String
  PollKey : PollKey
  Confirmed : Bool
deriving DecidableEq, Repr

/-- Request `types.VoteConfirmDepositRequest`. -/
structure VoteConfirmDepositRequest where
  Sender : AccAddress
  Chain : String
  PollKey : PollKey
  TxID : Hash
  BurnAddress : Address
  Confirmed : Bool
deriving DecidableEq, Repr

/-- Request `types.VoteConfirmTokenRequest`. -/
structure VoteConfirmTokenRequest where
  Sender : AccAddress
  Chain : String
  PollKey : PollKey
  Asset : String
  Confirmed : Bool
deriving DecidableEq, Repr

/-- Request `types.VoteConfirmTransferKeyRequest`. -/
structure VoteConfirmTransferKeyRequest where
  Sender : AccAddress
  Chain : String
  PollKey : PollKey
  Confirmed : Bool
deriving DecidableEq, Repr

/-- Interface `types.Nexus` of the evm module, as far as the vote handlers use it. -/
structure Nexus (σ : Type) where
  GetChain : σ → String → Option Chain
  IsChainActivated : σ → Chain → Bool
  SetChain : σ → Chain → σ
  RegisterAsset : σ → String → String → σ
  GetRecipient : σ → CrossChainAddress → Option CrossChainAddress
  EnqueueForTransfer : σ → CrossChainAddress → Coin → Int → error × σ

/-- Interface `types.ChainKeeper`, the keeper `ForChain(chain)` returns; the first
argument after the context is that chain name. The two token methods are those of the
token object `GetERC20TokenByAsset` returns, which write through to the store. -/
structure ChainKeeper (σ : Type) where
  GetGatewayAddress : σ → String → Option Address
  GetPendingGatewayAddress : σ → String → Option Address
  DeletePendingGateway : σ → String → error × σ
  ConfirmPendingGateway : σ → String → σ
  GetPendingDeposit : σ → String → PollKey → Option ERC20Deposit
  GetDeposit : σ → String → Hash → Address → Option (ERC20Deposit × DepositState)
  DeletePendingDeposit : σ → String → PollKey → σ
  GetTransactionFeeRate : σ → String → Option Int
  SetDeposit : σ → String → ERC20Deposit → DepositState → σ
  GetERC20TokenByAsset : σ → String → String → ERC20Token
  RejectDeployment : σ → String → String → σ
  ConfirmDeployment : σ → String → String → σ
  GetPendingTransferKey : σ → String → PollKey → Option TransferKey
  GetArchivedTransferKey : σ → String → PollKey → Option TransferKey
  DeletePendingTransferKey : σ → String → PollKey → σ
  ArchiveTransferKey : σ → String → PollKey → σ
  GetConfirmedDeposits : σ → String → List ERC20Deposit
  DeleteDeposit : σ → String → ERC20Deposit → σ
  GetBurnerInfo : σ → String → Address → Option BurnerInfo
  EnqueueCommand : σ → String → Command → error × σ
  GetGatewayByteCodes : σ → String → Bytes
  GetChainIDByNetwork : σ → String → String → Option Nat

/-- Interface `types.BaseKeeper`, as far as the handlers modelled here use it. -/
structure BaseKeeper (σ : Type) where
  ForChain : ChainKeeper σ
  GetPendingChain : σ → String → Option Chain
  DeletePendingChain : σ → String → σ
  GetParams : σ → List Params

/-- Interface `types.Signer`, as far as the handlers modelled here use it. -/
structure Signer (σ : Type) where
  GetKeyRole : σ → KeyID → KeyRole
  RotateKey : σ → Chain → KeyRole → error × σ
  GetNextKeyID : σ → Chain → KeyRole → Option KeyID
  GetCurrentKeyID : σ → Chain → KeyRole → Option KeyID
  GetCurrentKey : σ → Chain → KeyRole → Option Key
  GetKey : σ → KeyID → Option Key
  GetExternalKeyIDs : σ → Chain → Option (List KeyID)
  GetExternalMultisigThreshold : σ → Threshold
  AssertMatchesRequirements : σ → Chain → KeyID → KeyRole → error
  AssignNextKey : σ → Chain → KeyRole → KeyID → error × σ

/-- Pure helper functions the vote handlers call whose code is not under src/. -/
structure Lib where
  /-- Function `types.GetConfirmTokenKey`. -/
  GetConfirmTokenKey : Hash → String → PollKey
  /-- Function `sdk.ValidateDenom`, true when it returns no error. -/
  ValidateDenom : String → Bool
  /-- Method `Address.Hex`. -/
  AddressHex : Address → String

/-- The evm `msgServer` struct, as far as the vote handlers use it. -/
structure msgServer (σ π : Type) where
  BaseKeeper : BaseKeeper σ
  signer : Signer σ
  nexus : Nexus σ
  voter : types.Voter σ π
  snapshotter : Snapshotter σ

/-- Go `big.Int.Int64` on a non-negative number: its low 64 bits as a signed integer. -/
def toInt64 (n : Nat) : Int :=
  if n % 2 ^ 64 < 2 ^ 63 then (n % 2 ^ 64 : Nat) else (n % 2 ^ 64 : Nat) - 2 ^ 64

/-- Go `validateChainActivated`. -/
def validateChainActivated (n : Nexus σ) (ctx : σ) (chain : Chain) : error :=
  if !n.IsChainActivated ctx chain then
    some "chain is not activated yet"
  else
    none

/-- The vote event every evm vote handler emits right after a successful `poll.Vote`. -/
def voteEvent (ty : EventType) (value : Bool) : Event :=
  NewEvent ty
    [(AttrKey.AttributeKeyModule, AttrValue.ModuleName "evm"),
     (AttrKey.AttributeKeyAction, AttrValue.Action ActionTag.AttributeValueVote),
     (AttrKey.AttributeKeyValue, AttrValue.FormatBool value)]

/-- Handler `msgServer.VoteConfirmGatewayDeployment`. The deferred closure of line 199
emits the event variable as it is when the handler returns. -/
def VoteConfirmGatewayDeployment (s : msgServer σ π) (ctx : σ)
    (req : VoteConfirmGatewayDeploymentRequest) : Outcome σ π :=
  match s.nexus.GetChain ctx req.Chain with
  | none => { result := .err "not a registered chain", ctx := ctx, trace := [] }
  | some chain =>
    match validateChainActivated s.nexus ctx chain with
    | some e => { result := .err e, ctx := ctx, trace := [] }
    | none =>
      let keeper := s.BaseKeeper.ForChain
      if (keeper.GetGatewayAddress ctx chain.Name).isSome then
        { result := .ok "gateway is already confirmed", ctx := ctx, trace := [] }
      else
        match keeper.GetPendingGatewayAddress ctx chain.Name with
        | none => { result := .err "no pending gateway found", ctx := ctx, trace := [] }
        | some address =>
          let voter := s.snapshotter.GetOperator ctx req.Sender
          if voter = none then
            { result := .err "account is not registered as a validator proxy"
              ctx := ctx, trace := [] }
          else
            let P := s.voter.Poll
            let poll0 := s.voter.GetPoll ctx req.PollKey
            let voteValue := VoteData.BoolValue req.Confirmed
            let v := P.Vote poll0 voter voteValue
            let poll := v.2
            let t1 := [Call.Vote voter voteValue v.1]
            match v.1 with
            | some e => { result := .err e, ctx := ctx, trace := t1, poll := some poll }
            | none =>
              let t2 := t1 ++
                [Call.EmitEvent (voteEvent EventType.EventTypeGatewayDeploymentConfirmation
                    req.Confirmed),
                 Call.Is PollState.Pending (P.Is poll PollState.Pending)]
              if P.Is poll PollState.Pending then
                { result := .ok "not enough votes to confirm gateway for chain yet"
                  ctx := ctx, trace := t2, poll := some poll }
              else
                let t3 := t2 ++ [Call.Is PollState.Failed (P.Is poll PollState.Failed)]
                if P.Is poll PollState.Failed then
                  let d := keeper.DeletePendingGateway ctx chain.Name
                  let t4 := t3 ++ [Call.DeletePendingGateway chain.Name d.1]
                  match d.1 with
                  | some e => { result := .err e, ctx := d.2, trace := t4, poll := some poll }
                  | none => { result := .ok "poll failed", ctx := d.2, trace := t4, poll := some poll }
                else
                  let t4 := t3 ++ [Call.GetResult (P.State poll) (P.Result poll)]
                  match P.Result poll with
                  | .BoolValue confirmed =>
                    let event := NewEvent EventType.EventTypeGatewayDeploymentConfirmation
                      [(AttrKey.AttributeKeyModule, AttrValue.ModuleName "evm"),
                       (AttrKey.AttributeKeyChain, AttrValue.Str chain.Name),
                       (AttrKey.AttributeKeyAddress, AttrValue.Hex address),
                       (AttrKey.AttributeKeyPoll, AttrValue.PollKeyJSON req.PollKey)]
                    if !confirmed then
                      let poll1 := P.AllowOverride poll
                      let reject := event.AppendAttributes [(AttrKey.AttributeKeyAction,
                        AttrValue.Action ActionTag.AttributeValueReject)]
                      let d := keeper.DeletePendingGateway ctx chain.Name
                      let t5 := t4 ++ [Call.AllowOverride,
                        Call.DeletePendingGateway chain.Name d.1, Call.EmitEvent reject]
                      match d.1 with
                      | some e =>
                        { result := .err e, ctx := d.2, trace := t5, poll := some poll1 }
                      | none =>
                        { result := .ok "gateway was discarded"
                          ctx := d.2, trace := t5, poll := some poll1 }
                    else
                      let confirm := event.AppendAttributes [(AttrKey.AttributeKeyAction,
                        AttrValue.Action ActionTag.AttributeValueConfirm)]
                      { result := .ok ""
                        ctx := keeper.ConfirmPendingGateway ctx chain.Name
                        trace := t4 ++ [Call.ConfirmPendingGateway chain.Name,
                          Call.EmitEvent confirm]
                        poll := some poll }
                  | _ =>
                    { result := .err "result of poll has wrong type, expected bool"
                      ctx := ctx
                      trace := t4 ++ [Call.GetResult (P.State poll) (P.Result poll)]
                      poll := some poll }

/-- Handler `msgServer.VoteConfirmChain`. -/
def VoteConfirmChain (s : msgServer σ π) (ctx : σ) (req : VoteConfirmChainRequest) :
    Outcome σ π :=
  if (s.nexus.GetChain ctx req.Name).isSome then
    { result := .ok "chain already confirmed", ctx := ctx, trace := [] }
  else
    match s.BaseKeeper.GetPendingChain ctx req.Name with
    | none => { result := .err "unknown chain", ctx := ctx, trace := [] }
    | some chain =>
      let voter := s.snapshotter.GetOperator ctx req.Sender
      if voter = none then
        { result := .err "account is not registered as a validator proxy"
          ctx := ctx, trace := [] }
      else
        let P := s.voter.Poll
        let poll0 := s.voter.GetPoll ctx req.PollKey
        let voteValue := VoteData.BoolValue req.Confirmed
        let v := P.Vote poll0 voter voteValue
        let poll := v.2
        let t1 := [Call.Vote voter voteValue v.1]
        match v.1 with
        | some e => { result := .err e, ctx := ctx, trace := t1, poll := some poll }
        | none =>
          let t2 := t1 ++
            [Call.EmitEvent (voteEvent EventType.EventTypeChainConfirmation req.Confirmed),
             Call.Is PollState.Pending (P.Is poll PollState.Pending)]
          if P.Is poll PollState.Pending then
            { result := .ok "not enough votes to confirm chain yet"
              ctx := ctx, trace := t2, poll := some poll }
          else
            let t3 := t2 ++ [Call.Is PollState.Failed (P.Is poll PollState.Failed)]
            if P.Is poll PollState.Failed then
              { result := .ok "poll failed"
                ctx := s.BaseKeeper.DeletePendingChain ctx req.Name
                trace := t3 ++ [Call.DeletePendingChain req.Name]
                poll := some poll }
            else
              let t4 := t3 ++ [Call.GetResult (P.State poll) (P.Result poll)]
              match P.Result poll with
              | .BoolValue confirmed =>
                let ctx1 := s.BaseKeeper.DeletePendingChain ctx req.Name
                let t5 := t4 ++ [Call.GetResult (P.State poll) (P.Result poll),
                  Call.DeletePendingChain req.Name]
                let event := NewEvent EventType.EventTypeChainConfirmation
                  [(AttrKey.AttributeKeyModule, AttrValue.ModuleName "evm"),
                   (AttrKey.AttributeKeyChain, AttrValue.Str req.Name),
                   (AttrKey.AttributeKeyPoll, AttrValue.PollKeyJSON req.PollKey)]
                if !confirmed then
                  { result := .ok "chain was rejected"
                    ctx := ctx1
                    trace := t5 ++ [Call.AllowOverride,
                      Call.EmitEvent (event.AppendAttributes [(AttrKey.AttributeKeyAction,
                        AttrValue.Action ActionTag.AttributeValueReject)])]
                    poll := some (P.AllowOverride poll) }
                else
                  let ctx2 := s.nexus.SetChain ctx1 chain
                  let ctx3 := s.nexus.RegisterAsset ctx2 chain.Name chain.NativeAsset
                  { result := .ok ""
                    ctx := ctx3
                    trace := t5 ++ [Call.EmitEvent (event.AppendAttributes
                        [(AttrKey.AttributeKeyAction,
                          AttrValue.Action ActionTag.AttributeValueConfirm)]),
                      Call.SetChain chain, Call.RegisterAsset chain.Name chain.NativeAsset]
                    poll := some poll }
              | _ =>
                { result := .err "result of poll has wrong type, expected bool"
                  ctx := ctx
                  trace := t4 ++ [Call.GetResult (P.State poll) (P.Result poll)]
                  poll := some poll }

/-- The Go zero value of `ERC20Deposit`, which `GetPendingDeposit` and `GetDeposit` return
when nothing is found; its amount holds the nil pointer (`ptr = 0`). -/
def zeroDeposit : ERC20Deposit :=
  { TxID := List.replicate 32 0, Amount := { ptr := 0, val := 0 }, Asset := ""
    DestinationChain := "", BurnerAddress := List.replicate 20 0 }

/-- Go `sdk.NewInt64Coin(asset, amount.BigInt().Int64())` (line 805): `BigInt` on the nil
pointer and `NewCoin` on an invalid denomination or a negative amount panic (`none`). -/
def newInt64Coin (lib : Lib) (asset : String) (amount : Uint) : Option Coin :=
  if amount.ptr = 0 then none
  else if !lib.ValidateDenom asset then none
  else if toInt64 amount.val < 0 then none
  else some { Denom := asset, Amount := toInt64 amount.val }

/-- Handler `msgServer.VoteConfirmDeposit` from line 741 on (after the switch of lines
719-739), for the chain and pending deposit found before it and the context and calls
after it. The deferred closure of line 794 emits the event variable as it is when the
handler returns or panics. -/
def voteConfirmDepositVote (s : msgServer σ π) (lib : Lib) (req : VoteConfirmDepositRequest)
    (chain : Chain) (pendingDeposit : ERC20Deposit) (ctx1 : σ) (t1 : List Call) : Outcome σ π :=
  let keeper := s.BaseKeeper.ForChain
  if (s.nexus.GetChain ctx1 pendingDeposit.DestinationChain).isNone then
    { result := .err "destination chain is not a registered chain"
      ctx := ctx1, trace := t1 }
  else
    let voter := s.snapshotter.GetOperator ctx1 req.Sender
    if voter = none then
      { result := .err "account is not registered as a validator proxy"
        ctx := ctx1, trace := t1 }
    else
      let P := s.voter.Poll
      let poll0 := s.voter.GetPoll ctx1 req.PollKey
      let voteValue := VoteData.BoolValue req.Confirmed
      let v := P.Vote poll0 voter voteValue
      let poll := v.2
      let t2 := t1 ++ [Call.Vote voter voteValue v.1]
      match v.1 with
      | some e => { result := .err e, ctx := ctx1, trace := t2, poll := some poll }
      | none =>
        let t3 := t2 ++
          [Call.EmitEvent (voteEvent EventType.EventTypeDepositConfirmation req.Confirmed),
           Call.Is PollState.Pending (P.Is poll PollState.Pending)]
        if P.Is poll PollState.Pending then
          { result := .ok "not enough votes to confirm deposit yet"
            ctx := ctx1, trace := t3, poll := some poll }
        else
          let t4 := t3 ++ [Call.Is PollState.Failed (P.Is poll PollState.Failed)]
          if P.Is poll PollState.Failed then
            { result := .ok "poll failed"
              ctx := keeper.DeletePendingDeposit ctx1 chain.Name req.PollKey
              trace := t4 ++ [Call.DeletePendingDeposit chain.Name req.PollKey]
              poll := some poll }
          else
            let t5 := t4 ++ [Call.GetResult (P.State poll) (P.Result poll)]
            match P.Result poll with
            | .BoolValue confirmed =>
              let ctx2 := keeper.DeletePendingDeposit ctx1 chain.Name req.PollKey
              let t6 := t5 ++ [Call.GetResult (P.State poll) (P.Result poll),
                Call.DeletePendingDeposit chain.Name req.PollKey]
              let depositAddr : CrossChainAddress :=
                { Address := lib.AddressHex pendingDeposit.BurnerAddress, Chain := chain }
              match s.nexus.GetRecipient ctx2 depositAddr with
              | none =>
                { result := .err "cross-chain sender has no recipient"
                  ctx := ctx2, trace := t6, poll := some poll }
              | some recipient =>
                let event := NewEvent EventType.EventTypeDepositConfirmation
                  [(AttrKey.AttributeKeyModule, AttrValue.ModuleName "evm"),
                   (AttrKey.AttributeKeyChain, AttrValue.Str chain.Name),
                   (AttrKey.AttributeKeyDestinationChain,
                      AttrValue.Str recipient.Chain.Name),
                   (AttrKey.AttributeKeyDestinationAddress,
                      AttrValue.Str recipient.Address),
                   (AttrKey.AttributeKeyPoll, AttrValue.PollKeyJSON req.PollKey)]
                if !confirmed then
                  { result := .ok "deposit was discarded"
                    ctx := ctx2
                    trace := t6 ++ [Call.AllowOverride,
                      Call.EmitEvent (event.AppendAttributes
                        [(AttrKey.AttributeKeyAction,
                          AttrValue.Action ActionTag.AttributeValueReject)])]
                    poll := some (P.AllowOverride poll) }
                else
                  let deferred := [Call.EmitEvent (event.AppendAttributes
                    [(AttrKey.AttributeKeyAction,
                      AttrValue.Action ActionTag.AttributeValueConfirm)])]
                  match newInt64Coin lib pendingDeposit.Asset pendingDeposit.Amount with
                  | none =>
                    { result := .panic "invalid coin"
                      ctx := ctx2, trace := t6 ++ deferred, poll := some poll }
                  | some amount =>
                    match keeper.GetTransactionFeeRate ctx2 chain.Name with
                    | none =>
                      { result := .err "could not retrieve transaction fee rate"
                        ctx := ctx2, trace := t6 ++ deferred, poll := some poll }
                    | some feeRate =>
                      let q := s.nexus.EnqueueForTransfer ctx2 depositAddr amount feeRate
                      let t7 := t6 ++ [Call.EnqueueForTransfer depositAddr amount feeRate q.1]
                      match q.1 with
                      | some e =>
                        { result := .err e
                          ctx := q.2, trace := t7 ++ deferred, poll := some poll }
                      | none =>
                        { result := .ok ""
                          ctx := keeper.SetDeposit q.2 chain.Name pendingDeposit
                            DepositState.CONFIRMED
                          trace := t7 ++ [Call.SetDeposit chain.Name pendingDeposit
                            DepositState.CONFIRMED] ++ deferred
                          poll := some poll }
            | _ =>
              { result := .err "result of poll has wrong type, expected bool"
                ctx := ctx1
                trace := t5 ++ [Call.GetResult (P.State poll) (P.Result poll)]
                poll := some poll }

/-- Handler `msgServer.VoteConfirmDeposit`: the checks and the switch of lines 705-739,
then `voteConfirmDepositVote`. -/
def VoteConfirmDeposit (s : msgServer σ π) (lib : Lib) (ctx : σ)
    (req : VoteConfirmDepositRequest) : Outcome σ π :=
  match s.nexus.GetChain ctx req.Chain with
  | none => { result := .err "not a registered chain", ctx := ctx, trace := [] }
  | some chain =>
    match validateChainActivated s.nexus ctx chain with
    | some e => { result := .err e, ctx := ctx, trace := [] }
    | none =>
      let keeper := s.BaseKeeper.ForChain
      let pending := keeper.GetPendingDeposit ctx chain.Name req.PollKey
      let pendingDeposit := pending.getD zeroDeposit
      let pollFound := pending.isSome
      let stored := keeper.GetDeposit ctx chain.Name req.TxID req.BurnAddress
      let confirmedDeposit := (stored.map Prod.fst).getD zeroDeposit
      let state := (stored.map Prod.snd).getD (DepositState.Other 0)
      let depositFound := stored.isSome
      let caseDepositFound (ctx1 : σ) (t1 : List Call) : Outcome σ π :=
        match state with
        | .CONFIRMED => { result := .ok "deposit already confirmed", ctx := ctx1, trace := t1 }
        | .BURNED => { result := .ok "deposit already spent", ctx := ctx1, trace := t1 }
        | .Other _ => voteConfirmDepositVote s lib req chain pendingDeposit ctx1 t1
      if depositFound && pollFound && confirmedDeposit.eq pendingDeposit then
        caseDepositFound (keeper.DeletePendingDeposit ctx chain.Name req.PollKey)
          [Call.DeletePendingDeposit chain.Name req.PollKey]
      else if depositFound then
        caseDepositFound ctx []
      else if !pollFound then
        { result := .err "no deposit found for poll", ctx := ctx, trace := [] }
      else if pendingDeposit.BurnerAddress ≠ req.BurnAddress ∨ pendingDeposit.TxID ≠ req.TxID then
        { result := .err "deposit does not match poll", ctx := ctx, trace := [] }
      else
        voteConfirmDepositVote s lib req chain pendingDeposit ctx []

/-- Handler `msgServer.VoteConfirmToken`. -/
def VoteConfirmToken (s : msgServer σ π) (lib : Lib) (ctx : σ)
    (req : VoteConfirmTokenRequest) : Outcome σ π :=
  match s.nexus.GetChain ctx req.Chain with
  | none => { result := .err "not a registered chain", ctx := ctx, trace := [] }
  | some chain =>
    match validateChainActivated s.nexus ctx chain with
    | some e => { result := .err e, ctx := ctx, trace := [] }
    | none =>
      let keeper := s.BaseKeeper.ForChain
      let token := keeper.GetERC20TokenByAsset ctx chain.Name req.Asset
      if token.Is TokenStatus.Confirmed then
        { result := .ok "token deployment already confirmed", ctx := ctx, trace := [] }
      else if !token.Is TokenStatus.Pending then
        { result := .err "no open poll for token", ctx := ctx, trace := [] }
      else if lib.GetConfirmTokenKey token.TxID token.Asset ≠ req.PollKey then
        { result := .err "poll key mismatch", ctx := ctx, trace := [] }
      else
        let voter := s.snapshotter.GetOperator ctx req.Sender
        if voter = none then
          { result := .err "account is not registered as a validator proxy"
            ctx := ctx, trace := [] }
        else
          let P := s.voter.Poll
          let poll0 := s.voter.GetPoll ctx req.PollKey
          let voteValue := VoteData.BoolValue req.Confirmed
          let v := P.Vote poll0 voter voteValue
          let poll := v.2
          let t1 := [Call.Vote voter voteValue v.1]
          match v.1 with
          | some e => { result := .err e, ctx := ctx, trace := t1, poll := some poll }
          | none =>
            let t2 := t1 ++
              [Call.EmitEvent (voteEvent EventType.EventTypeTokenConfirmation req.Confirmed),
               Call.Is PollState.Pending (P.Is poll PollState.Pending)]
            if P.Is poll PollState.Pending then
              { result := .ok "not enough votes to confirm token yet"
                ctx := ctx, trace := t2, poll := some poll }
            else
              let t3 := t2 ++ [Call.Is PollState.Failed (P.Is poll PollState.Failed)]
              if P.Is poll PollState.Failed then
                { result := .ok "poll failed"
                  ctx := keeper.RejectDeployment ctx chain.Name token.Asset
                  trace := t3 ++ [Call.RejectDeployment chain.Name token.Asset]
                  poll := some poll }
              else
                let t4 := t3 ++ [Call.GetResult (P.State poll) (P.Result poll)]
                match P.Result poll with
                | .BoolValue confirmed =>
                  let t5 := t4 ++ [Call.GetResult (P.State poll) (P.Result poll)]
                  let event := NewEvent EventType.EventTypeTokenConfirmation
                    [(AttrKey.AttributeKeyModule, AttrValue.ModuleName "evm"),
                     (AttrKey.AttributeKeyChain, AttrValue.Str chain.Name),
                     (AttrKey.AttributeKeyPoll, AttrValue.PollKeyJSON req.PollKey)]
                  if !confirmed then
                    { result := .ok "token was discarded"
                      ctx := keeper.RejectDeployment ctx chain.Name token.Asset
                      trace := t5 ++ [Call.AllowOverride,
                        Call.RejectDeployment chain.Name token.Asset,
                        Call.EmitEvent (event.AppendAttributes [(AttrKey.AttributeKeyAction,
                          AttrValue.Action ActionTag.AttributeValueReject)])]
                      poll := some (P.AllowOverride poll) }
                  else
                    let ctx1 := s.nexus.RegisterAsset ctx chain.Name req.Asset
                    { result := .ok "token deployment confirmed"
                      ctx := keeper.ConfirmDeployment ctx1 chain.Name token.Asset
                      trace := t5 ++ [Call.EmitEvent (event.AppendAttributes
                          [(AttrKey.AttributeKeyAction,
                            AttrValue.Action ActionTag.AttributeValueConfirm)]),
                        Call.RegisterAsset chain.Name req.Asset,
                        Call.ConfirmDeployment chain.Name token.Asset]
                      poll := some poll }
                | _ =>
                  { result := .err "result of poll has wrong type, expected bool"
                    ctx := ctx
                    trace := t4 ++ [Call.GetResult (P.State poll) (P.Result poll)]
                    poll := some poll }

/-- Handler `msgServer.VoteConfirmTransferKey`. -/
def VoteConfirmTransferKey (s : msgServer σ π) (ctx : σ)
    (req : VoteConfirmTransferKeyRequest) : Outcome σ π :=
  match s.nexus.GetChain ctx req.Chain with
  | none => { result := .err "not a registered chain", ctx := ctx, trace := [] }
  | some chain =>
    match validateChainActivated s.nexus ctx chain with
    | some e => { result := .err e, ctx := ctx, trace := [] }
    | none =>
      let keeper := s.BaseKeeper.ForChain
      match keeper.GetPendingTransferKey ctx chain.Name req.PollKey,
          keeper.GetArchivedTransferKey ctx chain.Name req.PollKey with
      | none, none => { result := .err "no transfer key found for poll", ctx := ctx, trace := [] }
      | _, some _ => { result := .ok "already confirmed", ctx := ctx, trace := [] }
      | some pendingTransfer, none =>
        let keyRole := s.signer.GetKeyRole ctx pendingTransfer.NextKeyID
        if keyRole = KeyRole.Unknown then
          { result := .err "key cannot be found", ctx := ctx, trace := [] }
        else
          let voter := s.snapshotter.GetOperator ctx req.Sender
          if voter = none then
            { result := .err "account is not registered as a validator proxy"
              ctx := ctx, trace := [] }
          else
            let P := s.voter.Poll
            let poll0 := s.voter.GetPoll ctx req.PollKey
            let voteValue := VoteData.BoolValue req.Confirmed
            let v := P.Vote poll0 voter voteValue
            let poll := v.2
            let t1 := [Call.Vote voter voteValue v.1]
            match v.1 with
            | some e => { result := .err e, ctx := ctx, trace := t1, poll := some poll }
            | none =>
              let t2 := t1 ++
                [Call.EmitEvent (voteEvent EventType.EventTypeTransferKeyConfirmation
                    req.Confirmed),
                 Call.Is PollState.Pending (P.Is poll PollState.Pending)]
              if P.Is poll PollState.Pending then
                { result := .ok "not enough votes to confirm transfer key yet"
                  ctx := ctx, trace := t2, poll := some poll }
              else
                let t3 := t2 ++ [Call.Is PollState.Failed (P.Is poll PollState.Failed)]
                if P.Is poll PollState.Failed then
                  { result := .ok "poll failed"
                    ctx := keeper.DeletePendingTransferKey ctx chain.Name req.PollKey
                    trace := t3 ++ [Call.DeletePendingTransferKey chain.Name req.PollKey]
                    poll := some poll }
                else
                  let t4 := t3 ++ [Call.GetResult (P.State poll) (P.Result poll)]
                  match P.Result poll with
                  | .BoolValue confirmed =>
                    let event := NewEvent EventType.EventTypeTransferKeyConfirmation
                      [(AttrKey.AttributeKeyModule, AttrValue.ModuleName "evm"),
                       (AttrKey.AttributeKeyChain, AttrValue.Str chain.Name),
                       (AttrKey.AttributeKeyTransferKeyType,
                          AttrValue.TransferKeyTypeString pendingTransfer.Ty),
                       (AttrKey.AttributeKeyPoll, AttrValue.PollKeyJSON req.PollKey)]
                    if !confirmed then
                      { result := .ok "failed to confirmed key transfer for chain"
                        ctx := ctx
                        trace := t4 ++ [Call.AllowOverride,
                          Call.EmitEvent (event.AppendAttributes [(AttrKey.AttributeKeyAction,
                            AttrValue.Action ActionTag.AttributeValueReject)])]
                        poll := some (P.AllowOverride poll) }
                    else
                      let ctx1 := keeper.ArchiveTransferKey ctx chain.Name req.PollKey
                      let r := s.signer.RotateKey ctx1 chain keyRole
                      let t5 := t4 ++ [Call.ArchiveTransferKey chain.Name req.PollKey,
                        Call.EmitEvent (event.AppendAttributes [(AttrKey.AttributeKeyAction,
                          AttrValue.Action ActionTag.AttributeValueConfirm)]),
                        Call.RotateKey chain keyRole r.1]
                      match r.1 with
                      | some e => { result := .err e, ctx := r.2, trace := t5, poll := some poll }
                      | none => { result := .ok "", ctx := r.2, trace := t5, poll := some poll }
                  | _ =>
                    { result := .err "result of poll has wrong type, expected bool"
                      ctx := ctx
                      trace := t4 ++ [Call.GetResult (P.State poll) (P.Result poll)]
                      poll := some poll }

end evm

/-! ## Trace predicates -/

/-- The call is one of the four deletions of keygen bookkeeping: snapshot counter, keygen
start, participants, recovery infos. -/
def isKeygenDelete : Call → Bool
  | .DeleteSnapshotCounterForKeyID _ => true
  | .DeleteKeygenStart _ => true
  | .DeleteParticipantsInKeygen _ => true
  | .DeleteAllRecoveryInfos _ => true
  | _ => false

/-- The `PenalizeCriminal` calls of a trace, in order, as (address, crime type). -/
def penalties (t : List Call) : List (ValAddress × Nat) :=
  t.filterMap (fun c =>
    match c with
    | .PenalizeCriminal a ty => some (a, ty)
    | _ => none)

/-- Scan of a trace for the guard on `GetResult`: `voted`, `notPending` and `notFailed`
say that an earlier `Vote` returned no error, an earlier `Is(Pending)` returned false and
an earlier `Is(Failed)` returned false; every `GetResult` must come with all three and on
a poll in state Completed. -/
def guardedFrom : Bool → Bool → Bool → List Call → Bool
  | _, _, _, [] => true
  | voted, notPending, notFailed, c :: t =>
    match c with
    | .Vote _ _ err => guardedFrom (voted || err.isNone) notPending notFailed t
    | .Is PollState.Pending b => guardedFrom voted (notPending || !b) notFailed t
    | .Is PollState.Failed b => guardedFrom voted notPending (notFailed || !b) t
    | .GetResult st _ =>
      voted && notPending && notFailed && decide (st = PollState.Completed) &&
        guardedFrom voted notPending notFailed t
    | _ => guardedFrom voted notPending notFailed t

/-- Every `GetResult` call of the trace is on a poll in state Completed and comes after a
`Vote` that returned no error, an `Is(Pending)` that returned false and an `Is(Failed)`
that returned false. -/
def GetResultGuarded (t : List Call) : Prop :=
  ∀ (pre post : List Call) (st : PollState) (r : VoteData),
    t = pre ++ Call.GetResult st r :: post →
      st = PollState.Completed ∧ (∃ voter data, Call.Vote voter data none ∈ pre) ∧
      Call.Is PollState.Pending false ∈ pre ∧ Call.Is PollState.Failed false ∈ pre

/-- The roster test of the loop over the reported criminals: the decoded address of the
entry equals the address of some voter of the roster. -/
def tss.inRoster (lib : tss.Lib) (voters : List Voter) (criminal : Criminal) : Bool :=
  voters.any (fun voter =>
    ValAddress.Equals (lib.ValAddressFromBech32 criminal.PartyUid) voter.Validator)

/-! ## Mock keepers for concrete runs -/

/-- A mock poll object with canned answers, in the style of the repository's moq mocks. -/
structure MockPoll where
  state : PollState
  result : VoteData
  voters : List Voter
  voteErr : error
  overridden : Bool
deriving DecidableEq, Repr

/-- The mock implementation of `vote.Poll`: `Vote` answers with the canned error and
leaves the poll as it is, `AllowOverride` sets a flag. -/
def mockPoll : Poll MockPoll :=
  { Vote := fun p _ _ => (p.voteErr, p)
    State := fun p => p.state
    Result := fun p => p.result
    AllowOverride := fun p => { p with overridden := true }
    GetVoters := fun p => p.voters
    GetKey := fun _ => { Module := "tss", ID := "id" } }

namespace tss


/-- Canned answers of the mock tss keeper and snapshotter. -/
structure Canned where
  operator : ValAddress := some [1]
  available : Bool := false
  keygenStarted : Bool := false
  key : Option Key := none
  keyForSig : Option Key := none
  sigStatus : SigStatus := SigStatus.Signing
  sigInfo : Option SignInfo := some
    { KeyID := "key", SigID := "sig", Msg := some [7], SnapshotCounter := 1,
      RequestModule := "evm", Metadata := "" }
  chain : Option Chain := none
  currentKey : Option KeyID := none
  snapshotCounter : Option Int := some 1
  snapshot : Option Snapshot := some { Validators := [{ Validator := some [1], VotingPower := 10 }], Counter := 1 }
  hasRecovery : Bool := false

/-- A mock `TSSKeeper` over a journal of calls: every read returns the canned answer,
every write appends its call to the journal and returns no error. -/
def mockKeeper (a : Canned) : TSSKeeper (List Call) :=
  { GetExternalMultisigThreshold := fun _ => { Numerator := 1, Denominator := 2 }
    GetKey := fun _ _ => a.key
    SetKey := fun j k pk => j ++ [Call.SetKey k pk]
    SetKeyRole := fun j k r => j ++ [Call.SetKeyRole k r]
    SetExternalKeyIDs := fun j c ids => j ++ [Call.SetExternalKeyIDs c ids]
    IsOperatorAvailable := fun _ _ _ _ => a.available
    HasKeygenStarted := fun _ _ => a.keygenStarted
    GetKeyForSigID := fun _ _ => a.keyForSig
    SetAvailableOperator := fun j i t v => (none, j ++ [Call.SetAvailableOperator i t v none])
    ScheduleKeygen := fun j r => (none, j ++ [Call.ScheduleKeygen r none])
    DoesValidatorParticipateInKeygen := fun _ _ _ => true
    DoesValidatorParticipateInSign := fun _ _ _ => true
    GetCurrentKeyID := fun _ _ _ => a.currentKey
    AssertMatchesRequirements := fun _ _ _ _ => none
    AssignNextKey := fun j c r k => (none, j ++ [Call.AssignNextKey c r k none])
    RotateKey := fun j c r => (none, j ++ [Call.RotateKey c r none])
    HasPrivateRecoveryInfos := fun _ _ _ => a.hasRecovery
    GetSnapshotCounterForKeyID := fun _ _ => a.snapshotCounter
    SetPrivateRecoveryInfo := fun j v k i => j ++ [Call.SetPrivateRecoveryInfo v k i]
    DeleteSnapshotCounterForKeyID := fun j k => j ++ [Call.DeleteSnapshotCounterForKeyID k]
    DeleteKeygenStart := fun j k => j ++ [Call.DeleteKeygenStart k]
    DeleteParticipantsInKeygen := fun j k => j ++ [Call.DeleteParticipantsInKeygen k]
    DeleteAllRecoveryInfos := fun j k => j ++ [Call.DeleteAllRecoveryInfos k]
    SetGroupRecoveryInfo := fun j k i => j ++ [Call.SetGroupRecoveryInfo k i]
    PenalizeCriminal := fun j c t => j ++ [Call.PenalizeCriminal c t]
    GetSig := fun _ _ => (none, a.sigStatus)
    GetInfoForSig := fun _ _ => a.sigInfo
    GetSignParticipantsAsJSON := fun _ _ => some []
    GetSignParticipantsSharesAsJSON := fun _ _ => some []
    DeleteInfoForSig := fun j i => j ++ [Call.DeleteInfoForSig i]
    SetSig := fun j i sg => j ++ [Call.SetSig i sg]
    SetSigStatus := fun j i st => j ++ [Call.SetSigStatus i st] }

/-- The mock message server: the mock keeper, a snapshotter resolving every sender to the
canned operator, and a voter handing out the given mock poll. -/
def mockServer (a : Canned) (p : MockPoll) : msgServer (List Call) MockPoll :=
  { TSSKeeper := mockKeeper a
    snapshotter := { GetOperator := fun _ _ => a.operator, GetSnapshot := fun _ _ => a.snapshot }
    voter := { GetPoll := fun _ _ => p, Poll := mockPoll }
    nexus := { GetChain := fun _ _ => a.chain } }

/-- Mock helper functions: a key ID is valid when non-empty, a public key parses when it
has at least two bytes, and an address decodes to the character codes of the string. -/
def mockLib : Lib :=
  { KeyIDValidate := fun k => if k.length = 0 then some "key id is empty" else none
    ParsePubKey := fun b =>
      match b with
      | some (x :: y :: _) => some (x, y)
      | _ => none
    ValAddressFromBech32 := fun str =>
      if str.length = 0 then none else some (str.toList.map Char.toNat) }

end tss

/-! ## Concrete inputs -/

namespace tss

/-- A Completed mock poll whose result is a list of two criminals, the first (address
`[97]`, the decoding of "a") in the roster and the second not. -/
def pollCriminals : MockPoll :=
  { state := PollState.Completed
    result := VoteData.CriminalList
      { Criminals := [{ PartyUid := "b", CrimeType := 2 }, { PartyUid := "a", CrimeType := 1 },
          { PartyUid := "c", CrimeType := 3 }, { PartyUid := "a", CrimeType := 4 }] }
    voters := [{ Validator := some [97], VotingPower := 5 },
      { Validator := some [1], VotingPower := 5 }]
    voteErr := none
    overridden := false }

/-- The criminal list of `pollCriminals`. -/
def criminalsABCA : CriminalList :=
  { Criminals := [{ PartyUid := "b", CrimeType := 2 }, { PartyUid := "a", CrimeType := 1 },
      { PartyUid := "c", CrimeType := 3 }, { PartyUid := "a", CrimeType := 4 }] }

/-- A `VotePubKey` request reporting criminals for key "key". -/
def reqPubKeyCriminals : VotePubKeyRequest :=
  { Sender := some [9], PollKey := { Module := "tss", ID := "key" }
    Result := KeygenResultData.Criminals { Criminals := [{ PartyUid := "a", CrimeType := 1 }] } }

/-- A `VotePubKey` request carrying keygen output for key "key". -/
def reqPubKeyData : VotePubKeyRequest :=
  { Sender := some [9], PollKey := { Module := "tss", ID := "key" }
    Result := KeygenResultData.Data
      { PubKey := some [3, 4], GroupRecoverInfo := some [5], PrivateRecoverInfo := some [6] } }

/-- A Completed mock poll whose result is a public key that parses. -/
def pollKey : MockPoll :=
  { state := PollState.Completed
    result := VoteData.KeygenVoteData { PubKey := some [3, 4], GroupRecoveryInfo := some [5] }
    voters := [{ Validator := some [1], VotingPower := 5 }]
    voteErr := none
    overridden := false }

/-- A Completed mock poll whose result is a public key that does not parse. -/
def pollBadKey : MockPoll :=
  { state := PollState.Completed
    result := VoteData.KeygenVoteData { PubKey := some [3], GroupRecoveryInfo := some [5] }
    voters := [{ Validator := some [1], VotingPower := 5 }]
    voteErr := none
    overridden := false }

/-- A Completed mock poll whose result is the given sign result. -/
def pollSig (r : SignResult) : MockPoll :=
  { state := PollState.Completed
    result := VoteData.SignResult r
    voters := [{ Validator := some [97], VotingPower := 5 },
      { Validator := some [1], VotingPower := 5 }]
    voteErr := none
    overridden := false }

/-- A `VoteSig` request for signature "sig" carrying the given sign result. -/
def reqSig (r : SignResult) : VoteSigRequest :=
  { Sender := some [9], PollKey := { Module := "tss", ID := "sig" }, Result := r }

/-- A sign result with a two-byte signature. -/
def sigTwoBytes : SignResult := { SignResultData := SignResultData.Signature (some [1, 2]) }

/-- A sign result whose signature is present and has zero bytes. -/
def sigZeroBytes : SignResult := { SignResultData := SignResultData.Signature (some []) }

/-- A sign result carrying the criminal list `criminalsABCA`. -/
def sigCriminals : SignResult := { SignResultData := SignResultData.Criminals (some criminalsABCA) }

/-- A sign result with neither a signature nor a criminal list. -/
def sigUnset : SignResult := { SignResultData := SignResultData.unset }

/-- A keygen acknowledgment for session "key". -/
def reqAckKeygen : AckRequest :=
  { Sender := some [9], ID := "key", AckType := AckType.Keygen, Height := 10 }

/-- A sign acknowledgment for session "sig". -/
def reqAckSign : AckRequest :=
  { Sender := some [9], ID := "sig", AckType := AckType.Sign, Height := 10 }

/-- The run of `VotePubKey` on `pollCriminals`. -/
def runPubKeyCriminals : Outcome (List Call) MockPoll :=
  VotePubKey (mockServer {} pollCriminals) mockLib [] reqPubKeyCriminals

/-- The run of `VoteSig` on a Completed poll whose result is `sigCriminals`. -/
def runSigCriminals : Outcome (List Call) MockPoll :=
  VoteSig (mockServer {} (pollSig sigCriminals)) mockLib [] (reqSig sigCriminals)

/-- A mock poll no `Ack` run touches. -/
def pollIdle : MockPoll :=
  { state := PollState.Pending, result := VoteData.Other, voters := [], voteErr := none
    overridden := false }

/-- The run of `VotePubKey` on a Completed poll whose result is a key that parses. -/
def runPubKeyGood : Outcome (List Call) MockPoll :=
  VotePubKey (mockServer {} pollKey) mockLib [] reqPubKeyData

/-- The run of `VotePubKey` on a Completed poll whose result is a key that does not
parse. -/
def runPubKeyBad : Outcome (List Call) MockPoll :=
  VotePubKey (mockServer {} pollBadKey) mockLib [] reqPubKeyData

/-- The run of `VoteSig` on a Completed poll whose result is `sigTwoBytes`. -/
def runSigTwoBytes : Outcome (List Call) MockPoll :=
  VoteSig (mockServer {} (pollSig sigTwoBytes)) mockLib [] (reqSig sigTwoBytes)

/-- The run of `VoteSig` on a Completed poll whose result is `sigZeroBytes`. -/
def runSigZeroBytes : Outcome (List Call) MockPoll :=
  VoteSig (mockServer {} (pollSig sigZeroBytes)) mockLib [] (reqSig sigZeroBytes)

/-- The run of `VoteSig` on a Completed poll whose result is `sigUnset`. -/
def runSigUnset : Outcome (List Call) MockPoll :=
  VoteSig (mockServer {} (pollSig sigUnset)) mockLib [] (reqSig sigUnset)

/-- The run of `Ack` when the sender resolves to no validator. -/
def runAckNoValidator : Outcome (List Call) MockPoll :=
  Ack (mockServer { operator := none } pollIdle) mockLib [] reqAckKeygen

/-- The run of `Ack` when the validator is already recorded as available. -/
def runAckDuplicate : Outcome (List Call) MockPoll :=
  Ack (mockServer { available := true } pollIdle) mockLib [] reqAckKeygen

/-- The run of a keygen `Ack` when the keygen has already started. -/
def runAckLateKeygen : Outcome (List Call) MockPoll :=
  Ack (mockServer { keygenStarted := true } pollIdle) mockLib [] reqAckKeygen

/-- The run of a sign `Ack` when a key is already recorded for the sig ID. -/
def runAckLateSign : Outcome (List Call) MockPoll :=
  Ack (mockServer { keyForSig := some { ID := "key", Value := (3, 4), Role := KeyRole.MasterKey } }
    pollIdle) mockLib [] reqAckSign

end tss

/-! ## Further trace predicates -/

/-- The call is part of processing a poll outcome: storing a key, its group recovery info
or a signature, setting a signature status, deleting keygen or sign bookkeeping,
fetching the poll result, allowing an override or penalizing a criminal. -/
def isOutcomeProcessing : Call → Bool
  | .SetKey _ _ => true
  | .SetGroupRecoveryInfo _ _ => true
  | .SetSig _ _ => true
  | .SetSigStatus _ _ => true
  | .DeleteSnapshotCounterForKeyID _ => true
  | .DeleteKeygenStart _ => true
  | .DeleteParticipantsInKeygen _ => true
  | .DeleteAllRecoveryInfos _ => true
  | .DeleteInfoForSig _ => true
  | .GetResult _ _ => true
  | .AllowOverride => true
  | .PenalizeCriminal _ _ => true
  | _ => false

/-- The call is a `GetResult`, an `AllowOverride` or a `PenalizeCriminal`. -/
def isResultUse : Call → Bool
  | .GetResult _ _ => true
  | .AllowOverride => true
  | .PenalizeCriminal _ _ => true
  | _ => false

namespace tss

/-- A mock poll whose `Vote` returns an error. -/
def pollVoteError : MockPoll :=
  { state := PollState.Pending, result := VoteData.Other
    voters := [{ Validator := some [2], VotingPower := 5 }]
    voteErr := some "address is not eligible to vote in this poll", overridden := false }

/-- A mock poll in state Failed. -/
def pollFailed : MockPoll :=
  { state := PollState.Failed, result := VoteData.Other
    voters := [{ Validator := some [1], VotingPower := 5 }]
    voteErr := none, overridden := false }

/-- The run of `VotePubKey` with keygen output on a poll whose `Vote` returns an error. -/
def runPubKeyVoteError : Outcome (List Call) MockPoll :=
  VotePubKey (mockServer {} pollVoteError) mockLib [] reqPubKeyData

/-- The run of `VoteSig` on a poll whose `Vote` returns an error. -/
def runSigVoteError : Outcome (List Call) MockPoll :=
  VoteSig (mockServer {} pollVoteError) mockLib [] (reqSig sigTwoBytes)

/-- The run of `VotePubKey` on a Failed poll. -/
def runPubKeyFailed : Outcome (List Call) MockPoll :=
  VotePubKey (mockServer {} pollFailed) mockLib [] reqPubKeyCriminals

/-- The run of `VoteSig` on a Failed poll. -/
def runSigFailed : Outcome (List Call) MockPoll :=
  VoteSig (mockServer {} pollFailed) mockLib [] (reqSig sigTwoBytes)

/-- A `StartKeygen` request for key "key". -/
def reqStartKeygen : StartKeygenRequest :=
  { Sender := some [9], KeyID := "key", KeyRole := KeyRole.MasterKey }

/-- The chain the mock nexus knows in the `RotateKey` runs. -/
def chainBitcoin : Chain :=
  { Name := "Bitcoin", NativeAsset := "satoshi", SupportsForeignAssets := false }

/-- A `RotateKey` request for the master key of "Bitcoin". -/
def reqRotateKey : RotateKeyRequest :=
  { Sender := some [9], Chain := "Bitcoin", KeyRole := KeyRole.MasterKey, KeyID := "key" }

/-- The mock server whose keeper rejects every key in `AssertMatchesRequirements`. -/
def mockServerBadKey (a : Canned) (p : MockPoll) : msgServer (List Call) MockPoll :=
  { mockServer a p with
    TSSKeeper := { mockKeeper a with
      AssertMatchesRequirements := fun _ _ _ _ => some "key does not match" } }

end tss

/-- The call is a state-mutating call of the tss keeper. -/
def isKeeperWrite : Call → Bool
  | .SetKey _ _ => true
  | .SetKeyRole _ _ => true
  | .SetExternalKeyIDs _ _ => true
  | .SetAvailableOperator _ _ _ _ => true
  | .ScheduleKeygen _ _ => true
  | .AssignNextKey _ _ _ _ => true
  | .RotateKey _ _ _ => true
  | .SetPrivateRecoveryInfo _ _ _ => true
  | .DeleteSnapshotCounterForKeyID _ => true
  | .DeleteKeygenStart _ => true
  | .DeleteParticipantsInKeygen _ => true
  | .DeleteAllRecoveryInfos _ => true
  | .SetGroupRecoveryInfo _ _ => true
  | .PenalizeCriminal _ _ => true
  | .SetSig _ _ => true
  | .SetSigStatus _ _ => true
  | .DeleteInfoForSig _ => true
  | _ => false

/-- The state-mutating tss keeper calls of a trace, in order. -/
def keeperWrites (t : List Call) : List Call := t.filter isKeeperWrite

/-- The event has an attribute with the given key. -/
def Event.hasKey (e : Event) (k : AttrKey) : Bool :=
  e.Attributes.any (fun a => decide (a.1 = k))

/-- The event carries the module name, an action tag and the poll key. -/
def Event.isComplete (e : Event) : Bool :=
  e.hasKey AttrKey.AttributeKeyModule && e.hasKey AttrKey.AttributeKeyAction &&
    e.hasKey AttrKey.AttributeKeyPoll

namespace tss

/-- The event `VotePubKey` builds at lines 284-288 and passes to the deferred
`EmitEvent` of line 289: the module name and the poll key. -/
def keygenPollEvent (key : PollKey) : Event :=
  NewEvent EventType.EventTypeKeygen
    [(AttrKey.AttributeKeyModule, AttrValue.ModuleName "tss"),
     (AttrKey.AttributeKeyPoll, AttrValue.PollKeyString key)]

/-! ### The module handler (`x/tss/handler.go`) -/

/-- A message `sdk.Msg` reaching the tss handler; `Other` is a message of any type the
module does not define. -/
inductive Msg
  | ProcessKeygenTrafficRequest (m : ProcessTrafficRequest)
  | ProcessSignTrafficRequest (m : ProcessTrafficRequest)
  | StartKeygenRequest (m : StartKeygenRequest)
  | RotateKeyRequest (m : RotateKeyRequest)
  | VotePubKeyRequest (m : VotePubKeyRequest)
  | VoteSigRequest (m : VoteSigRequest)
  | AckRequest (m : AckRequest)
  | RegisterExternalKeysRequest (m : RegisterExternalKeysRequest)
  | Other
deriving DecidableEq, Repr

/-- Go `NewHandler(k, s, n, v, staker)`, with `server` the message server it builds: the
inner function `h` switches on the message type, and the returned function wraps an error
of `h` in `types.ErrTss` (`wrap` is that wrapping of the error text). -/
def NewHandler {σ π : Type} (server : msgServer σ π) (lib : Lib) (wrap : String → String)
    (ctx : σ) (msg : Msg) : Outcome σ π :=
  let h : Outcome σ π :=
    match msg with
    | .ProcessKeygenTrafficRequest m => ProcessKeygenTraffic server lib ctx m
    | .ProcessSignTrafficRequest m => ProcessSignTraffic server ctx m
    | .StartKeygenRequest m => StartKeygen server ctx m
    | .RotateKeyRequest m => RotateKey server ctx m
    | .VotePubKeyRequest m => VotePubKey server lib ctx m
    | .VoteSigRequest m => VoteSig server lib ctx m
    | _ => { result := .err "unrecognized tss message type", ctx := ctx, trace := [] }
  match h.result with
  | .err e => { h with result := .err (wrap e) }
  | _ => h

/-- Two external keys, the first parsing and the second not. -/
def reqRegisterSecondBad : RegisterExternalKeysRequest :=
  { Sender := some [9], Chain := "Bitcoin"
    ExternalKeys := [{ ID := "ext1", PubKey := some [3, 4] }, { ID := "ext2", PubKey := some [3] }] }

/-- The run of `RegisterExternalKeys` on `reqRegisterSecondBad`. -/
def runRegisterSecondBad : Outcome (List Call) MockPoll :=
  RegisterExternalKeys (mockServer { chain := some chainBitcoin } pollIdle) mockLib []
    reqRegisterSecondBad

/-- The stored key the mock keeper reports in the runs on an already decided keygen. -/
def storedKey : Key := { ID := "key", Value := (3, 4), Role := KeyRole.MasterKey }

/-- The run of `VotePubKey` with keygen output when the key is stored and the voter has
already submitted private recovery info. -/
def runPubKeyDuplicate : Outcome (List Call) MockPoll :=
  VotePubKey (mockServer { key := some storedKey, hasRecovery := true } pollKey) mockLib []
    reqPubKeyData

/-- The run of `VotePubKey` with keygen output when the key is stored and the voter has
not yet submitted private recovery info. -/
def runPubKeyLate : Outcome (List Call) MockPoll :=
  VotePubKey (mockServer { key := some storedKey } pollKey) mockLib [] reqPubKeyData

end tss

/-! ## The poll engine, modelled from the spec -/

namespace vote

/-- One vote application: the voter, the value voted for, and the block height at which
the vote is applied. -/
structure Ballot where
  Height : Int
  Voter : ValAddress
  Value : VoteData
deriving DecidableEq, Repr

/-- Modelled from the spec: the poll record of the poll engine (x/vote is not under
src/): key, state, voter roster with weights, total voting power, threshold as
numerator and denominator, minimum distinct voter count, expiry height, the last value
each voter submitted, the decided result and the override-allowed flag. The weight
accumulated behind each value is computed from the recorded votes (`PollMeta.weight`). -/
structure PollMeta where
  Key : PollKey
  State : PollState
  Voters : List Voter
  TotalVotingPower : Int
  Threshold : Threshold
  MinVoterCount : Int
  ExpiresAt : Int
  Votes : List (ValAddress × VoteData)
  Result : Option VoteData
  OverrideAllowed : Bool
deriving DecidableEq, Repr

/-- Modelled from the spec: whether `voter` is in the roster of the poll. -/
def PollMeta.inRoster (p : PollMeta) (voter : ValAddress) : Bool :=
  p.Voters.any (fun v => v.Validator.Equals voter)

/-- Modelled from the spec: the weight the roster gives `voter` (0 outside the roster). -/
def PollMeta.power (p : PollMeta) (voter : ValAddress) : Int :=
  match p.Voters.find? (fun v => v.Validator.Equals voter) with
  | some v => v.VotingPower
  | none => 0

/-- Modelled from the spec: recording a vote overwrites the voter's latest value. -/
def PollMeta.record (p : PollMeta) (voter : ValAddress) (value : VoteData) : PollMeta :=
  { p with Votes := (voter, value) :: p.Votes.filter (fun x => !x.1.Equals voter) }

/-- Modelled from the spec: the weight accumulated behind `value`, the sum of the weights
of the voters whose latest value it is. -/
def PollMeta.weight (p : PollMeta) (value : VoteData) : Int :=
  ((p.Votes.filter (fun x => decide (x.2 = value))).map (fun x => p.power x.1)).sum

/-- Modelled from the spec: the number of distinct voters behind `value`. -/
def PollMeta.voterCount (p : PollMeta) (value : VoteData) : Int :=
  ((p.Votes.filter (fun x => decide (x.2 = value))).length : Int)

/-- Modelled from the spec: the decision test, weight at least threshold times total
power (cross-multiplied by the denominator) and distinct voters at least the minimum
voter count. -/
def PollMeta.crosses (p : PollMeta) (value : VoteData) : Bool :=
  decide (p.Threshold.Numerator * p.TotalVotingPower ≤ p.weight value * p.Threshold.Denominator)
    && decide (p.MinVoterCount ≤ p.voterCount value)

/-- Modelled from the spec: the weight of the roster members who have not voted. -/
def PollMeta.unvoted (p : PollMeta) : Int :=
  ((p.Voters.filter (fun v => !p.Votes.any (fun x => x.1.Equals v.Validator))).map
    (fun v => v.VotingPower)).sum

/-- Modelled from the spec: the largest weight accumulated behind one value. -/
def PollMeta.best (p : PollMeta) : Int :=
  (p.Votes.map (fun x => p.weight x.2)).foldl max 0

/-- Modelled from the spec: no path is left to a decision, the remaining unvoted weight
cannot lift any value past the threshold. -/
def PollMeta.cannotWin (p : PollMeta) : Bool :=
  decide ((p.best + p.unvoted) * p.Threshold.Denominator
    < p.Threshold.Numerator * p.TotalVotingPower)

/-- Modelled from the spec: `Vote` of the poll engine (x/vote is not under src/), on an
existing poll at block height `height`. A voter outside the roster is rejected; a
terminal poll without override is left as it is and the vote succeeds; a terminal poll
with override is reopened; a poll past its expiry height fails; otherwise the vote is
recorded and the poll is Completed with the voted value as soon as that value passes the
decision test, Failed when no path to a decision is left, and Pending otherwise. -/
def Vote (p : PollMeta) (height : Int) (voter : ValAddress) (value : VoteData) :
    error × PollMeta :=
  if !p.inRoster voter then
    (some "voter is not in the roster of the poll", p)
  else if p.State ≠ PollState.Pending && !p.OverrideAllowed then
    (none, p)
  else
    let q : PollMeta :=
      if p.State ≠ PollState.Pending then
        { p with State := PollState.Pending, Votes := [], Result := none,
                 OverrideAllowed := false }
      else p
    if q.ExpiresAt < height then
      (none, { q with State := PollState.Failed })
    else
      let r := q.record voter value
      if r.crosses value then
        (none, { r with State := PollState.Completed, Result := some value })
      else if r.cannotWin then
        (none, { r with State := PollState.Failed })
      else
        (none, r)

/-- Modelled from the spec: `AllowOverride` of the poll engine, granting the override. -/
def AllowOverride (p : PollMeta) : PollMeta :=
  { p with OverrideAllowed := true }

/-- The poll after applying the ballots in order. -/
def run (p : PollMeta) (bs : List Ballot) : PollMeta :=
  bs.foldl (fun q b => (Vote q b.Height b.Voter b.Value).2) p

/-- Voter addresses and values of the example polls. -/
def addrA : ValAddress := some [1]
def addrB : ValAddress := some [2]
def addrC : ValAddress := some [3]

/-- A fresh poll with total power 100, threshold 2/3, roster weights 40, 40 and 20, and
minimum voter count `m`. -/
def examplePoll (m : Int) : PollMeta :=
  { Key := { Module := "tss", ID := "key" }
    State := PollState.Pending
    Voters := [{ Validator := addrA, VotingPower := 40 }, { Validator := addrB, VotingPower := 40 },
               { Validator := addrC, VotingPower := 20 }]
    TotalVotingPower := 100
    Threshold := { Numerator := 2, Denominator := 3 }
    MinVoterCount := m
    ExpiresAt := 10
    Votes := []
    Result := none
    OverrideAllowed := false }

/-- Ballot of `voter` for the value `BoolValue true` at height 5. -/
def ballotFor (voter : ValAddress) : Ballot :=
  { Height := 5, Voter := voter, Value := VoteData.BoolValue true }

end vote

namespace vote

/-- The roster members A, B and C voting for the same value, in this order. -/
def ballotsABC : List Ballot := [ballotFor addrA, ballotFor addrB, ballotFor addrC]

end vote

/-! ## Trace predicates and mock keepers of the evm module -/

/-- The call is a `poll.Vote`. -/
def isVote : Call → Bool
  | .Vote _ _ _ => true
  | _ => false

/-- The calls of a trace that come before its first `poll.Vote`. -/
def beforeVote (t : List Call) : List Call := t.takeWhile (fun c => !isVote c)

/-- The call is a `RotateKey` of the signer. -/
def isRotateKey : Call → Bool
  | .RotateKey _ _ _ => true
  | _ => false

/-- The calls of a trace that come before its first `RotateKey`. -/
def beforeRotateKey (t : List Call) : List Call := t.takeWhile (fun c => !isRotateKey c)

/-- The `RotateKey` calls of a trace, in order, as (chain, role, returned error). -/
def rotations (t : List Call) : List (Chain × KeyRole × error) :=
  t.filterMap (fun c =>
    match c with
    | .RotateKey chain role e => some (chain, role, e)
    | _ => none)

/-- The coins passed to `EnqueueForTransfer` in a trace, in order. -/
def enqueuedCoins (t : List Call) : List Coin :=
  t.filterMap (fun c =>
    match c with
    | .EnqueueForTransfer _ amount _ _ => some amount
    | _ => none)

namespace evm

/-- The chain the mock nexus keeper knows. -/
def chainEthereum : Chain :=
  { Name := "Ethereum", NativeAsset := "eth", SupportsForeignAssets := true,
    KeyType := KeyType.Threshold }

/-- Canned answers of the mock evm keepers. -/
structure Canned where
  operator : ValAddress := some [1]
  chain : Option Chain := some chainEthereum
  activated : Bool := true
  pendingDeposit : Option ERC20Deposit := none
  deposit : Option (ERC20Deposit × DepositState) := none
  recipient : Option CrossChainAddress :=
    some { Chain := { Name := "Bitcoin", NativeAsset := "satoshi", SupportsForeignAssets := false },
           Address := "recipient" }
  feeRate : Option Int := some 0
  pendingTransferKey : Option TransferKey := none
  archivedTransferKey : Option TransferKey := none
  keyRole : KeyRole := KeyRole.MasterKey
  nextMasterKey : Option KeyID := none
  nextSecondaryKey : Option KeyID := none
  currentKeyID : Option KeyID := some "current"
  key : Option Key := some { ID := "next", Value := (3, 4), Role := KeyRole.MasterKey }
  externalKeyIDs : Option (List KeyID) := none
  externalThreshold : Threshold := { Numerator := 1, Denominator := 2 }
  confirmedDeposits : List ERC20Deposit := []
  burnerInfo : Address → Option BurnerInfo := fun a => some { Data := a }
  params : List Params := [{ Chain := "ethereum", Network := "mainnet" }]
  chainID : Option Nat := some 1

/-- A mock `ChainKeeper` over a journal of calls: every read returns the canned answer,
every write appends its call to the journal and returns no error. -/
def mockChainKeeper (a : Canned) : ChainKeeper (List Call) :=
  { GetGatewayAddress := fun _ _ => none
    GetPendingGatewayAddress := fun _ _ => none
    DeletePendingGateway := fun j c => (none, j ++ [Call.DeletePendingGateway c none])
    ConfirmPendingGateway := fun j c => j ++ [Call.ConfirmPendingGateway c]
    GetPendingDeposit := fun _ _ _ => a.pendingDeposit
    GetDeposit := fun _ _ _ _ => a.deposit
    DeletePendingDeposit := fun j c k => j ++ [Call.DeletePendingDeposit c k]
    GetTransactionFeeRate := fun _ _ => a.feeRate
    SetDeposit := fun j c d st => j ++ [Call.SetDeposit c d st]
    GetERC20TokenByAsset := fun _ _ asset =>
      { Asset := asset, TxID := [], Status := TokenStatus.NonExistent }
    RejectDeployment := fun j c asset => j ++ [Call.RejectDeployment c asset]
    ConfirmDeployment := fun j c asset => j ++ [Call.ConfirmDeployment c asset]
    GetPendingTransferKey := fun _ _ _ => a.pendingTransferKey
    GetArchivedTransferKey := fun _ _ _ => a.archivedTransferKey
    DeletePendingTransferKey := fun j c k => j ++ [Call.DeletePendingTransferKey c k]
    ArchiveTransferKey := fun j c k => j ++ [Call.ArchiveTransferKey c k]
    GetConfirmedDeposits := fun _ _ => a.confirmedDeposits
    DeleteDeposit := fun j c d => j ++ [Call.DeleteDeposit c d]
    GetBurnerInfo := fun _ _ addr => a.burnerInfo addr
    EnqueueCommand := fun j c cmd => (none, j ++ [Call.EnqueueCommand c cmd none])
    GetGatewayByteCodes := fun _ _ => some [96, 128]
    GetChainIDByNetwork := fun _ _ _ => a.chainID }

/-- The mock evm message server: the mock chain keeper, a signer and a nexus keeper with
canned answers whose writes append to the journal, a snapshotter resolving every sender
to the canned operator, and a voter handing out the given mock poll. -/
def mockServer (a : Canned) (p : MockPoll) : msgServer (List Call) MockPoll :=
  { BaseKeeper :=
      { ForChain := mockChainKeeper a
        GetPendingChain := fun _ _ => none
        DeletePendingChain := fun j n => j ++ [Call.DeletePendingChain n]
        GetParams := fun _ => a.params }
    signer :=
      { GetKeyRole := fun _ _ => a.keyRole
        RotateKey := fun j c r => (none, j ++ [Call.RotateKey c r none])
        GetNextKeyID := fun _ _ r =>
          match r with
          | KeyRole.MasterKey => a.nextMasterKey
          | KeyRole.SecondaryKey => a.nextSecondaryKey
          | _ => none
        GetCurrentKeyID := fun _ _ _ => a.currentKeyID
        GetCurrentKey := fun _ _ _ => a.key
        GetKey := fun _ _ => a.key
        GetExternalKeyIDs := fun _ _ => a.externalKeyIDs
        GetExternalMultisigThreshold := fun _ => a.externalThreshold
        AssertMatchesRequirements := fun _ _ _ _ => none
        AssignNextKey := fun j c r k => (none, j ++ [Call.AssignNextKey c r k none]) }
    nexus :=
      { GetChain := fun _ _ => a.chain
        IsChainActivated := fun _ _ => a.activated
        SetChain := fun j c => j ++ [Call.SetChain c]
        RegisterAsset := fun j c asset => j ++ [Call.RegisterAsset c asset]
        GetRecipient := fun _ _ => a.recipient
        EnqueueForTransfer := fun j s c f => (none, j ++ [Call.EnqueueForTransfer s c f none]) }
    voter := { GetPoll := fun _ _ => p, Poll := mockPoll }
    snapshotter := { GetOperator := fun _ _ => a.operator, GetSnapshot := fun _ _ => none } }

/-- Mock helper functions: the poll key of a token is built from its asset, every
non-empty denomination is valid, and an address is rendered as one character per byte. -/
def mockLib : Lib :=
  { GetConfirmTokenKey := fun _ asset => { Module := "evm", ID := asset }
    ValidateDenom := fun d => decide (d.length ≠ 0)
    AddressHex := fun a => String.mk (a.map Char.ofNat) }

/-- A Completed mock poll with the given Boolean result. -/
def pollBool (b : Bool) : MockPoll :=
  { state := PollState.Completed, result := VoteData.BoolValue b, voters := []
    voteErr := none, overridden := false }

/-- A mock poll in the given state, with a confirming result it must not hand out unless
Completed. -/
def pollIn (st : PollState) : MockPoll :=
  { state := st, result := VoteData.BoolValue true, voters := []
    voteErr := none, overridden := false }

/-- A pending transfer of ownership to key "next". -/
def transferNext : TransferKey := { TxID := [9], Ty := 1, NextKeyID := "next" }

/-- A `VoteConfirmTransferKey` request of the canned operator's proxy. -/
def reqTransferKey : VoteConfirmTransferKeyRequest :=
  { Sender := some [2], Chain := "ethereum", PollKey := { Module := "evm", ID := "transfer" }
    Confirmed := true }

/-- The run of `VoteConfirmTransferKey` whose vote completes the poll with a confirming
result. -/
def runTransferConfirmed : Outcome (List Call) MockPoll :=
  VoteConfirmTransferKey (mockServer { pendingTransferKey := some transferNext } (pollBool true))
    [] reqTransferKey

/-- The run of `VoteConfirmTransferKey` whose vote completes the poll with a rejecting
result. -/
def runTransferRejected : Outcome (List Call) MockPoll :=
  VoteConfirmTransferKey (mockServer { pendingTransferKey := some transferNext } (pollBool false))
    [] reqTransferKey

/-- The run of `VoteConfirmTransferKey` on a transfer key that is already archived. -/
def runTransferArchived : Outcome (List Call) MockPoll :=
  VoteConfirmTransferKey (mockServer { archivedTransferKey := some transferNext } (pollBool true))
    [] reqTransferKey

/-- A deposit of `amount` units of "satoshi" to burner address `[7]` in transaction
`[8]`, its amount held behind pointer `ptr`. -/
def depositOf (ptr amount : Nat) : ERC20Deposit :=
  { TxID := [8], Amount := { ptr := ptr, val := amount }, Asset := "satoshi"
    DestinationChain := "Bitcoin", BurnerAddress := [7] }

/-- A `VoteConfirmDeposit` request for transaction `[8]` and burner address `[7]`. -/
def reqDeposit : VoteConfirmDepositRequest :=
  { Sender := some [2], Chain := "ethereum", PollKey := { Module := "evm", ID := "deposit" }
    TxID := [8], BurnAddress := [7], Confirmed := true }

/-- The run of `VoteConfirmDeposit` that confirms the pending deposit of `amount`. -/
def runDepositConfirmed (amount : Nat) : Outcome (List Call) MockPoll :=
  VoteConfirmDeposit (mockServer { pendingDeposit := some (depositOf 1 amount) } (pollBool true))
    mockLib [] reqDeposit

/-- The run of `VoteConfirmDeposit` naming a deposit already confirmed while the poll's
pending deposit is the same deposit decoded again (another pointer). -/
def runDepositAlreadyConfirmed : Outcome (List Call) MockPoll :=
  VoteConfirmDeposit
    (mockServer { pendingDeposit := some (depositOf 1 100)
                  deposit := some (depositOf 2 100, DepositState.CONFIRMED) } (pollBool true))
    mockLib [] reqDeposit

/-- The run of `VoteConfirmDeposit` naming a deposit already confirmed that is the very
value the poll's pending deposit holds (same pointer). -/
def runDepositSamePointer : Outcome (List Call) MockPoll :=
  VoteConfirmDeposit
    (mockServer { pendingDeposit := some (depositOf 1 100)
                  deposit := some (depositOf 1 100, DepositState.CONFIRMED) } (pollBool true))
    mockLib [] reqDeposit

end evm

/-! ## Command builders of the evm message server -/

/-- What a function returns that hands back a value or an error, or panics. -/
inductive Returned (α : Type)
  | ok (value : α)
  | err (msg : String)
  | panic (msg : String)
deriving DecidableEq, Repr

/-- The function returned an error. -/
def Returned.isErr {α : Type} : Returned α → Bool
  | .err _ => true
  | _ => false

namespace sdk

/-- The precision multiplier of `sdk.Dec`: a `Dec` holds its value times 10^18. -/
def precisionReuse : Int := 10 ^ 18

/-- Half of the precision multiplier (`fivePrecision`). -/
def fivePrecision : Int := 5 * 10 ^ 17

/-- The largest bit length `sdk.Dec` arithmetic accepts (`maxDecBitLen`, 255 + 60). -/
def maxDecBitLen : Nat := 315

/-- Go `big.Int.BitLen`: the length of the absolute value in bits. -/
def BitLen (i : Int) : Nat := Nat.size i.natAbs

/-- SDK `sdk.NewDec`: the decimal with the value of the integer. -/
def NewDec (i : Int) : Int := i * precisionReuse

/-- SDK `Dec.MulInt64`, which panics (`none`) when the product is too long. -/
def MulInt64 (d i : Int) : Option Int :=
  if BitLen (d * i) > maxDecBitLen then none else some (d * i)

/-- SDK `Dec.QuoInt64`: `big.Int.Quo`, a division truncated toward zero that panics
(`none`) on a zero divisor. -/
def QuoInt64 (d i : Int) : Option Int :=
  if i = 0 then none else some (d.tdiv i)

/-- SDK `Dec.Ceil`: the least integral decimal that is not below `d`. -/
def Ceil (d : Int) : Int :=
  let quo := d.tdiv precisionReuse
  let rem := d.tmod precisionReuse
  if rem = 0 then quo * precisionReuse
  else if rem < 0 then quo * precisionReuse
  else (quo + 1) * precisionReuse

/-- SDK `chopPrecisionAndRound` on a non-negative number: the integer part, rounded half
to even. -/
def chopNonNeg (d : Int) : Int :=
  let quo := d.tdiv precisionReuse
  let rem := d.tmod precisionReuse
  if rem = 0 then quo
  else if rem < fivePrecision then quo
  else if fivePrecision < rem then quo + 1
  else if quo % 2 = 0 then quo
  else quo + 1

/-- SDK `chopPrecisionAndRound`: a negative number is rounded as its negation. -/
def chopPrecisionAndRound (d : Int) : Int :=
  if d < 0 then -chopNonNeg (-d) else chopNonNeg d

/-- SDK `Dec.RoundInt64`, which panics (`none`) when the rounded value is no int64. -/
def RoundInt64 (d : Int) : Option Int :=
  let chopped := chopPrecisionAndRound d
  if -(2 : Int) ^ 63 ≤ chopped ∧ chopped < 2 ^ 63 then some chopped else none

end sdk

/-- Go conversion of an integer to `uint8`: its low eight bits. -/
def toUint8 (i : Int) : Nat := (i % 256).toNat

namespace evm

variable {σ π : Type}

/-- Request `types.CreateBurnTokensRequest`. -/
structure CreateBurnTokensRequest where
  Sender : AccAddress
  Chain : String
deriving DecidableEq, Repr

/-- Helper functions and context reads the command builders call whose code is not under
src/. -/
structure CmdLib (σ : Type) where
  /-- Method `sdk.Context.BlockHeight`. -/
  BlockHeight : σ → Int
  /-- Function `strings.EqualFold`. -/
  EqualFold : String → String → Bool
  /-- Method `Key.GetECDSAPubKey`. -/
  GetECDSAPubKey : Key → Except String PublicKey
  /-- Method `Key.GetMultisigPubKey`. -/
  GetMultisigPubKey : Key → Except String (List PublicKey)
  /-- Field `Threshold` of `key.GetMultisigKey()`, an int64. -/
  GetMultisigKeyThreshold : Key → Int
  /-- Function `crypto.PubkeyToAddress`. -/
  PubkeyToAddress : PublicKey → Address
  /-- Function `types.KeysToAddresses`. -/
  KeysToAddresses : List PublicKey → List Address
  /-- Function `types.CreateBurnTokenCommand`. -/
  CreateBurnTokenCommand : Nat → KeyID → Int → BurnerInfo → Except String Command
  /-- Function `types.CreateSinglesigTransferCommand`. -/
  CreateSinglesigTransferCommand : TransferKeyType → Nat → KeyID → Address → Except String Command
  /-- Function `types.CreateMultisigTransferCommand`. -/
  CreateMultisigTransferCommand :
    TransferKeyType → Nat → KeyID → Nat → List Address → Except String Command
  /-- Function `types.GetSinglesigGatewayDeploymentBytecode`. -/
  GetSinglesigGatewayDeploymentBytecode :
    Bytes → List Address → Nat → Address → Address → Except String Bytes
  /-- Function `types.GetMultisigGatewayDeploymentBytecode`. -/
  GetMultisigGatewayDeploymentBytecode :
    Bytes → List Address → Nat → List Address → Nat → List Address → Nat → Except String Bytes

/-- A value or error handed back by a library function, as a `Returned`. -/
def ofExcept {α : Type} : Except String α → Returned α
  | .ok v => .ok v
  | .error e => .err e

/-- Method `msgServer.getChainID`: the chain ID of the network of the last parameter
entry whose chain name equals `chain` up to case, nil (`none`) if there is none. -/
def getChainID (s : msgServer σ π) (lib : CmdLib σ) (ctx : σ) (chain : String) : Option Nat :=
  (s.BaseKeeper.GetParams ctx).foldl
    (fun chainID p =>
      if lib.EqualFold p.Chain chain then
        s.BaseKeeper.ForChain.GetChainIDByNetwork ctx chain p.Network
      else chainID)
    none

/-- Go `getMultisigThreshold`: the decimal `keyCount * Numerator / Denominator`, rounded
up and converted to `uint8`; `none` is a panic of the decimal arithmetic. -/
def getMultisigThreshold (keyCount : Int) (threshold : Threshold) : Option Nat :=
  match sdk.MulInt64 (sdk.NewDec keyCount) threshold.Numerator with
  | none => none
  | some product =>
    match sdk.QuoInt64 product threshold.Denominator with
    | none => none
    | some quotient =>
      match sdk.RoundInt64 (sdk.Ceil quotient) with
      | none => none
      | some rounded => some (toUint8 rounded)

/-- Go `getMultisigAddresses`. -/
def getMultisigAddresses (lib : CmdLib σ) (key : Key) : Except String (List Address × Nat) :=
  match lib.GetMultisigPubKey key with
  | .error e => .error e
  | .ok multisigPubKeys =>
    .ok (lib.KeysToAddresses multisigPubKeys, toUint8 (lib.GetMultisigKeyThreshold key))

/-- What `createTransferKeyCommand` leaves behind: the command or error it returns, the
context and the calls it made. -/
structure CommandOutcome (σ : Type) where
  result : Returned Command
  ctx : σ
  trace : List Call

/-- Method `msgServer.createTransferKeyCommand`. -/
def createTransferKeyCommand (s : msgServer σ π) (lib : CmdLib σ) (ctx : σ)
    (transferKeyType : TransferKeyType) (chainStr : String) (nextKeyID : KeyID) :
    CommandOutcome σ :=
  match s.nexus.GetChain ctx chainStr with
  | none => { result := .err "not a registered chain", ctx := ctx, trace := [] }
  | some chain =>
    match validateChainActivated s.nexus ctx chain with
    | some e => { result := .err e, ctx := ctx, trace := [] }
    | none =>
      match getChainID s lib ctx chainStr with
      | none => { result := .err "could not find chain ID", ctx := ctx, trace := [] }
      | some chainID =>
        let role : Option KeyRole :=
          match transferKeyType with
          | .Ownership => some KeyRole.MasterKey
          | .Operatorship => some KeyRole.SecondaryKey
          | .Other _ => none
        match role with
        | none => { result := .err "invalid transfer key type", ctx := ctx, trace := [] }
        | some keyRole =>
          if (s.signer.GetNextKeyID ctx chain KeyRole.MasterKey).isSome then
            { result := .err "next master key already assigned for chain, rotate key first"
              ctx := ctx, trace := [] }
          else if (s.signer.GetNextKeyID ctx chain KeyRole.SecondaryKey).isSome then
            { result := .err "next secondary key already assigned for chain, rotate key first"
              ctx := ctx, trace := [] }
          else
            match s.signer.AssertMatchesRequirements ctx chain nextKeyID keyRole with
            | some e => { result := .err e, ctx := ctx, trace := [] }
            | none =>
              let a := s.signer.AssignNextKey ctx chain keyRole nextKeyID
              let t := [Call.AssignNextKey chain keyRole nextKeyID a.1]
              match a.1 with
              | some e => { result := .err e, ctx := a.2, trace := t }
              | none =>
                match s.signer.GetCurrentKeyID a.2 chain KeyRole.MasterKey with
                | none => { result := .err "current master key not set for chain"
                            ctx := a.2, trace := t }
                | some currMasterKeyID =>
                  match s.signer.GetKey a.2 nextKeyID with
                  | none => { result := .err "could not find threshold key"
                              ctx := a.2, trace := t }
                  | some nextKey =>
                    match chain.KeyType with
                    | .Threshold =>
                      match lib.GetECDSAPubKey nextKey with
                      | .error e => { result := .err e, ctx := a.2, trace := t }
                      | .ok pk =>
                        { result := ofExcept (lib.CreateSinglesigTransferCommand transferKeyType
                            chainID currMasterKeyID (lib.PubkeyToAddress pk))
                          ctx := a.2, trace := t }
                    | .Multisig =>
                      match getMultisigAddresses lib nextKey with
                      | .error e => { result := .err e, ctx := a.2, trace := t }
                      | .ok (addresses, threshold) =>
                        { result := ofExcept (lib.CreateMultisigTransferCommand transferKeyType
                            chainID currMasterKeyID threshold addresses)
                          ctx := a.2, trace := t }
                    | .Other _ => { result := .err "invalid key type", ctx := a.2, trace := t }

/-- One iteration state of the loop of `CreateBurnTokens`: the context, the calls so far
and the burner addresses (in hex) whose `seen` entry is true. -/
structure BurnLoop (σ : Type) where
  ctx : σ
  trace : List Call
  seen : List String

/-- The loop of `CreateBurnTokens` (lines 1082-1107); `Except.error` is an early return
with the context and calls reached so far. -/
def createBurnTokensLoop (s : msgServer σ π) (lib : Lib) (clib : CmdLib σ) (chainStr : String)
    (chainID : Nat) (secondaryKeyID : KeyID) :
    List ERC20Deposit → BurnLoop σ → Except (String × BurnLoop σ) (BurnLoop σ)
  | [], st => .ok st
  | deposit :: rest, st =>
    let keeper := s.BaseKeeper.ForChain
    let ctx1 := keeper.DeleteDeposit st.ctx chainStr deposit
    let ctx2 := keeper.SetDeposit ctx1 chainStr deposit DepositState.BURNED
    let t1 := st.trace ++ [Call.DeleteDeposit chainStr deposit,
      Call.SetDeposit chainStr deposit DepositState.BURNED]
    let burnerAddressHex := lib.AddressHex deposit.BurnerAddress
    if burnerAddressHex ∈ st.seen then
      createBurnTokensLoop s lib clib chainStr chainID secondaryKeyID rest
        { ctx := ctx2, trace := t1, seen := st.seen }
    else
      match keeper.GetBurnerInfo ctx2 chainStr deposit.BurnerAddress with
      | none =>
        .error ("no burner info found for address", { ctx := ctx2, trace := t1, seen := st.seen })
      | some burnerInfo =>
        match clib.CreateBurnTokenCommand chainID secondaryKeyID (clib.BlockHeight ctx2)
            burnerInfo with
        | .error e => .error (e, { ctx := ctx2, trace := t1, seen := st.seen })
        | .ok cmd =>
          let q := keeper.EnqueueCommand ctx2 chainStr cmd
          let t2 := t1 ++ [Call.EnqueueCommand chainStr cmd q.1]
          match q.1 with
          | some e => .error (e, { ctx := q.2, trace := t2, seen := st.seen })
          | none =>
            createBurnTokensLoop s lib clib chainStr chainID secondaryKeyID rest
              { ctx := q.2, trace := t2, seen := burnerAddressHex :: st.seen }

/-- Handler `msgServer.CreateBurnTokens`. -/
def CreateBurnTokens (s : msgServer σ π) (lib : Lib) (clib : CmdLib σ) (ctx : σ)
    (req : CreateBurnTokensRequest) : Outcome σ π :=
  match s.nexus.GetChain ctx req.Chain with
  | none => { result := .err "not a registered chain", ctx := ctx, trace := [] }
  | some chain =>
    match validateChainActivated s.nexus ctx chain with
    | some e => { result := .err e, ctx := ctx, trace := [] }
    | none =>
      let deposits := s.BaseKeeper.ForChain.GetConfirmedDeposits ctx req.Chain
      if deposits.length = 0 then
        { result := .ok "", ctx := ctx, trace := [] }
      else
        match getChainID s clib ctx req.Chain with
        | none => { result := .err "could not find chain ID", ctx := ctx, trace := [] }
        | some chainID =>
          if (s.signer.GetNextKeyID ctx chain KeyRole.SecondaryKey).isSome then
            { result := .err "next secondary key already assigned for chain, rotate key first"
              ctx := ctx, trace := [] }
          else
            match s.signer.GetCurrentKeyID ctx chain KeyRole.SecondaryKey with
            | none => { result := .err "no secondary key for chain found", ctx := ctx, trace := [] }
            | some secondaryKeyID =>
              match createBurnTokensLoop s lib clib req.Chain chainID secondaryKeyID deposits
                  { ctx := ctx, trace := [], seen := [] } with
              | .error (msg, st) => { result := .err msg, ctx := st.ctx, trace := st.trace }
              | .ok st => { result := .ok "", ctx := st.ctx, trace := st.trace }

/-- The loop of `getGatewayDeploymentBytecode` over the external key IDs (lines
1138-1151): the public keys of the external keys, in order. -/
def externalPubKeys (s : msgServer σ π) (lib : CmdLib σ) (ctx : σ) :
    List KeyID → Except String (List PublicKey)
  | [] => .ok []
  | externalKeyID :: rest =>
    match s.signer.GetKey ctx externalKeyID with
    | none => .error "external key for chain not found"
    | some externalKey =>
      match lib.GetECDSAPubKey externalKey with
      | .error e => .error e
      | .ok pk =>
        match externalPubKeys s lib ctx rest with
        | .error e => .error e
        | .ok pks => .ok (pk :: pks)

/-- Go `getGatewayDeploymentBytecode`, for the chain keeper and signer of the server. -/
def getGatewayDeploymentBytecode (s : msgServer σ π) (lib : CmdLib σ) (ctx : σ)
    (chain : Chain) : Returned Bytes :=
  match s.signer.GetExternalKeyIDs ctx chain with
  | none => .err "no external keys for chain found"
  | some externalKeyIDs =>
    match externalPubKeys s lib ctx externalKeyIDs with
    | .error e => .err e
    | .ok pubKeys =>
      let externalKeyAddresses := lib.KeysToAddresses pubKeys
      match getMultisigThreshold (externalKeyAddresses.length : Int)
          (s.signer.GetExternalMultisigThreshold ctx) with
      | none => .panic "decimal arithmetic out of bound"
      | some externalKeyThreshold =>
        let bz := s.BaseKeeper.ForChain.GetGatewayByteCodes ctx chain.Name
        match s.signer.GetCurrentKey ctx chain KeyRole.MasterKey with
        | none => .err "no master key for chain found"
        | some masterKey =>
          match s.signer.GetCurrentKey ctx chain KeyRole.SecondaryKey with
          | none => .err "no secondary key for chain found"
          | some secondaryKey =>
            match chain.KeyType with
            | .Threshold =>
              match lib.GetECDSAPubKey masterKey with
              | .error e => .err e
              | .ok masterPubKey =>
                match lib.GetECDSAPubKey secondaryKey with
                | .error e => .err e
                | .ok secondaryPubKey =>
                  ofExcept (lib.GetSinglesigGatewayDeploymentBytecode bz externalKeyAddresses
                    (toUint8 (s.signer.GetExternalMultisigThreshold ctx).Numerator)
                    (lib.PubkeyToAddress masterPubKey) (lib.PubkeyToAddress secondaryPubKey))
            | .Multisig =>
              match getMultisigAddresses lib masterKey with
              | .error e => .err e
              | .ok (masterMultisigAddresses, masterMultisigThreshold) =>
                match getMultisigAddresses lib secondaryKey with
                | .error e => .err e
                | .ok (secondaryMultisigAddresses, secondaryMultisigThreshold) =>
                  ofExcept (lib.GetMultisigGatewayDeploymentBytecode bz externalKeyAddresses
                    externalKeyThreshold masterMultisigAddresses masterMultisigThreshold
                    secondaryMultisigAddresses secondaryMultisigThreshold)
            | .Other _ => .err "unknown key type set for chain"

/-- The calls the claim on `CreateBurnTokens` describes for a list of deposits, given the
burner addresses (in hex) seen before and the commands to enqueue: every deposit is
deleted and stored again as BURNED, and at the first occurrence of its burner address
one command is enqueued. -/
def burnTraceSpec (chainStr : String) (hex : Address → String) :
    List ERC20Deposit → List String → List Command → List Call
  | [], _, _ => []
  | deposit :: rest, seen, cmds =>
    let writes := [Call.DeleteDeposit chainStr deposit,
      Call.SetDeposit chainStr deposit DepositState.BURNED]
    if hex deposit.BurnerAddress ∈ seen then
      writes ++ burnTraceSpec chainStr hex rest seen cmds
    else
      match cmds with
      | [] => writes ++ burnTraceSpec chainStr hex rest (hex deposit.BurnerAddress :: seen) []
      | cmd :: more =>
        writes ++ Call.EnqueueCommand chainStr cmd none ::
          burnTraceSpec chainStr hex rest (hex deposit.BurnerAddress :: seen) more

end evm

/-- The commands passed to `EnqueueCommand` in a trace, in order. -/
def enqueuedCommands (t : List Call) : List Command :=
  t.filterMap (fun c =>
    match c with
    | .EnqueueCommand _ cmd _ => some cmd
    | _ => none)

/-- The `DeleteDeposit` and `SetDeposit` calls of a trace, in order. -/
def depositWrites (t : List Call) : List Call :=
  t.filter (fun c =>
    match c with
    | .DeleteDeposit _ _ => true
    | .SetDeposit _ _ _ => true
    | _ => false)

namespace evm

/-- Mock helper functions of the command builders: names are compared as they are, a key
yields its value as public key and as its only multisig key, an address is the two coordinates of the key, and a command
or bytecode is built from the numbers it is given. -/
def mockCmdLib : CmdLib (List Call) :=
  { BlockHeight := fun _ => 10
    EqualFold := fun a b => decide (a = b)
    GetECDSAPubKey := fun k => .ok k.Value
    GetMultisigPubKey := fun k => .ok [k.Value]
    GetMultisigKeyThreshold := fun _ => 1
    PubkeyToAddress := fun pk => [pk.1, pk.2]
    KeysToAddresses := fun pks => pks.map (fun pk => [pk.1, pk.2])
    CreateBurnTokenCommand := fun chainID _ height info =>
      .ok { ID := [chainID, height.toNat], Data := info.Data }
    CreateSinglesigTransferCommand := fun _ chainID _ address =>
      .ok { ID := [chainID], Data := address }
    CreateMultisigTransferCommand := fun _ chainID _ threshold addresses =>
      .ok { ID := [chainID, threshold], Data := addresses.flatten }
    GetSinglesigGatewayDeploymentBytecode := fun bz external threshold master secondary =>
      .ok (some (bz.toList ++ external.flatten ++ [threshold] ++ master ++ secondary))
    GetMultisigGatewayDeploymentBytecode := fun bz external threshold master mt secondary st =>
      .ok (some (bz.toList ++ external.flatten ++ [threshold] ++ master.flatten ++ [mt]
        ++ secondary.flatten ++ [st])) }

end evm

namespace evm

/-- A chain whose keys are multisig keys. -/
def chainPolygon : Chain :=
  { Name := "Polygon", NativeAsset := "matic", SupportsForeignAssets := true,
    KeyType := KeyType.Multisig }

/-- Canned answers with three external keys registered at threshold 2/3. -/
def cannedExternal (chain : Chain) : Canned :=
  { chain := some chain, externalKeyIDs := some ["e1", "e2", "e3"]
    externalThreshold := { Numerator := 2, Denominator := 3 } }

end evm

namespace evm

/-- Three confirmed deposits, the first and the third to the same burner address. -/
def depositsABA : List ERC20Deposit :=
  [{ TxID := [1], Amount := { ptr := 1, val := 10 }, Asset := "satoshi"
     DestinationChain := "Bitcoin", BurnerAddress := [65] },
   { TxID := [2], Amount := { ptr := 2, val := 20 }, Asset := "satoshi"
     DestinationChain := "Bitcoin", BurnerAddress := [66] },
   { TxID := [3], Amount := { ptr := 3, val := 30 }, Asset := "satoshi"
     DestinationChain := "Bitcoin", BurnerAddress := [65] }]

/-- The run of `CreateBurnTokens` on the three confirmed deposits. -/
def runBurnABA : Outcome (List Call) MockPoll :=
  CreateBurnTokens (mockServer { confirmedDeposits := depositsABA } (pollBool true)) mockLib
    mockCmdLib [] { Sender := some [2], Chain := "ethereum" }

/-- The run of `CreateBurnTokens` on the three deposits when the second burner address
has no burner info. -/
def runBurnNoInfo : Outcome (List Call) MockPoll :=
  CreateBurnTokens
    (mockServer { confirmedDeposits := depositsABA
                  burnerInfo := fun a => if a = [66] then none else some { Data := a } }
      (pollBool true)) mockLib mockCmdLib [] { Sender := some [2], Chain := "ethereum" }

end evm

/-! ## Wire encoding of `QueryChainMaintainersResponse` (x/nexus/types/query.pb.go) -/

namespace nexus

/-- Message `QueryChainMaintainersResponse`: the maintainers, each a byte slice. -/
structure QueryChainMaintainersResponse where
  Maintainers : List ValAddress
deriving DecidableEq, Repr

/-- Go conversion of a non-negative integer to `uint64`. -/
def toUint64 (n : Nat) : Nat := n % 2 ^ 64

/-- Go reading of 64 bits as an `int` (two's complement). -/
def toInt (n : Nat) : Int :=
  if n % 2 ^ 64 < 2 ^ 63 then (n % 2 ^ 64 : Nat) else (n % 2 ^ 64 : Nat) - 2 ^ 64

/-- Go reading of the low 32 bits as an `int32` (two's complement). -/
def toInt32 (n : Nat) : Int :=
  if n % 2 ^ 32 < 2 ^ 31 then (n % 2 ^ 32 : Nat) else (n % 2 ^ 32 : Nat) - 2 ^ 32

/-- The bit length of a number of at most `fuel` bits. -/
def lenLoop : Nat → Nat → Nat
  | 0, _ => 0
  | fuel + 1, x => if x = 0 then 0 else 1 + lenLoop fuel (x / 2)

/-- Go `math_bits.Len64`: the number of bits needed for a `uint64`, 0 for 0. -/
def Len64 (x : Nat) : Nat := lenLoop 64 x

/-- Go `sovQuery`: the length of the varint of `x`. -/
def sovQuery (x : Nat) : Nat := (Len64 (x ||| 1) + 6) / 7

/-- The bytes the loop of `encodeVarintQuery` writes for `v`, low seven bits first; a
`uint64` takes at most nine rounds of the loop. -/
def varintBytes : Nat → Nat → List Nat
  | 0, v => [v % 256]
  | fuel + 1, v =>
    if v ≥ 2 ^ 7 then ((v &&& 127 ||| 128) % 256) :: varintBytes fuel (v >>> 7)
    else [v % 256]

/-- Go `dAtA[i] = x`, a panic (`none`) when the index is out of range. -/
def setByte (dAtA : List Nat) (i : Int) (x : Nat) : Option (List Nat) :=
  if 0 ≤ i ∧ i < dAtA.length then some (dAtA.set i.toNat x) else none

/-- Successive `dAtA[offset] = x; offset++` for the given bytes. -/
def setBytes (dAtA : List Nat) (offset : Int) : List Nat → Option (List Nat)
  | [] => some dAtA
  | x :: rest =>
    match setByte dAtA offset x with
    | none => none
    | some d => setBytes d (offset + 1) rest

/-- Go `copy(dAtA[i:], src)`: a panic (`none`) when `i` is no valid slice bound, else as
many bytes of `src` as fit are copied. -/
def copyAt (dAtA : List Nat) (i : Int) (src : List Nat) : Option (List Nat) :=
  if 0 ≤ i ∧ i ≤ dAtA.length then
    some (dAtA.take i.toNat ++ src.take (dAtA.length - i.toNat)
      ++ dAtA.drop (i.toNat + src.length))
  else none

/-- Go `encodeVarintQuery`: the buffer after the writes and the returned base offset. -/
def encodeVarintQuery (dAtA : List Nat) (offset : Int) (v : Nat) : Option (List Nat × Int) :=
  let base := offset - sovQuery v
  match setBytes dAtA base (varintBytes 9 v) with
  | none => none
  | some d => some (d, base)

/-- Method `Size`. -/
def Size (m : QueryChainMaintainersResponse) : Nat :=
  m.Maintainers.foldl (fun n b => n + (1 + b.toList.length + sovQuery (toUint64 b.toList.length))) 0

/-- The loop of `MarshalToSizedBuffer` over the maintainers from the last to the first
(the list given is the reversed one): the buffer and the index `i` after it. -/
def marshalLoop : List ValAddress → List Nat → Int → Option (List Nat × Int)
  | [], dAtA, i => some (dAtA, i)
  | b :: rest, dAtA, i =>
    let i1 := i - b.toList.length
    match copyAt dAtA i1 b.toList with
    | none => none
    | some d1 =>
      match encodeVarintQuery d1 i1 (toUint64 b.toList.length) with
      | none => none
      | some (d2, i2) =>
        let i3 := i2 - 1
        match setByte d2 i3 10 with
        | none => none
        | some d3 => marshalLoop rest d3 i3

/-- Method `MarshalToSizedBuffer`: the buffer after the writes and the returned number of
bytes, `none` for a panic. -/
def MarshalToSizedBuffer (m : QueryChainMaintainersResponse) (dAtA : List Nat) :
    Option (List Nat × Int) :=
  match marshalLoop m.Maintainers.reverse dAtA dAtA.length with
  | none => none
  | some (d, i) => some (d, dAtA.length - i)

/-- Method `Marshal`: the first `n` bytes of a zeroed buffer of `Size` bytes after
`MarshalToSizedBuffer` returned `n`; its error is always nil. -/
def Marshal (m : QueryChainMaintainersResponse) : Returned (List Nat) :=
  let size := Size m
  let dAtA := List.replicate size 0
  match MarshalToSizedBuffer m dAtA with
  | none => .panic "index out of range"
  | some (d, n) =>
    if n < 0 ∨ (d.length : Int) < n then .panic "slice bounds out of range"
    else .ok (d.take n.toNat)

/-- The varint loops of `Unmarshal` and `skipQuery`, from `shift` and the value read so
far: the value (64 bits) and the input after the varint. -/
def readVarint (shift : Nat) (acc : Nat) : List Nat → Except String (Nat × List Nat)
  | [] =>
    if shift ≥ 64 then .error "proto: integer overflow" else .error "unexpected EOF"
  | b :: rest =>
    if shift ≥ 64 then .error "proto: integer overflow"
    else
      let acc1 := (acc ||| ((b &&& 127) <<< shift)) % 2 ^ 64
      if b < 128 then .ok (acc1, rest) else readVarint (shift + 7) acc1 rest

/-- The loop of `skipQuery` on input `dAtA` of length `l`, from index `iNdEx` at group
depth `depth`; one round per tag read, so `l` rounds suffice. -/
def skipLoop : Nat → List Nat → Nat → Nat → Except String Int
  | 0, _, _, _ => .error "unexpected EOF"
  | fuel + 1, dAtA, iNdEx, depth =>
    if ¬ iNdEx < dAtA.length then .error "unexpected EOF"
    else
      match readVarint 0 0 (dAtA.drop iNdEx) with
      | .error e => .error e
      | .ok (wire, rest) =>
        let i1 := dAtA.length - rest.length
        let wireType := wire &&& 7
        let next (i2 : Int) (depth2 : Nat) : Except String Int :=
          if i2 < 0 then .error "proto: negative length found during unmarshaling"
          else if depth2 = 0 then .ok i2
          else skipLoop fuel dAtA i2.toNat depth2
        if wireType = 0 then
          match readVarint 0 0 rest with
          | .error e => .error e
          | .ok (_, rest2) => next (toInt (dAtA.length - rest2.length)) depth
        else if wireType = 1 then next (toInt (i1 + 8)) depth
        else if wireType = 2 then
          match readVarint 0 0 rest with
          | .error e => .error e
          | .ok (len, rest2) =>
            let length := toInt len
            if length < 0 then .error "proto: negative length found during unmarshaling"
            else next (toInt (dAtA.length - rest2.length + length.toNat)) depth
        else if wireType = 3 then next (toInt i1) (depth + 1)
        else if wireType = 4 then
          if depth = 0 then .error "proto: unexpected end of group"
          else next (toInt i1) (depth - 1)
        else if wireType = 5 then next (toInt (i1 + 4)) depth
        else .error "proto: illegal wireType"

/-- Go `skipQuery`. -/
def skipQuery (dAtA : List Nat) : Except String Int :=
  skipLoop dAtA.length dAtA 0 0

/-- The loop of `Unmarshal` on an input of `l` bytes, at index `l - rest.length` with
`rest` still to read; one round per field, so `l` rounds suffice. -/
def unmarshalLoop (l : Nat) : Nat → List Nat → List ValAddress → Except String (List ValAddress)
  | 0, rest, acc => if rest = [] then .ok acc else .error "unexpected EOF"
  | fuel + 1, rest, acc =>
    if rest = [] then .ok acc
    else
      let preIndex := l - rest.length
      match readVarint 0 0 rest with
      | .error e => .error e
      | .ok (wire, rest1) =>
        let fieldNum := toInt32 (wire >>> 3)
        let wireType := wire &&& 7
        if wireType = 4 then .error "proto: wiretype end group for non-group"
        else if fieldNum ≤ 0 then .error "proto: illegal tag"
        else if fieldNum = 1 then
          if wireType ≠ 2 then .error "proto: wrong wireType for field Maintainers"
          else
            match readVarint 0 0 rest1 with
            | .error e => .error e
            | .ok (len, rest2) =>
              let byteLen := toInt len
              let iNdEx := l - rest2.length
              if byteLen < 0 then .error "proto: negative length found during unmarshaling"
              else
                let postIndex := toInt (iNdEx + byteLen.toNat)
                if postIndex < 0 then .error "proto: negative length found during unmarshaling"
                else if postIndex > l then .error "unexpected EOF"
                else
                  unmarshalLoop l fuel (rest2.drop byteLen.toNat)
                    (acc ++ [some (rest2.take byteLen.toNat)])
        else
          match skipQuery rest with
          | .error e => .error e
          | .ok skippy =>
            if skippy < 0 ∨ toInt (preIndex + skippy.toNat) < 0 then
              .error "proto: negative length found during unmarshaling"
            else if toInt (preIndex + skippy.toNat) > l then .error "unexpected EOF"
            else unmarshalLoop l fuel (rest.drop skippy.toNat) acc

/-- Method `Unmarshal` into the message `m`: the message after it, or the error. -/
def Unmarshal (m : QueryChainMaintainersResponse) (dAtA : List Nat) :
    Returned QueryChainMaintainersResponse :=
  match unmarshalLoop dAtA.length dAtA.length dAtA m.Maintainers with
  | .error e => .err e
  | .ok maintainers => .ok { Maintainers := maintainers }

/-- A response with three maintainers: two bytes, no byte (a nil slice) and three
bytes. -/
def threeMaintainers : QueryChainMaintainersResponse :=
  { Maintainers := [some [1, 2], none, some [7, 8, 9]] }

end nexus

namespace nexus

/-- The bytes of one maintainer on the wire: the tag of field 1 with wire type 2, the
length as a varint, and the bytes. -/
def encodeField (b : ValAddress) : List Nat :=
  10 :: (varintBytes 9 (toUint64 b.toList.length) ++ b.toList)

/-- The wire form of a list of maintainers: its fields one after the other. -/
def wire (bs : List ValAddress) : List Nat := (bs.map encodeField).flatten

end nexus

/-! ## The switch of `VotePubKey` on the request's keygen result -/

namespace tss

variable {σ π : Type}

/-- The context `VotePubKey` holds after the switch on the request's keygen result (lines
228-266) when the switch returned no error: a criminal list writes nothing (line 230),
public-key data has the voter's private recovery info recorded by
`SetPrivateRecoveryInfo` (line 257). -/
def switchContext (s : msgServer σ π) (ctx : σ) (req : VotePubKeyRequest) : σ :=
  match req.Result with
  | .Data data =>
    s.TSSKeeper.SetPrivateRecoveryInfo ctx (s.snapshotter.GetOperator ctx req.Sender)
      req.PollKey.ID data.PrivateRecoverInfo
  | _ => ctx

/-- The vote data the switch of `VotePubKey` chooses (lines 230 and 259-262): the criminal
list of the request, or the public key and the group recovery info of its keygen
output. -/
def switchVoteData (req : VotePubKeyRequest) : VoteData :=
  match req.Result with
  | .Criminals criminals => VoteData.CriminalList criminals
  | .Data data =>
    VoteData.KeygenVoteData { PubKey := data.PubKey, GroupRecoveryInfo := data.GroupRecoverInfo }
  | .unset => VoteData.Other

end tss

namespace evm

variable {σ π : Type}

/-- The context the claim on `CreateBurnTokens` describes for a list of deposits, given
the burner addresses (in hex) seen before and the commands to enqueue: the chain keeper
deletes every deposit and stores it again as BURNED, in order, and at the first
occurrence of its burner address enqueues the next command. -/
def burnContextSpec (s : msgServer σ π) (chainStr : String) (hex : Address → String) :
    List ERC20Deposit → List String → List Command → σ → σ
  | [], _, _, ctx => ctx
  | deposit :: rest, seen, cmds, ctx =>
    let burned := s.BaseKeeper.ForChain.SetDeposit
      (s.BaseKeeper.ForChain.DeleteDeposit ctx chainStr deposit) chainStr deposit
      DepositState.BURNED
    if hex deposit.BurnerAddress ∈ seen then
      burnContextSpec s chainStr hex rest seen cmds burned
    else
      match cmds with
      | [] => burnContextSpec s chainStr hex rest (hex deposit.BurnerAddress :: seen) [] burned
      | cmd :: more =>
        burnContextSpec s chainStr hex rest (hex deposit.BurnerAddress :: seen) more
          (s.BaseKeeper.ForChain.EnqueueCommand burned chainStr cmd).2

end evm

/-! ## The tally of a ballot sequence, in the words of the spec -/

namespace vote

/-- Following the spec's words ("per-voter last-submitted value"): the voters of the
ballots, each once, with the value they submitted last, the latest voter first. It is
computed from the ballots alone, whatever state the poll is in. -/
def lastValues (bs : List Ballot) : List (ValAddress × VoteData) :=
  bs.foldl (fun acc b => (b.Voter, b.Value) :: acc.filter (fun x => !x.1.Equals b.Voter)) []

/-- Following the spec's words: the weight the roster gives `voter` (0 outside the
roster). -/
def rosterWeight (roster : List Voter) (voter : ValAddress) : Int :=
  match roster.find? (fun v => v.Validator.Equals voter) with
  | some v => v.VotingPower
  | none => 0

/-- Following the spec's words: the weight accumulated behind `value` after the ballots,
the sum of the roster weights of the voters whose last-submitted value is `value`. -/
def weightBehind (roster : List Voter) (bs : List Ballot) (value : VoteData) : Int :=
  (((lastValues bs).filter (fun x => decide (x.2 = value))).map
    (fun x => rosterWeight roster x.1)).sum

/-- Following the spec's words: the number of distinct voters behind `value` after the
ballots. -/
def votersBehind (bs : List Ballot) (value : VoteData) : Int :=
  (((lastValues bs).filter (fun x => decide (x.2 = value))).length : Int)

/-- Following the spec's words: after the ballots, `value` has weight at least the
threshold times the total power of poll `p` (cross-multiplied by the denominator) and at
least the minimum number of distinct voters behind it. -/
def passes (p : PollMeta) (bs : List Ballot) (value : VoteData) : Bool :=
  decide (p.Threshold.Numerator * p.TotalVotingPower
      ≤ weightBehind p.Voters bs value * p.Threshold.Denominator)
    && decide (p.MinVoterCount ≤ votersBehind bs value)

/-- Following the spec's words: the weight of the roster members of whom the ballots hold
no vote. -/
def unvotedWeight (roster : List Voter) (bs : List Ballot) : Int :=
  ((roster.filter (fun v => !(lastValues bs).any (fun x => x.1.Equals v.Validator))).map
    (fun v => v.VotingPower)).sum

/-- Following the spec's words: the largest weight accumulated behind one value after the
ballots. -/
def leadingWeight (roster : List Voter) (bs : List Ballot) : Int :=
  ((lastValues bs).map (fun x => weightBehind roster bs x.2)).foldl max 0

/-- Following the spec's words: after the ballots a path to a decision is left, the
remaining unvoted weight can still lift the leading value past the threshold. -/
def pathLeft (p : PollMeta) (bs : List Ballot) : Bool :=
  decide (p.Threshold.Numerator * p.TotalVotingPower
    ≤ (leadingWeight p.Voters bs + unvotedWeight p.Voters bs) * p.Threshold.Denominator)

/-- Ballot of `voter` for the value `BoolValue false` at height 5. -/
def ballotAgainst (voter : ValAddress) : Ballot :=
  { Height := 5, Voter := voter, Value := VoteData.BoolValue false }

/-- The roster members A and C voting for a value, B against it and then for it. -/
def ballotsABCB : List Ballot :=
  [ballotFor addrA, ballotAgainst addrB, ballotFor addrC, ballotFor addrB]

end vote

/-! ## Theorems -/

section lemmas

variable {σ π : Type}

theorem ValAddress.Equals_iff (a b : ValAddress) :
    ValAddress.Equals a b = true ↔ a.toList = b.toList := by
  unfold ValAddress.Equals Bytes.Empty
  by_cases h : (a.toList.isEmpty && b.toList.isEmpty) = true
  · simp only [h, if_true, true_iff]
    simp only [Bool.and_eq_true, List.isEmpty_iff] at h
    rw [h.1, h.2]
  · simp [h]

theorem tss.validateCriminal_eq_none (c : ValAddress) (voters : List Voter) :
    tss.validateCriminal c voters = none ↔
      ∃ voter ∈ voters, voter.Validator.toList = c.toList := by
  unfold tss.validateCriminal
  cases h : voters.any (fun voter => ValAddress.Equals c voter.Validator)
  · simp only [Bool.not_false, if_true]
    refine ⟨fun hn => Option.noConfusion hn, ?_⟩
    rintro ⟨v, hv, he⟩
    have : voters.any (fun voter => ValAddress.Equals c voter.Validator) = true :=
      List.any_eq_true.2 ⟨v, hv, (ValAddress.Equals_iff _ _).2 he.symm⟩
    rw [h] at this
    exact absurd this Bool.false_ne_true
  · simp only [Bool.not_true, Bool.false_eq_true, if_false, true_iff]
    obtain ⟨v, hv, he⟩ := List.any_eq_true.1 h
    exact ⟨v, hv, ((ValAddress.Equals_iff _ _).1 he).symm⟩

theorem tss.validateCriminal_inRoster (lib : tss.Lib) (voters : List Voter) (c : Criminal) :
    tss.validateCriminal (lib.ValAddressFromBech32 c.PartyUid) voters = none ↔
      tss.inRoster lib voters c = true := by
  unfold tss.validateCriminal tss.inRoster
  cases voters.any
    (fun voter => ValAddress.Equals (lib.ValAddressFromBech32 c.PartyUid) voter.Validator) <;> simp

theorem tss.penalizeCriminals_foldl (s : tss.msgServer σ π) (lib : tss.Lib) (poll : π)
    (criminals : List Criminal) (acc : σ × List Call) :
    (criminals.foldl (tss.penalizeStep s lib poll) acc).2 =
      acc.2 ++ (criminals.filter (tss.inRoster lib (s.voter.Poll.GetVoters poll))).map
        (fun c => Call.PenalizeCriminal (lib.ValAddressFromBech32 c.PartyUid) c.CrimeType) := by
  induction criminals generalizing acc with
  | nil => simp
  | cons c cs ih =>
    rw [List.foldl_cons, ih]
    by_cases hc : tss.inRoster lib (s.voter.Poll.GetVoters poll) c = true
    · have h1 := (tss.validateCriminal_inRoster lib (s.voter.Poll.GetVoters poll) c).2 hc
      simp [tss.penalizeStep, h1, hc]
    · have h1 : tss.validateCriminal (lib.ValAddressFromBech32 c.PartyUid)
          (s.voter.Poll.GetVoters poll) ≠ none :=
        fun h => hc ((tss.validateCriminal_inRoster lib _ c).1 h)
      obtain ⟨e, he⟩ := Option.ne_none_iff_exists'.1 h1
      simp [tss.penalizeStep, he, hc]

theorem tss.penalizeCriminals_trace (s : tss.msgServer σ π) (lib : tss.Lib) (ctx : σ) (poll : π)
    (criminals : List Criminal) :
    (tss.penalizeCriminals s lib ctx poll criminals).2 =
      (criminals.filter (tss.inRoster lib (s.voter.Poll.GetVoters poll))).map
        (fun c => Call.PenalizeCriminal (lib.ValAddressFromBech32 c.PartyUid) c.CrimeType) := by
  unfold tss.penalizeCriminals
  rw [tss.penalizeCriminals_foldl]
  simp

theorem penalties_append (a b : List Call) : penalties (a ++ b) = penalties a ++ penalties b := by
  simp [penalties, List.filterMap_append]

theorem penalties_cons (c : Call) (t : List Call) :
    penalties (c :: t) =
      (match c with
        | .PenalizeCriminal a ty => [(a, ty)]
        | _ => []) ++ penalties t := by
  cases c <;> simp [penalties, List.filterMap_cons]

theorem penalties_nil : penalties [] = [] := rfl

theorem penalties_map (lib : tss.Lib) (cs : List Criminal) :
    penalties (cs.map
        (fun c => Call.PenalizeCriminal (lib.ValAddressFromBech32 c.PartyUid) c.CrimeType)) =
      cs.map (fun c => (lib.ValAddressFromBech32 c.PartyUid, c.CrimeType)) := by
  induction cs with
  | nil => rfl
  | cons c cs ih => simp_all [penalties]

theorem state_eq_comm (P : Poll π) (p : π) (st : PollState) :
    (st = P.State p) ↔ (P.State p = st) := eq_comm

theorem result_eq_comm (P : Poll π) (p : π) (r : VoteData) :
    (r = P.Result p) ↔ (P.Result p = r) := eq_comm

theorem Poll.state_completed (P : Poll π) (p : π) (h1 : P.Is p PollState.Pending = false)
    (h2 : P.Is p PollState.Failed = false) : P.State p = PollState.Completed := by
  unfold Poll.Is at h1 h2
  cases h : P.State p <;> simp_all

theorem guardedFrom_sound (t : List Call) :
    ∀ (voted notPending notFailed : Bool), guardedFrom voted notPending notFailed t = true →
    ∀ (pre post : List Call) (st : PollState) (r : VoteData),
      t = pre ++ Call.GetResult st r :: post →
        st = PollState.Completed ∧
        (voted = true ∨ ∃ voter data, Call.Vote voter data none ∈ pre) ∧
        (notPending = true ∨ Call.Is PollState.Pending false ∈ pre) ∧
        (notFailed = true ∨ Call.Is PollState.Failed false ∈ pre) := by
  induction t with
  | nil => intro _ _ _ _ pre post st r h; simp at h
  | cons c t ih =>
    intro voted notPending notFailed hg pre post st r h
    cases pre with
    | nil =>
      simp only [List.nil_append, List.cons.injEq] at h
      obtain ⟨rfl, rfl⟩ := h
      simp only [guardedFrom, Bool.and_eq_true, decide_eq_true_eq] at hg
      simp [hg.1.1.1.1, hg.1.1.1.2, hg.1.1.2, hg.1.2]
    | cons a pre =>
      simp only [List.cons_append, List.cons.injEq] at h
      obtain ⟨rfl, rfl⟩ := h
      cases c with
      | Vote voter data err =>
        simp only [guardedFrom] at hg
        obtain ⟨h1, h2, h3, h4⟩ := ih _ _ _ hg pre post st r rfl
        refine ⟨h1, ?_, ?_, ?_⟩
        · rcases h2 with h2 | ⟨x, d, hx⟩
          · simp only [Bool.or_eq_true, Option.isNone_iff_eq_none] at h2
            rcases h2 with h2 | h2
            · exact Or.inl h2
            · subst h2
              exact Or.inr ⟨voter, data, List.mem_cons_self _ _⟩
          · exact Or.inr ⟨x, d, List.mem_cons_of_mem _ hx⟩
        · exact h3.imp id (List.mem_cons_of_mem _)
        · exact h4.imp id (List.mem_cons_of_mem _)
      | Is state b =>
        cases state with
        | Pending =>
          simp only [guardedFrom] at hg
          obtain ⟨h1, h2, h3, h4⟩ := ih _ _ _ hg pre post st r rfl
          refine ⟨h1, ?_, ?_, ?_⟩
          · exact h2.imp id (fun ⟨x, d, hx⟩ => ⟨x, d, List.mem_cons_of_mem _ hx⟩)
          · rcases h3 with h3 | h3
            · simp only [Bool.or_eq_true, Bool.not_eq_true'] at h3
              rcases h3 with h3 | h3
              · exact Or.inl h3
              · subst h3
                exact Or.inr (List.mem_cons_self _ _)
            · exact Or.inr (List.mem_cons_of_mem _ h3)
          · exact h4.imp id (List.mem_cons_of_mem _)
        | Failed =>
          simp only [guardedFrom] at hg
          obtain ⟨h1, h2, h3, h4⟩ := ih _ _ _ hg pre post st r rfl
          refine ⟨h1, ?_, ?_, ?_⟩
          · exact h2.imp id (fun ⟨x, d, hx⟩ => ⟨x, d, List.mem_cons_of_mem _ hx⟩)
          · exact h3.imp id (List.mem_cons_of_mem _)
          · rcases h4 with h4 | h4
            · simp only [Bool.or_eq_true, Bool.not_eq_true'] at h4
              rcases h4 with h4 | h4
              · exact Or.inl h4
              · subst h4
                exact Or.inr (List.mem_cons_self _ _)
            · exact Or.inr (List.mem_cons_of_mem _ h4)
        | Completed =>
          simp only [guardedFrom] at hg
          obtain ⟨h1, h2, h3, h4⟩ := ih _ _ _ hg pre post st r rfl
          exact ⟨h1, h2.imp id (fun ⟨x, d, hx⟩ => ⟨x, d, List.mem_cons_of_mem _ hx⟩),
            h3.imp id (List.mem_cons_of_mem _), h4.imp id (List.mem_cons_of_mem _)⟩
      | GetResult st2 r2 =>
        simp only [guardedFrom, Bool.and_eq_true] at hg
        obtain ⟨h1, h2, h3, h4⟩ := ih _ _ _ hg.2 pre post st r rfl
        exact ⟨h1, h2.imp id (fun ⟨x, d, hx⟩ => ⟨x, d, List.mem_cons_of_mem _ hx⟩),
          h3.imp id (List.mem_cons_of_mem _), h4.imp id (List.mem_cons_of_mem _)⟩
      | _ =>
        simp only [guardedFrom] at hg
        obtain ⟨h1, h2, h3, h4⟩ := ih _ _ _ hg pre post st r rfl
        exact ⟨h1, h2.imp id (fun ⟨x, d, hx⟩ => ⟨x, d, List.mem_cons_of_mem _ hx⟩),
          h3.imp id (List.mem_cons_of_mem _), h4.imp id (List.mem_cons_of_mem _)⟩

theorem GetResultGuarded_of_scan (t : List Call) (h : guardedFrom false false false t = true) :
    GetResultGuarded t := by
  intro pre post st r ht
  obtain ⟨h1, h2, h3, h4⟩ := guardedFrom_sound t _ _ _ h pre post st r ht
  simp only [Bool.false_eq_true, false_or] at h2 h3 h4
  exact ⟨h1, h2, h3, h4⟩

theorem guardedFrom_penalties (lib : tss.Lib) (cs : List Criminal) (b : List Call)
    (v p f : Bool) :
    guardedFrom v p f (cs.map
        (fun c => Call.PenalizeCriminal (lib.ValAddressFromBech32 c.PartyUid) c.CrimeType) ++ b) =
      guardedFrom v p f b := by
  induction cs with
  | nil => rfl
  | cons c cs ih => simpa [guardedFrom] using ih

theorem tss.scan_VotePubKey (s : tss.msgServer σ π) (lib : tss.Lib) (ctx : σ)
    (req : VotePubKeyRequest) :
    guardedFrom false false false (tss.VotePubKey s lib ctx req).trace = true := by
  generalize hout : tss.VotePubKey s lib ctx req = out
  unfold tss.VotePubKey at hout
  dsimp only at hout
  repeat' split at hout
  all_goals subst hout
  all_goals simp_all [guardedFrom, tss.deleteKeygenCalls, Poll.state_completed,
    tss.penalizeCriminals_trace, guardedFrom_penalties]

theorem tss.scan_VoteSig (s : tss.msgServer σ π) (lib : tss.Lib) (ctx : σ)
    (req : VoteSigRequest) :
    guardedFrom false false false (tss.VoteSig s lib ctx req).trace = true := by
  generalize hout : tss.VoteSig s lib ctx req = out
  unfold tss.VoteSig at hout
  dsimp only at hout
  repeat' split at hout
  all_goals subst hout
  all_goals simp_all [guardedFrom, Poll.state_completed,
    tss.penalizeCriminals_trace, guardedFrom_penalties]

theorem evm.scan_VoteConfirmGatewayDeployment (s : evm.msgServer σ π) (ctx : σ)
    (req : evm.VoteConfirmGatewayDeploymentRequest) :
    guardedFrom false false false (evm.VoteConfirmGatewayDeployment s ctx req).trace = true := by
  generalize hout : evm.VoteConfirmGatewayDeployment s ctx req = out
  unfold evm.VoteConfirmGatewayDeployment at hout
  dsimp only at hout
  repeat' split at hout
  all_goals subst hout
  all_goals simp_all [guardedFrom, Poll.state_completed]

theorem evm.scan_VoteConfirmChain (s : evm.msgServer σ π) (ctx : σ)
    (req : evm.VoteConfirmChainRequest) :
    guardedFrom false false false (evm.VoteConfirmChain s ctx req).trace = true := by
  generalize hout : evm.VoteConfirmChain s ctx req = out
  unfold evm.VoteConfirmChain at hout
  dsimp only at hout
  repeat' split at hout
  all_goals subst hout
  all_goals simp_all [guardedFrom, Poll.state_completed]

theorem evm.scan_voteConfirmDepositVote (s : evm.msgServer σ π) (lib : evm.Lib)
    (req : evm.VoteConfirmDepositRequest) (chain : Chain) (pendingDeposit : ERC20Deposit)
    (ctx1 : σ) (t1 : List Call)
    (ht : t1 = [] ∨ t1 = [Call.DeletePendingDeposit chain.Name req.PollKey]) :
    guardedFrom false false false
      (evm.voteConfirmDepositVote s lib req chain pendingDeposit ctx1 t1).trace = true := by
  generalize hout : evm.voteConfirmDepositVote s lib req chain pendingDeposit ctx1 t1 = out
  unfold evm.voteConfirmDepositVote at hout
  dsimp only at hout
  repeat' split at hout
  all_goals subst hout
  all_goals rcases ht with rfl | rfl
  all_goals simp_all [guardedFrom, Poll.state_completed]

theorem evm.scan_VoteConfirmDeposit (s : evm.msgServer σ π) (lib : evm.Lib) (ctx : σ)
    (req : evm.VoteConfirmDepositRequest) :
    guardedFrom false false false (evm.VoteConfirmDeposit s lib ctx req).trace = true := by
  generalize hout : evm.VoteConfirmDeposit s lib ctx req = out
  unfold evm.VoteConfirmDeposit at hout
  dsimp only at hout
  repeat' split at hout
  all_goals subst hout
  all_goals first
    | exact evm.scan_voteConfirmDepositVote s lib req _ _ _ _ (Or.inl rfl)
    | exact evm.scan_voteConfirmDepositVote s lib req _ _ _ _ (Or.inr rfl)
    | simp [guardedFrom]

theorem evm.scan_VoteConfirmToken (s : evm.msgServer σ π) (lib : evm.Lib) (ctx : σ)
    (req : evm.VoteConfirmTokenRequest) :
    guardedFrom false false false (evm.VoteConfirmToken s lib ctx req).trace = true := by
  generalize hout : evm.VoteConfirmToken s lib ctx req = out
  unfold evm.VoteConfirmToken at hout
  dsimp only at hout
  repeat' split at hout
  all_goals subst hout
  all_goals simp_all [guardedFrom, Poll.state_completed]

theorem evm.scan_VoteConfirmTransferKey (s : evm.msgServer σ π) (ctx : σ)
    (req : evm.VoteConfirmTransferKeyRequest) :
    guardedFrom false false false (evm.VoteConfirmTransferKey s ctx req).trace = true := by
  generalize hout : evm.VoteConfirmTransferKey s ctx req = out
  unfold evm.VoteConfirmTransferKey at hout
  dsimp only at hout
  repeat' split at hout
  all_goals subst hout
  all_goals simp_all [guardedFrom, Poll.state_completed]

theorem tss.registerExternalKeysLoop_error (s : tss.msgServer σ π) (lib : tss.Lib) (chain : Chain)
    (keys : List ExternalKey) :
    ∀ (st st2 : tss.RegisterLoop σ) (msg : String),
      tss.registerExternalKeysLoop s lib chain keys st = .error (msg, st2) →
      (st2.trace = st.trace ∧ st2.ctx = st.ctx) ∨ ∃ k pk, Call.SetKey k pk ∈ st2.trace := by
  induction keys with
  | nil => intro st st2 msg h; simp [tss.registerExternalKeysLoop] at h
  | cons key rest ih =>
    intro st st2 msg h
    unfold tss.registerExternalKeysLoop at h
    split at h
    · simp only [Except.error.injEq, Prod.mk.injEq] at h
      exact Or.inl ⟨by rw [h.2], by rw [h.2]⟩
    · split at h
      · simp only [Except.error.injEq, Prod.mk.injEq] at h
        exact Or.inl ⟨by rw [h.2], by rw [h.2]⟩
      · rename_i pubKey _
        rcases ih _ st2 msg h with ⟨ht, _⟩ | hex
        · refine Or.inr ⟨key.ID, pubKey, ?_⟩
          rw [ht]
          simp
        · exact Or.inr hex

theorem vote.Vote_terminal (p : vote.PollMeta) (h : Int) (a : ValAddress) (v : VoteData)
    (hs : p.State ≠ PollState.Pending) (ho : p.OverrideAllowed = false) :
    (vote.Vote p h a v).2 = p := by
  unfold vote.Vote
  split
  · rfl
  · simp [hs, ho]

theorem vote.Vote_override (p : vote.PollMeta) (h : Int) (a : ValAddress) (v : VoteData)
    (ho : p.OverrideAllowed = false) :
    (vote.Vote p h a v).2.OverrideAllowed = false := by
  unfold vote.Vote
  dsimp only
  repeat' split
  all_goals simp_all [vote.PollMeta.record]

theorem vote.Vote_voters (p : vote.PollMeta) (h : Int) (a : ValAddress) (v : VoteData) :
    (vote.Vote p h a v).2.Voters = p.Voters := by
  unfold vote.Vote
  dsimp only
  repeat' split
  all_goals simp_all [vote.PollMeta.record]

theorem vote.run_append (p : vote.PollMeta) (xs ys : List vote.Ballot) :
    vote.run p (xs ++ ys) = vote.run (vote.run p xs) ys := by
  simp [vote.run, List.foldl_append]

theorem vote.run_cons (p : vote.PollMeta) (b : vote.Ballot) (ys : List vote.Ballot) :
    vote.run p (b :: ys) = vote.run (vote.Vote p b.Height b.Voter b.Value).2 ys := by
  simp [vote.run]

theorem vote.run_terminal (bs : List vote.Ballot) : ∀ (p : vote.PollMeta),
    p.State ≠ PollState.Pending → p.OverrideAllowed = false → vote.run p bs = p := by
  induction bs with
  | nil => intro p _ _; rfl
  | cons b bs ih =>
    intro p hs ho
    rw [vote.run_cons, vote.Vote_terminal p _ _ _ hs ho]
    exact ih p hs ho

theorem vote.run_override (bs : List vote.Ballot) : ∀ (p : vote.PollMeta),
    p.OverrideAllowed = false → (vote.run p bs).OverrideAllowed = false := by
  induction bs with
  | nil => intro p h; exact h
  | cons b bs ih =>
    intro p ho
    rw [vote.run_cons]
    exact ih _ (vote.Vote_override p _ _ _ ho)

theorem vote.run_voters (bs : List vote.Ballot) : ∀ (p : vote.PollMeta),
    (vote.run p bs).Voters = p.Voters := by
  induction bs with
  | nil => intro p; rfl
  | cons b bs ih =>
    intro p
    rw [vote.run_cons, ih, vote.Vote_voters]

theorem vote.run_inRoster (bs : List vote.Ballot) (p : vote.PollMeta) (a : ValAddress) :
    (vote.run p bs).inRoster a = p.inRoster a := by
  simp [vote.PollMeta.inRoster, vote.run_voters]

/-- A vote of a roster member on a Pending poll: the poll is Completed after it exactly
when the vote is not past the expiry height and the voted value passes the decision test
on the recorded votes, and then with that value as the result. -/
theorem vote.Vote_pending (p : vote.PollMeta) (h : Int) (a : ValAddress) (v : VoteData)
    (hs : p.State = PollState.Pending) (hr : p.inRoster a = true) :
    ((vote.Vote p h a v).2.State = PollState.Completed ↔
      (h ≤ p.ExpiresAt ∧ (p.record a v).crosses v = true)) ∧
    ((vote.Vote p h a v).2.State = PollState.Completed →
      (vote.Vote p h a v).2.Result = some v) ∧
    ((vote.Vote p h a v).2.State = PollState.Pending →
      (p.record a v).crosses v = false) ∧
    (vote.Vote p h a v).1 = none := by
  unfold vote.Vote
  dsimp only
  repeat' split
  all_goals simp_all [vote.PollMeta.record]


theorem vote.Vote_threshold (p : vote.PollMeta) (h : Int) (a : ValAddress) (v : VoteData) :
    (vote.Vote p h a v).2.Threshold = p.Threshold := by
  unfold vote.Vote
  dsimp only
  repeat' split
  all_goals simp_all [vote.PollMeta.record]

theorem vote.run_threshold (bs : List vote.Ballot) : ∀ (p : vote.PollMeta),
    (vote.run p bs).Threshold = p.Threshold := by
  induction bs with
  | nil => intro p; rfl
  | cons b bs ih =>
    intro p
    rw [vote.run_cons, ih, vote.Vote_threshold]

theorem vote.power_nonneg (p : vote.PollMeta) (hpow : ∀ v ∈ p.Voters, 0 ≤ v.VotingPower)
    (a : ValAddress) : 0 ≤ p.power a := by
  unfold vote.PollMeta.power
  split
  · next v hv => exact hpow v (List.mem_of_find?_eq_some hv)
  · exact le_refl 0

theorem vote.sum_filter_le (f : ValAddress × VoteData → Int) (hf : ∀ x, 0 ≤ f x)
    (Q : ValAddress × VoteData → Bool) (l : List (ValAddress × VoteData)) :
    ((l.filter Q).map f).sum ≤ (l.map f).sum := by
  induction l with
  | nil => simp
  | cons x xs ih =>
    by_cases hq : Q x = true
    · simp only [List.filter_cons_of_pos hq, List.map_cons, List.sum_cons]
      omega
    · simp only [List.filter_cons_of_neg hq, List.map_cons, List.sum_cons]
      have := hf x
      omega

theorem vote.weight_record_le (p : vote.PollMeta) (hpow : ∀ v ∈ p.Voters, 0 ≤ v.VotingPower)
    (a : ValAddress) (v V : VoteData) (hV : v ≠ V) :
    (p.record a v).weight V ≤ p.weight V := by
  have hp : ∀ x, (p.record a v).power x = p.power x := fun _ => rfl
  unfold vote.PollMeta.weight
  simp only [hp]
  simp only [vote.PollMeta.record, List.filter_cons, decide_eq_true_eq, hV, if_false]
  rw [List.filter_filter]
  have hc : (List.filter (fun x : ValAddress × VoteData =>
        decide (x.2 = V) && !ValAddress.Equals x.1 a) p.Votes) =
      List.filter (fun x => !ValAddress.Equals x.1 a)
        (List.filter (fun x => decide (x.2 = V)) p.Votes) := by
    rw [List.filter_filter]
    congr 1
    funext x
    exact Bool.and_comm _ _
  rw [hc]
  exact vote.sum_filter_le _ (fun x => vote.power_nonneg p hpow x.1) _ _

theorem vote.voterCount_record_le (p : vote.PollMeta) (a : ValAddress) (v V : VoteData)
    (hV : v ≠ V) : (p.record a v).voterCount V ≤ p.voterCount V := by
  unfold vote.PollMeta.voterCount
  simp only [vote.PollMeta.record, List.filter_cons, decide_eq_true_eq, hV, if_false]
  rw [List.filter_filter]
  have hc : (List.filter (fun x : ValAddress × VoteData =>
        decide (x.2 = V) && !ValAddress.Equals x.1 a) p.Votes) =
      List.filter (fun x => !ValAddress.Equals x.1 a)
        (List.filter (fun x => decide (x.2 = V)) p.Votes) := by
    rw [List.filter_filter]
    congr 1
    funext x
    exact Bool.and_comm _ _
  rw [hc]
  exact_mod_cast List.length_filter_le _ _

/-- Recording a vote for `v` does not make another value pass the decision test. -/
theorem vote.crosses_record_mono (p : vote.PollMeta)
    (hpow : ∀ v ∈ p.Voters, 0 ≤ v.VotingPower) (hden : 0 ≤ p.Threshold.Denominator)
    (a : ValAddress) (v V : VoteData) (hV : v ≠ V)
    (h : (p.record a v).crosses V = true) : p.crosses V = true := by
  have hw := vote.weight_record_le p hpow a v V hV
  have hc := vote.voterCount_record_le p a v V hV
  unfold vote.PollMeta.crosses at h ⊢
  have ht : (p.record a v).Threshold = p.Threshold := rfl
  have hT : (p.record a v).TotalVotingPower = p.TotalVotingPower := rfl
  have hm : (p.record a v).MinVoterCount = p.MinVoterCount := rfl
  rw [ht, hT, hm] at h
  simp only [Bool.and_eq_true, decide_eq_true_eq] at h ⊢
  refine ⟨?_, le_trans h.2 hc⟩
  exact le_trans h.1 (mul_le_mul_of_nonneg_right hw hden)

theorem vote.crosses_congr (p q : vote.PollMeta) (V : VoteData)
    (h1 : q.Votes = p.Votes) (h2 : q.Voters = p.Voters) (h3 : q.Threshold = p.Threshold)
    (h4 : q.TotalVotingPower = p.TotalVotingPower) (h5 : q.MinVoterCount = p.MinVoterCount) :
    q.crosses V = p.crosses V := by
  simp [vote.PollMeta.crosses, vote.PollMeta.weight, vote.PollMeta.voterCount,
    vote.PollMeta.power, h1, h2, h3, h4, h5]

theorem vote.Vote_outside_roster (p : vote.PollMeta) (h : Int) (a : ValAddress) (v : VoteData)
    (hr : p.inRoster a = false) : (vote.Vote p h a v).2 = p := by
  unfold vote.Vote
  simp [hr]

theorem vote.Vote_pending_eq (p : vote.PollMeta) (h : Int) (a : ValAddress) (v : VoteData)
    (hs : p.State = PollState.Pending) (hr : p.inRoster a = true) :
    (vote.Vote p h a v).2 =
      if p.ExpiresAt < h then { p with State := PollState.Failed }
      else if (p.record a v).crosses v then
        { p.record a v with State := PollState.Completed, Result := some v }
      else if (p.record a v).cannotWin then { p.record a v with State := PollState.Failed }
      else p.record a v := by
  unfold vote.Vote
  simp only [hs, hr]
  simp only [ne_eq, not_true_eq_false, decide_False, Bool.false_and, Bool.not_true,
    Bool.false_eq_true, if_false]
  repeat' split
  all_goals rfl

/-- A vote after which a value passes the decision test that it did not pass before
completes the poll with that value. -/
theorem vote.Vote_crossing (p : vote.PollMeta) (h : Int) (a : ValAddress) (v V : VoteData)
    (ho : p.OverrideAllowed = false)
    (hpow : ∀ v ∈ p.Voters, 0 ≤ v.VotingPower) (hden : 0 ≤ p.Threshold.Denominator)
    (hb : p.crosses V = false) (ha : (vote.Vote p h a v).2.crosses V = true) :
    (vote.Vote p h a v).2.State = PollState.Completed ∧
    (vote.Vote p h a v).2.Result = some V := by
  by_cases hs : p.State = PollState.Pending
  · have hmono : (p.record a v).crosses V = true → v = V := by
      intro hc
      by_contra hne
      have := vote.crosses_record_mono p hpow hden a v V hne hc
      rw [hb] at this
      exact Bool.noConfusion this
    cases hr : p.inRoster a with
    | false =>
      rw [vote.Vote_outside_roster p h a v hr, hb] at ha
      exact Bool.noConfusion ha
    | true =>
      rw [vote.Vote_pending_eq p h a v hs hr] at ha ⊢
      by_cases he : p.ExpiresAt < h
      · rw [if_pos he] at ha
        have hc := vote.crosses_congr p { p with State := PollState.Failed } V
          rfl rfl rfl rfl rfl
        rw [hc, hb] at ha
        exact Bool.noConfusion ha
      · rw [if_neg he] at ha ⊢
        by_cases hx : (p.record a v).crosses v = true
        · rw [if_pos hx] at ha ⊢
          have hc := vote.crosses_congr (p.record a v)
            { p.record a v with State := PollState.Completed, Result := some v } V
            rfl rfl rfl rfl rfl
          rw [hc] at ha
          have := hmono ha
          subst this
          exact ⟨rfl, rfl⟩
        · rw [if_neg hx] at ha
          by_cases hw : (p.record a v).cannotWin = true
          · rw [if_pos hw] at ha
            have hc := vote.crosses_congr (p.record a v)
              { p.record a v with State := PollState.Failed } V rfl rfl rfl rfl rfl
            rw [hc] at ha
            have := hmono ha
            subst this
            exact absurd ha hx
          · rw [if_neg hw] at ha
            have := hmono ha
            subst this
            exact absurd ha hx
  · rw [vote.Vote_terminal p h a v hs ho, hb] at ha
    exact Bool.noConfusion ha

theorem vote.run_take_succ (p : vote.PollMeta) (bs : List vote.Ballot) (k : Nat) :
    vote.run p (bs.take (k + 1)) =
      match bs[k]? with
      | some b => (vote.Vote (vote.run p (bs.take k)) b.Height b.Voter b.Value).2
      | none => vote.run p (bs.take k) := by
  rw [List.take_succ, vote.run_append]
  cases bs[k]? with
  | none => rfl
  | some b => rfl

theorem vote.run_take_frozen (p : vote.PollMeta) (bs : List vote.Ballot) (j i : Nat)
    (hji : j ≤ i) (ho : p.OverrideAllowed = false)
    (hs : (vote.run p (bs.take j)).State ≠ PollState.Pending) :
    vote.run p (bs.take i) = vote.run p (bs.take j) := by
  obtain ⟨d, rfl⟩ := Nat.exists_eq_add_of_le hji
  rw [List.take_add, vote.run_append]
  exact vote.run_terminal _ _ hs (vote.run_override _ _ ho)

theorem evm.toInt64_of_lt (n : Nat) (h : n < 2 ^ 63) : evm.toInt64 n = (n : Int) := by
  unfold evm.toInt64
  have h1 : n % 2 ^ 64 = n := Nat.mod_eq_of_lt (by omega)
  rw [h1, if_pos h]

theorem evm.toInt64_lt (n : Nat) : evm.toInt64 n < 2 ^ 63 := by
  unfold evm.toInt64
  have h1 : n % 2 ^ 64 < 2 ^ 64 := Nat.mod_lt _ (by norm_num)
  split
  · next h => exact_mod_cast h
  · omega

theorem evm.toInt64_ne_of_ge (n : Nat) (h : 2 ^ 63 ≤ n) : evm.toInt64 n ≠ (n : Int) := by
  have h1 := evm.toInt64_lt n
  have h2 : (2 : Int) ^ 63 ≤ (n : Int) := by exact_mod_cast h
  omega

theorem evm.beforeVote_voteConfirmDepositVote (s : evm.msgServer σ π) (lib : evm.Lib)
    (req : evm.VoteConfirmDepositRequest) (chain : Chain) (pd : ERC20Deposit) (ctx1 : σ)
    (t1 : List Call) (ht : t1 = [] ∨ ∃ c k, t1 = [Call.DeletePendingDeposit c k]) :
    beforeVote (evm.voteConfirmDepositVote s lib req chain pd ctx1 t1).trace = t1 := by
  generalize hout : evm.voteConfirmDepositVote s lib req chain pd ctx1 t1 = out
  unfold evm.voteConfirmDepositVote at hout
  dsimp only at hout
  repeat' split at hout
  all_goals subst hout
  all_goals rcases ht with rfl | ⟨c, k, rfl⟩
  all_goals simp [beforeVote, isVote, List.takeWhile]

theorem evm.enqueued_voteConfirmDepositVote (s : evm.msgServer σ π) (lib : evm.Lib)
    (req : evm.VoteConfirmDepositRequest) (chain : Chain) (pd : ERC20Deposit) (ctx1 : σ)
    (t1 : List Call) (ht : t1 = [] ∨ ∃ c k, t1 = [Call.DeletePendingDeposit c k]) :
    ∀ c ∈ enqueuedCoins (evm.voteConfirmDepositVote s lib req chain pd ctx1 t1).trace,
      c = { Denom := pd.Asset, Amount := evm.toInt64 pd.Amount.val } := by
  generalize hout : evm.voteConfirmDepositVote s lib req chain pd ctx1 t1 = out
  unfold evm.voteConfirmDepositVote at hout
  dsimp only at hout
  repeat' split at hout
  all_goals subst hout
  all_goals rcases ht with rfl | ⟨c, k, rfl⟩
  all_goals simp_all [enqueuedCoins, evm.newInt64Coin]


theorem ERC20Deposit.eq_iff (a b : ERC20Deposit) :
    a.eq b = true ↔ a.TxID = b.TxID ∧ a.Amount.ptr = b.Amount.ptr ∧ a.Asset = b.Asset ∧
      a.DestinationChain = b.DestinationChain ∧ a.BurnerAddress = b.BurnerAddress := by
  simp [ERC20Deposit.eq, and_assoc]

theorem ERC20Deposit.eq_of_eq (a b : ERC20Deposit) (h : a.eq b = true)
    (hv : a.Amount.val = b.Amount.val) : a = b := by
  have he := (ERC20Deposit.eq_iff a b).1 h
  obtain ⟨t1, ⟨p1, v1⟩, s1, d1, b1⟩ := a
  obtain ⟨t2, ⟨p2, v2⟩, s2, d2, b2⟩ := b
  simp_all

theorem beforeVote_nil : beforeVote [] = [] := rfl

theorem beforeVote_delete (c : String) (k : PollKey) :
    beforeVote [Call.DeletePendingDeposit c k] = [Call.DeletePendingDeposit c k] := rfl

theorem evm.beforeVote_vote_nil (s : evm.msgServer σ π) (lib : evm.Lib)
    (req : evm.VoteConfirmDepositRequest) (chain : Chain) (pd : ERC20Deposit) (ctx1 : σ) :
    beforeVote (evm.voteConfirmDepositVote s lib req chain pd ctx1 []).trace = [] :=
  evm.beforeVote_voteConfirmDepositVote s lib req chain pd ctx1 [] (Or.inl rfl)

theorem evm.beforeVote_vote_delete (s : evm.msgServer σ π) (lib : evm.Lib)
    (req : evm.VoteConfirmDepositRequest) (chain : Chain) (pd : ERC20Deposit) (ctx1 : σ)
    (c : String) (k : PollKey) :
    beforeVote (evm.voteConfirmDepositVote s lib req chain pd ctx1
      [Call.DeletePendingDeposit c k]).trace = [Call.DeletePendingDeposit c k] :=
  evm.beforeVote_voteConfirmDepositVote s lib req chain pd ctx1 _ (Or.inr ⟨c, k, rfl⟩)

/-- The calls of `VoteConfirmDeposit` before the vote: the deletion of the pending
deposit in the first case of the switch of lines 719-739, and nothing otherwise. -/
theorem evm.beforeVote_VoteConfirmDeposit (s : evm.msgServer σ π) (lib : evm.Lib) (ctx : σ)
    (req : evm.VoteConfirmDepositRequest) :
    (s.nexus.GetChain ctx req.Chain = none →
      beforeVote (evm.VoteConfirmDeposit s lib ctx req).trace = []) ∧
    (∀ chain, s.nexus.GetChain ctx req.Chain = some chain →
      beforeVote (evm.VoteConfirmDeposit s lib ctx req).trace =
        if s.nexus.IsChainActivated ctx chain = true ∧
            ((s.BaseKeeper.ForChain.GetDeposit ctx chain.Name req.TxID req.BurnAddress).isSome &&
            (s.BaseKeeper.ForChain.GetPendingDeposit ctx chain.Name req.PollKey).isSome &&
            (((s.BaseKeeper.ForChain.GetDeposit ctx chain.Name req.TxID req.BurnAddress).map
                Prod.fst).getD evm.zeroDeposit).eq
              ((s.BaseKeeper.ForChain.GetPendingDeposit ctx chain.Name req.PollKey).getD
                evm.zeroDeposit)) = true then
          [Call.DeletePendingDeposit chain.Name req.PollKey]
        else []) := by
  generalize hout : evm.VoteConfirmDeposit s lib ctx req = out
  unfold evm.VoteConfirmDeposit at hout
  dsimp only at hout
  repeat' split at hout
  all_goals subst hout
  all_goals simp_all [evm.beforeVote_vote_nil, evm.beforeVote_vote_delete, beforeVote_nil,
    beforeVote_delete, evm.validateChainActivated]

theorem enqueuedCoins_nil : enqueuedCoins [] = [] := rfl

theorem enqueuedCoins_delete (c : String) (k : PollKey) :
    enqueuedCoins [Call.DeletePendingDeposit c k] = [] := rfl

theorem evm.enqueued_vote_nil (s : evm.msgServer σ π) (lib : evm.Lib)
    (req : evm.VoteConfirmDepositRequest) (chain : Chain) (pd : ERC20Deposit) (ctx1 : σ) :
    ∀ c ∈ enqueuedCoins (evm.voteConfirmDepositVote s lib req chain pd ctx1 []).trace,
      c = { Denom := pd.Asset, Amount := evm.toInt64 pd.Amount.val } :=
  evm.enqueued_voteConfirmDepositVote s lib req chain pd ctx1 [] (Or.inl rfl)

theorem evm.enqueued_vote_delete (s : evm.msgServer σ π) (lib : evm.Lib)
    (req : evm.VoteConfirmDepositRequest) (chain : Chain) (pd : ERC20Deposit) (ctx1 : σ)
    (c0 : String) (k : PollKey) :
    ∀ c ∈ enqueuedCoins (evm.voteConfirmDepositVote s lib req chain pd ctx1
        [Call.DeletePendingDeposit c0 k]).trace,
      c = { Denom := pd.Asset, Amount := evm.toInt64 pd.Amount.val } :=
  evm.enqueued_voteConfirmDepositVote s lib req chain pd ctx1 _ (Or.inr ⟨c0, k, rfl⟩)

theorem sdk.precisionReuse_pos : (0 : Int) < sdk.precisionReuse := by
  unfold sdk.precisionReuse; norm_num

/-- The rounded-up quotient of two integers, the divisor positive. -/
theorem Int.ceil_div_eq (a d : Int) (hd : 0 < d) :
    ⌈(a : ℚ) / (d : ℚ)⌉ = if a % d = 0 then a / d else a / d + 1 := by
  have hdq : (0 : ℚ) < (d : ℚ) := by exact_mod_cast hd
  have hsplit : (a : ℚ) = (d : ℚ) * ((a / d : Int) : ℚ) + ((a % d : Int) : ℚ) := by
    exact_mod_cast (Int.ediv_add_emod a d).symm
  have hr0 : 0 ≤ a % d := Int.emod_nonneg a (ne_of_gt hd)
  have hrd : a % d < d := Int.emod_lt_of_pos a hd
  have hr0q : (0 : ℚ) ≤ ((a % d : Int) : ℚ) := by exact_mod_cast hr0
  have hrdq : ((a % d : Int) : ℚ) < (d : ℚ) := by exact_mod_cast hrd
  split
  · next h0 =>
    rw [Int.ceil_eq_iff]
    have h0q : ((a % d : Int) : ℚ) = 0 := by exact_mod_cast h0
    rw [h0q, add_zero] at hsplit
    have hx : (a : ℚ) / (d : ℚ) = ((a / d : Int) : ℚ) := by
      rw [hsplit]; field_simp
    rw [hx]
    constructor <;> linarith
  · next h0 =>
    rw [Int.ceil_eq_iff]
    have hpos : (0 : ℚ) < ((a % d : Int) : ℚ) := by
      have : 0 < a % d := lt_of_le_of_ne hr0 (Ne.symm h0)
      exact_mod_cast this
    push_cast
    constructor
    · rw [lt_div_iff₀ hdq]
      nlinarith
    · rw [div_le_iff₀ hdq]
      nlinarith

/-- The decimal quotient of `getMultisigThreshold`, rounded up by `Dec.Ceil`. -/
theorem sdk.Ceil_quotient (a d : Int) (ha : 0 ≤ a) (hd : 0 < d) (hP : d ≤ sdk.precisionReuse) :
    sdk.Ceil ((a * sdk.precisionReuse).tdiv d) =
      (if a % d = 0 then a / d else a / d + 1) * sdk.precisionReuse := by
  have hPpos := sdk.precisionReuse_pos
  unfold sdk.Ceil
  simp only
  generalize sdk.precisionReuse = P at *
  have haP : 0 ≤ a * P := Int.mul_nonneg ha (le_of_lt hPpos)
  rw [Int.tdiv_eq_ediv haP (le_of_lt hd)]
  have hr0 : 0 ≤ a % d := Int.emod_nonneg a (ne_of_gt hd)
  have hrd : a % d < d := Int.emod_lt_of_pos a hd
  have hsplit : a * P = (a % d * P) + (a / d * P) * d := by
    have := Int.ediv_add_emod a d
    nlinarith
  have hq0 : a * P / d = a % d * P / d + a / d * P := by
    rw [hsplit, Int.add_mul_ediv_right _ _ (ne_of_gt hd)]
  have ht0 : 0 ≤ a % d * P / d := Int.ediv_nonneg (Int.mul_nonneg hr0 (le_of_lt hPpos)) (le_of_lt hd)
  have htP : a % d * P / d < P := by
    apply Int.ediv_lt_of_lt_mul hd
    nlinarith
  have hq0nn : 0 ≤ a * P / d := Int.ediv_nonneg haP (le_of_lt hd)
  rw [Int.tdiv_eq_ediv hq0nn (le_of_lt hPpos), Int.tmod_eq_emod hq0nn (le_of_lt hPpos)]
  have hquo : a * P / d / P = a / d := by
    rw [hq0, Int.add_mul_ediv_right _ _ (ne_of_gt hPpos), Int.ediv_eq_zero_of_lt ht0 htP, zero_add]
  have hrem : a * P / d % P = a % d * P / d := by
    rw [hq0, Int.add_mul_emod_self, Int.emod_eq_of_lt ht0 htP]
  rw [hquo, hrem]
  by_cases h0 : a % d = 0
  · simp [h0]
  · have hpos : 0 < a % d := lt_of_le_of_ne hr0 (Ne.symm h0)
    have ht1 : 1 ≤ a % d * P / d := by
      apply Int.le_ediv_of_mul_le hd
      nlinarith
    have hne : a % d * P / d ≠ 0 := by omega
    have hnl : ¬ a % d * P / d < 0 := by omega
    simp [h0, hne, hnl]

theorem sdk.RoundInt64_integral (c : Int) (hc0 : 0 ≤ c) (hc : c < 2 ^ 63) :
    sdk.RoundInt64 (c * sdk.precisionReuse) = some c := by
  have hPpos := sdk.precisionReuse_pos
  have hnn : 0 ≤ c * sdk.precisionReuse := Int.mul_nonneg hc0 (le_of_lt hPpos)
  unfold sdk.RoundInt64 sdk.chopPrecisionAndRound sdk.chopNonNeg
  simp only
  rw [if_neg (not_lt.mpr hnn)]
  rw [Int.tdiv_eq_ediv hnn (le_of_lt hPpos), Int.tmod_eq_emod hnn (le_of_lt hPpos)]
  rw [Int.mul_ediv_cancel _ (ne_of_gt hPpos), Int.mul_emod_left]
  simp only [if_true]
  rw [if_pos]
  constructor
  · have : -(2 : Int) ^ 63 ≤ 0 := by norm_num
    omega
  · exact hc

theorem sdk.MulInt64_ok (k n : Int) (hk : 0 ≤ k) (hk63 : k < 2 ^ 63) (hn : 0 ≤ n)
    (hn18 : n ≤ sdk.precisionReuse) :
    sdk.MulInt64 (sdk.NewDec k) n = some (k * n * sdk.precisionReuse) := by
  unfold sdk.MulInt64 sdk.NewDec
  have hval : k * sdk.precisionReuse * n = k * n * sdk.precisionReuse := by ring
  have hP : sdk.precisionReuse = 10 ^ 18 := rfl
  have hnn : 0 ≤ k * n * sdk.precisionReuse := by
    have := sdk.precisionReuse_pos
    positivity
  have hlt : k * n * sdk.precisionReuse < 2 ^ 315 := by
    have h1 : k * n ≤ 2 ^ 63 * 10 ^ 18 := by
      have : k ≤ 2 ^ 63 := le_of_lt hk63
      rw [hP] at hn18
      nlinarith
    rw [hP]
    nlinarith
  rw [hval, if_neg]
  · unfold sdk.BitLen sdk.maxDecBitLen
    rw [not_lt, Nat.size_le]
    have : ((k * n * sdk.precisionReuse).natAbs : Int) < ((2 ^ 315 : Nat) : Int) := by
      rw [Int.natAbs_of_nonneg hnn]
      exact_mod_cast hlt
    exact_mod_cast this

/-- Go `getMultisigThreshold` on a non-negative key count and a threshold between 0 and
1 with a denominator of at most 10^18: the rounded-up quotient, as `uint8`. -/
theorem evm.getMultisigThreshold_eq (k n d : Int) (hk : 0 ≤ k) (hk63 : k < 2 ^ 63)
    (hn : 0 < n) (hnd : n ≤ d) (hd : d ≤ 10 ^ 18) :
    evm.getMultisigThreshold k { Numerator := n, Denominator := d } =
      some (toUint8 (if k * n % d = 0 then k * n / d else k * n / d + 1)) ∧
    (if k * n % d = 0 then k * n / d else k * n / d + 1) ≤ k ∧
    0 ≤ (if k * n % d = 0 then k * n / d else k * n / d + 1) := by
  have hd0 : 0 < d := lt_of_lt_of_le hn hnd
  have hdP : d ≤ sdk.precisionReuse := hd
  have ha : 0 ≤ k * n := Int.mul_nonneg hk (le_of_lt hn)
  have hq0 : 0 ≤ k * n / d := Int.ediv_nonneg ha (le_of_lt hd0)
  have hr0 : 0 ≤ k * n % d := Int.emod_nonneg _ (ne_of_gt hd0)
  have hsplit := Int.ediv_add_emod (k * n) d
  have hle : (if k * n % d = 0 then k * n / d else k * n / d + 1) ≤ k := by
    have hkd : k * n ≤ k * d := Int.mul_le_mul_of_nonneg_left hnd hk
    split
    · next h0 =>
      rw [h0, add_zero] at hsplit
      by_contra hcon
      have : k + 1 ≤ k * n / d := by omega
      nlinarith
    · next h0 =>
      have hpos : 0 < k * n % d := lt_of_le_of_ne hr0 (Ne.symm h0)
      by_contra hcon
      have : k ≤ k * n / d := by omega
      nlinarith
  have hnn : 0 ≤ (if k * n % d = 0 then k * n / d else k * n / d + 1) := by
    split <;> omega
  refine ⟨?_, hle, hnn⟩
  unfold evm.getMultisigThreshold
  simp only
  rw [sdk.MulInt64_ok k n hk hk63 (le_of_lt hn) (le_trans hnd hdP)]
  simp only [sdk.QuoInt64, if_neg (ne_of_gt hd0)]
  rw [sdk.Ceil_quotient (k * n) d ha hd0 hdP]
  rw [sdk.RoundInt64_integral _ hnn (lt_of_le_of_lt hle hk63)]

theorem evm.externalPubKeys_length {σ π : Type} (s : evm.msgServer σ π) (lib : evm.CmdLib σ)
    (ctx : σ) (ids : List KeyID) :
    ∀ pubKeys, evm.externalPubKeys s lib ctx ids = .ok pubKeys → pubKeys.length = ids.length := by
  induction ids with
  | nil =>
    intro pubKeys h
    simp [evm.externalPubKeys] at h
    subst h
    rfl
  | cons id rest ih =>
    intro pubKeys h
    unfold evm.externalPubKeys at h
    split at h
    · exact Except.noConfusion h
    · split at h
      · exact Except.noConfusion h
      · split at h
        · exact Except.noConfusion h
        · next pks hrest =>
          cases h
          simp [ih pks hrest]

theorem evm.depositWrites_burnTraceSpec (chainStr : String) (hex : Address → String)
    (deposits : List ERC20Deposit) :
    ∀ (seen : List String) (cmds : List Command),
      depositWrites (evm.burnTraceSpec chainStr hex deposits seen cmds) =
        (deposits.map (fun d => [Call.DeleteDeposit chainStr d,
          Call.SetDeposit chainStr d DepositState.BURNED])).flatten := by
  induction deposits with
  | nil => intro seen cmds; simp [evm.burnTraceSpec, depositWrites]
  | cons d rest ih =>
    intro seen cmds
    unfold evm.burnTraceSpec
    dsimp only
    split
    · have := ih seen cmds
      simp_all [depositWrites]
    · cases cmds with
      | nil =>
        have := ih (hex d.BurnerAddress :: seen) []
        simp_all [depositWrites]
      | cons c more =>
        have := ih (hex d.BurnerAddress :: seen) more
        simp_all [depositWrites]

theorem evm.enqueuedCommands_burnTraceSpec (chainStr : String) (hex : Address → String)
    (deposits : List ERC20Deposit) :
    ∀ (seen : List String) (cmds : List Command),
      cmds.length = ((deposits.map (fun d => hex d.BurnerAddress)).toFinset
        \ seen.toFinset).card →
      enqueuedCommands (evm.burnTraceSpec chainStr hex deposits seen cmds) = cmds := by
  induction deposits with
  | nil =>
    intro seen cmds h
    simp at h
    subst h
    simp [evm.burnTraceSpec, enqueuedCommands]
  | cons d rest ih =>
    intro seen cmds h
    unfold evm.burnTraceSpec
    dsimp only
    split
    · next hseen =>
      have hset : ((d :: rest).map (fun d => hex d.BurnerAddress)).toFinset \ seen.toFinset =
          (rest.map (fun d => hex d.BurnerAddress)).toFinset \ seen.toFinset := by
        ext x
        simp only [List.map_cons, List.toFinset_cons, Finset.mem_sdiff, Finset.mem_insert,
          List.mem_toFinset]
        constructor
        · rintro ⟨hx | hx, hn⟩
          · subst hx
            exact absurd hseen hn
          · exact ⟨hx, hn⟩
        · rintro ⟨hx, hn⟩
          exact ⟨Or.inr hx, hn⟩
      rw [hset] at h
      have := ih seen cmds h
      simp_all [enqueuedCommands]
    · next hseen =>
      have hnot : hex d.BurnerAddress ∉
          (rest.map (fun d => hex d.BurnerAddress)).toFinset
            \ (insert (hex d.BurnerAddress) seen.toFinset) := by
        simp
      have hset : ((d :: rest).map (fun d => hex d.BurnerAddress)).toFinset \ seen.toFinset =
          insert (hex d.BurnerAddress) ((rest.map (fun d => hex d.BurnerAddress)).toFinset
            \ (insert (hex d.BurnerAddress) seen.toFinset)) := by
        ext x
        simp only [List.map_cons, List.toFinset_cons, Finset.mem_insert, Finset.mem_sdiff,
          List.mem_toFinset]
        constructor
        · rintro ⟨hx | hx, hn⟩
          · exact Or.inl hx
          · by_cases hxe : x = hex d.BurnerAddress
            · exact Or.inl hxe
            · exact Or.inr ⟨hx, fun hc => hc.elim hxe hn⟩
        · rintro (hx | ⟨hx, hn⟩)
          · subst hx
            exact ⟨Or.inl rfl, hseen⟩
          · exact ⟨Or.inr hx, fun hc => hn (Or.inr hc)⟩
      rw [hset, Finset.card_insert_of_not_mem hnot] at h
      cases cmds with
      | nil => simp at h
      | cons c more =>
        have hlen : more.length = ((rest.map (fun d => hex d.BurnerAddress)).toFinset
            \ (hex d.BurnerAddress :: seen).toFinset).card := by
          simp only [List.length_cons, add_left_inj] at h
          simpa using h
        have := ih (hex d.BurnerAddress :: seen) more hlen
        simp_all [enqueuedCommands]

theorem List.dedup_length_map_of_injOn {α β : Type} [DecidableEq α] [DecidableEq β]
    (f : α → β) (l : List α) (h : ∀ a ∈ l, ∀ b ∈ l, f a = f b → a = b) :
    (l.map f).dedup.length = l.dedup.length := by
  rw [← List.card_toFinset, ← List.card_toFinset]
  have himg : (l.map f).toFinset = l.toFinset.image f := by
    ext x
    simp
  rw [himg]
  apply Finset.card_image_of_injOn
  intro a ha b hb hab
  exact h a (by simpa using ha) b (by simpa using hb) hab

theorem nexus.lenLoop_le (fuel : Nat) : ∀ (x n : Nat), x < 2 ^ fuel →
    (nexus.lenLoop fuel x ≤ n ↔ x < 2 ^ n) := by
  induction fuel with
  | zero =>
    intro x n hx
    have hx0 : x = 0 := by simpa using hx
    subst hx0
    simp [nexus.lenLoop]
  | succ f ih =>
    intro x n hx
    unfold nexus.lenLoop
    by_cases h0 : x = 0
    · subst h0
      simp
    · rw [if_neg h0]
      cases n with
      | zero =>
        simp
        omega
      | succ n =>
        have hx2 : x / 2 < 2 ^ f := by
          rw [Nat.div_lt_iff_lt_mul (by norm_num)]
          rw [pow_succ] at hx
          exact hx
        have := ih (x / 2) n hx2
        rw [Nat.div_lt_iff_lt_mul (by norm_num)] at this
        rw [pow_succ]
        omega

theorem nexus.or_one_lt (x k : Nat) (hk : 1 ≤ k) : x ||| 1 < 2 ^ k ↔ x < 2 ^ k := by
  constructor
  · intro h
    have hle : x ≤ x ||| 1 := Nat.le_of_testBit (fun i hi => by simp [Nat.testBit_or, hi])
    exact lt_of_le_of_lt hle h
  · intro h
    apply Nat.or_lt_two_pow h
    calc 1 < 2 ^ 1 := by norm_num
      _ ≤ 2 ^ k := Nat.pow_le_pow_right (by norm_num) hk

theorem nexus.pow_128 (k : Nat) : (128 : Nat) ^ k = 2 ^ (7 * k) := by
  rw [pow_mul]
  norm_num

/-- The length `sovQuery` gives a `uint64`: at most `k` exactly below 128^k. -/
theorem nexus.sovQuery_le (x k : Nat) (hx : x < 2 ^ 64) (hk : 1 ≤ k) :
    nexus.sovQuery x ≤ k ↔ x < 128 ^ k := by
  have hx1 : x ||| 1 < 2 ^ 64 := (nexus.or_one_lt x 64 (by norm_num)).2 hx
  have h1 := nexus.lenLoop_le 64 (x ||| 1) (7 * k) hx1
  unfold nexus.sovQuery nexus.Len64
  rw [nexus.pow_128, ← nexus.or_one_lt x (7 * k) (by omega), ← h1]
  omega

theorem nexus.sovQuery_pos (x : Nat) (hx : x < 2 ^ 64) : 1 ≤ nexus.sovQuery x := by
  have hx1 : x ||| 1 < 2 ^ 64 := (nexus.or_one_lt x 64 (by norm_num)).2 hx
  have h1 := nexus.lenLoop_le 64 (x ||| 1) 0 hx1
  have hle : x ≤ x ||| 1 := Nat.le_of_testBit (fun i hi => by simp [Nat.testBit_or, hi])
  have hne : ¬ (x ||| 1 < 2 ^ 0) := by
    intro hlt
    have h0 : x ||| 1 = 0 := by simpa using hlt
    have := congrArg (fun n => n.testBit 0) h0
    simp [Nat.testBit_or] at this
  unfold nexus.sovQuery nexus.Len64
  have : ¬ nexus.lenLoop 64 (x ||| 1) ≤ 0 := fun h => hne (h1.1 h)
  omega

theorem nexus.varintBytes_length_le (fuel : Nat) : ∀ (v k : Nat), v < 128 ^ (fuel + 1) → 1 ≤ k →
    ((nexus.varintBytes fuel v).length ≤ k ↔ v < 128 ^ k) := by
  induction fuel with
  | zero =>
    intro v k hv hk
    simp only [nexus.varintBytes, List.length_singleton]
    have : (128 : Nat) ^ 1 ≤ 128 ^ k := Nat.pow_le_pow_right (by norm_num) hk
    constructor
    · intro _; omega
    · intro _; exact hk
  | succ f ih =>
    intro v k hv hk
    unfold nexus.varintBytes
    by_cases h : v ≥ 2 ^ 7
    · rw [if_pos h, Nat.shiftRight_eq_div_pow]
      simp only [List.length_cons]
      have hv2 : v / 2 ^ 7 < 128 ^ (f + 1) := by
        rw [Nat.div_lt_iff_lt_mul (by norm_num)]
        rw [pow_succ] at hv
        exact hv
      cases k with
      | zero => omega
      | succ k =>
        cases k with
        | zero =>
          have hpos := (ih (v / 2 ^ 7) 1 hv2 (le_refl 1)).2
          constructor
          · intro hl
            have : 1 ≤ (nexus.varintBytes f (v / 2 ^ 7)).length := by
              cases hvb : nexus.varintBytes f (v / 2 ^ 7) with
              | nil =>
                exfalso
                cases f <;> simp [nexus.varintBytes] at hvb
                split at hvb <;> simp at hvb
              | cons _ _ => simp
            omega
          · intro hl
            norm_num at hl h
            omega
        | succ k =>
          have := ih (v / 2 ^ 7) (k + 1) hv2 (by omega)
          rw [Nat.div_lt_iff_lt_mul (by norm_num)] at this
          rw [pow_succ 128 (k + 1)]
          norm_num at this ⊢
          omega
    · rw [if_neg h]
      simp only [List.length_singleton]
      have : (128 : Nat) ^ 1 ≤ 128 ^ k := Nat.pow_le_pow_right (by norm_num) hk
      norm_num at h
      constructor
      · intro _; omega
      · intro _; exact hk

theorem nexus.varintBytes_length_pos (fuel v : Nat) : 1 ≤ (nexus.varintBytes fuel v).length := by
  cases fuel with
  | zero => simp [nexus.varintBytes]
  | succ f =>
    unfold nexus.varintBytes
    split <;> simp

/-- The loop of `encodeVarintQuery` writes as many bytes as `sovQuery` says. -/
theorem nexus.varintBytes_length (v : Nat) (hv : v < 2 ^ 64) :
    (nexus.varintBytes 9 v).length = nexus.sovQuery v := by
  have hv10 : v < 128 ^ (9 + 1) := lt_of_lt_of_le hv (by norm_num)
  apply le_antisymm
  · exact (nexus.varintBytes_length_le 9 v _ hv10 (nexus.sovQuery_pos v hv)).2
      ((nexus.sovQuery_le v _ hv (nexus.sovQuery_pos v hv)).1 (le_refl _))
  · exact (nexus.sovQuery_le v _ hv (nexus.varintBytes_length_pos 9 v)).2
      ((nexus.varintBytes_length_le 9 v _ hv10 (nexus.varintBytes_length_pos 9 v)).1 (le_refl _))

theorem nexus.varint_bound (v shift acc : Nat) (hacc : acc < 2 ^ shift) (hs : shift < 64)
    (hv : v < 2 ^ (64 - shift)) : acc + v * 2 ^ shift < 2 ^ 64 := by
  have hsplit : 2 ^ 64 = 2 ^ (64 - shift) * 2 ^ shift := by
    rw [← pow_add]
    congr 1
    omega
  rw [hsplit]
  have : (v + 1) * 2 ^ shift ≤ 2 ^ (64 - shift) * 2 ^ shift :=
    Nat.mul_le_mul_right _ hv
  nlinarith

theorem nexus.and_127 (v : Nat) : v &&& 127 = v % 128 := by
  have := Nat.and_pow_two_sub_one_eq_mod v 7
  norm_num at this
  exact this

theorem nexus.or_shift (acc x shift : Nat) (hacc : acc < 2 ^ shift) :
    acc ||| x <<< shift = acc + x * 2 ^ shift := by
  rw [Nat.shiftLeft_eq, Nat.or_comm, Nat.mul_comm x, ← Nat.mul_add_lt_is_or hacc]
  ring

theorem nexus.varintBytes_small (fuel v : Nat) (hv : v < 128) :
    nexus.varintBytes fuel v = [v] := by
  have hmod : v % 256 = v := Nat.mod_eq_of_lt (by omega)
  cases fuel with
  | zero => simp [nexus.varintBytes, hmod]
  | succ f =>
    unfold nexus.varintBytes
    rw [if_neg (by norm_num; exact hv), hmod]

theorem nexus.varintBytes_big (fuel v : Nat) (hv : 128 ≤ v) :
    nexus.varintBytes (fuel + 1) v = (128 + v % 128) :: nexus.varintBytes fuel (v / 128) := by
  have hlt : v % 128 < 128 := Nat.mod_lt _ (by norm_num)
  have hor : v % 128 ||| 128 = 128 + v % 128 := by
    have := Nat.mul_add_lt_is_or (i := 7) (b := v % 128) (by norm_num; exact hlt) 1
    norm_num at this
    rw [Nat.or_comm]
    exact this.symm
  conv_lhs => rw [nexus.varintBytes]
  rw [if_pos (by norm_num; exact hv), nexus.and_127, hor, Nat.mod_eq_of_lt (by omega),
    Nat.shiftRight_eq_div_pow]

theorem nexus.readVarint_last (shift acc b : Nat) (rest : List Nat) (hs : shift < 64)
    (hb : b < 128) (hacc : acc < 2 ^ shift) (hv : b < 2 ^ (64 - shift)) :
    nexus.readVarint shift acc (b :: rest) = .ok (acc + b * 2 ^ shift, rest) := by
  unfold nexus.readVarint
  rw [if_neg (by omega)]
  simp only
  rw [if_pos hb, nexus.and_127, Nat.mod_eq_of_lt hb, nexus.or_shift _ _ _ hacc,
    Nat.mod_eq_of_lt (nexus.varint_bound b shift acc hacc hs hv)]

theorem nexus.readVarint_more (shift acc x : Nat) (data : List Nat) (hs : shift < 64)
    (hx : x < 128) (hacc : acc < 2 ^ shift) (hv : x < 2 ^ (64 - shift)) :
    nexus.readVarint shift acc ((128 + x) :: data) =
      nexus.readVarint (shift + 7) (acc + x * 2 ^ shift) data := by
  have hband : (128 + x) &&& 127 = x := by
    rw [nexus.and_127]
    omega
  rw [nexus.readVarint]
  rw [if_neg (by omega)]
  simp only
  rw [if_neg (by omega), hband, nexus.or_shift _ _ _ hacc,
    Nat.mod_eq_of_lt (nexus.varint_bound x shift acc hacc hs hv)]

/-- Reading back the bytes written for a varint gives its value and the rest of the
input. -/
theorem nexus.readVarint_varintBytes (fuel : Nat) : ∀ (v shift acc : Nat) (rest : List Nat),
    v < 128 ^ (fuel + 1) → acc < 2 ^ shift → shift < 64 → v < 2 ^ (64 - shift) →
    nexus.readVarint shift acc (nexus.varintBytes fuel v ++ rest) =
      .ok (acc + v * 2 ^ shift, rest) := by
  induction fuel with
  | zero =>
    intro v shift acc rest hv hacc hs hv64
    have hv128 : v < 128 := by simpa using hv
    rw [nexus.varintBytes_small 0 v hv128, List.singleton_append]
    exact nexus.readVarint_last shift acc v rest hs hv128 hacc hv64
  | succ f ih =>
    intro v shift acc rest hv hacc hs hv64
    by_cases h : 128 ≤ v
    · have hlt : v % 128 < 128 := Nat.mod_lt _ (by norm_num)
      have hs7 : shift + 7 < 64 := by
        by_contra hc
        have : 2 ^ (64 - shift) ≤ 2 ^ 7 := Nat.pow_le_pow_right (by norm_num) (by omega)
        norm_num at this
        omega
      have hsplit : 2 ^ (64 - shift) = 2 ^ (64 - (shift + 7)) * 128 := by
        have : (128 : Nat) = 2 ^ 7 := by norm_num
        rw [this, ← pow_add]
        congr 1
        omega
      have hv2 : v / 128 < 128 ^ (f + 1) := by
        rw [Nat.div_lt_iff_lt_mul (by norm_num)]
        rw [pow_succ] at hv
        exact hv
      have hv3 : v / 128 < 2 ^ (64 - (shift + 7)) := by
        rw [Nat.div_lt_iff_lt_mul (by norm_num), ← hsplit]
        exact hv64
      have hmodlt : v % 128 < 2 ^ (64 - shift) := by
        rw [hsplit]
        have : 1 ≤ 2 ^ (64 - (shift + 7)) := Nat.one_le_two_pow
        nlinarith
      have hacc1 : acc + v % 128 * 2 ^ shift < 2 ^ (shift + 7) := by
        rw [pow_add]
        norm_num
        nlinarith
      rw [nexus.varintBytes_big f v h, List.cons_append,
        nexus.readVarint_more shift acc (v % 128) _ hs hlt hacc hmodlt,
        ih (v / 128) (shift + 7) _ rest hv2 hacc1 hs7 hv3]
      congr 2
      have hdm := Nat.div_add_mod v 128
      rw [pow_add]
      norm_num
      nlinarith
    · have hv128 : v < 128 := by omega
      rw [nexus.varintBytes_small (f + 1) v hv128, List.singleton_append]
      exact nexus.readVarint_last shift acc v rest hs hv128 hacc hv64

theorem nexus.toUint64_lt (n : Nat) : nexus.toUint64 n < 2 ^ 64 :=
  Nat.mod_lt _ (by norm_num)

theorem nexus.setByte_mid (pre post : List Nat) (o x : Nat) :
    nexus.setByte (pre ++ o :: post) (pre.length : Int) x = some (pre ++ x :: post) := by
  unfold nexus.setByte
  rw [if_pos]
  · simp
  · constructor
    · exact Int.natCast_nonneg _
    · simp

theorem nexus.setBytes_mid (bytes : List Nat) : ∀ (pre old post : List Nat),
    old.length = bytes.length →
    nexus.setBytes (pre ++ old ++ post) (pre.length : Int) bytes = some (pre ++ bytes ++ post) := by
  induction bytes with
  | nil =>
    intro pre old post h
    have : old = [] := List.length_eq_zero.1 (by simpa using h)
    subst this
    simp [nexus.setBytes]
  | cons x xs ih =>
    intro pre old post h
    cases old with
    | nil => simp at h
    | cons o os =>
      have hlen : os.length = xs.length := by simpa using h
      unfold nexus.setBytes
      have h1 : pre ++ o :: os ++ post = pre ++ o :: (os ++ post) := by simp
      rw [h1, nexus.setByte_mid]
      simp only
      have h2 : pre ++ x :: (os ++ post) = (pre ++ [x]) ++ os ++ post := by simp
      have h3 : ((pre.length : Int) + 1) = ((pre ++ [x]).length : Int) := by simp
      rw [h2, h3, ih (pre ++ [x]) os post hlen]
      simp

theorem nexus.copyAt_mid (pre old post src : List Nat) (h : old.length = src.length) :
    nexus.copyAt (pre ++ old ++ post) (pre.length : Int) src = some (pre ++ src ++ post) := by
  unfold nexus.copyAt
  rw [if_pos]
  · simp only [Int.toNat_ofNat, List.append_assoc, List.length_append, Option.some.injEq]
    have h1 : List.take pre.length (pre ++ (old ++ post)) = pre := by simp
    have h2 : List.take (pre.length + (old.length + post.length) - pre.length) src = src := by
      apply List.take_of_length_le
      omega
    have h3 : List.drop (pre.length + src.length) (pre ++ (old ++ post)) = post := by
      rw [← h, ← List.append_assoc, ← List.length_append]
      simp
    rw [h1, h2, h3]
  · constructor
    · exact Int.natCast_nonneg _
    · simp only [List.length_append]
      push_cast
      omega

theorem nexus.encodeField_length (b : ValAddress) :
    (nexus.encodeField b).length =
      1 + b.toList.length + nexus.sovQuery (nexus.toUint64 b.toList.length) := by
  unfold nexus.encodeField
  simp only [List.length_cons, List.length_append,
    nexus.varintBytes_length _ (nexus.toUint64_lt _)]
  omega

theorem nexus.wire_append (xs ys : List ValAddress) :
    nexus.wire (xs ++ ys) = nexus.wire xs ++ nexus.wire ys := by
  simp [nexus.wire]

theorem nexus.wire_cons (b : ValAddress) (bs : List ValAddress) :
    nexus.wire (b :: bs) = nexus.encodeField b ++ nexus.wire bs := by
  simp [nexus.wire]

theorem nexus.Size_foldl (bs : List ValAddress) : ∀ (n : Nat),
    bs.foldl (fun n b => n + (1 + b.toList.length
      + nexus.sovQuery (nexus.toUint64 b.toList.length))) n = n + (nexus.wire bs).length := by
  induction bs with
  | nil => intro n; simp [nexus.wire]
  | cons b bs ih =>
    intro n
    rw [List.foldl_cons, ih, nexus.wire_cons, List.length_append, nexus.encodeField_length]
    omega

/-- Method `Size` gives the length of the wire form. -/
theorem nexus.Size_eq (m : nexus.QueryChainMaintainersResponse) :
    nexus.Size m = (nexus.wire m.Maintainers).length := by
  unfold nexus.Size
  rw [nexus.Size_foldl]
  omega

/-- The loop of `MarshalToSizedBuffer` fills the end of the buffer before index `i` with
the wire form of the maintainers. -/
theorem nexus.marshalLoop_eq (rs : List ValAddress) : ∀ (p0 junk tail : List Nat),
    junk.length = (nexus.wire rs.reverse).length →
    nexus.marshalLoop rs (p0 ++ junk ++ tail) ((p0 ++ junk).length : Int) =
      some (p0 ++ nexus.wire rs.reverse ++ tail, (p0.length : Int)) := by
  induction rs with
  | nil =>
    intro p0 junk tail h
    have : junk = [] := List.length_eq_zero.1 (by simpa [nexus.wire] using h)
    subst this
    simp [nexus.marshalLoop, nexus.wire]
  | cons b rest ih =>
    intro p0 junk tail h
    rw [List.reverse_cons, nexus.wire_append, List.length_append] at h
    have hw1 : (nexus.wire [b]).length = 1 + (nexus.varintBytes 9
        (nexus.toUint64 b.toList.length)).length + b.toList.length := by
      simp [nexus.wire, nexus.encodeField]
      omega
    rw [hw1] at h
    obtain ⟨j0, jr, rfl, hj0⟩ : ∃ j0 jr, junk = j0 ++ jr ∧
        j0.length = (nexus.wire rest.reverse).length :=
      ⟨junk.take (nexus.wire rest.reverse).length, junk.drop (nexus.wire rest.reverse).length,
        (List.take_append_drop _ _).symm, by simp; omega⟩
    have hjr : jr.length = 1 + (nexus.varintBytes 9 (nexus.toUint64 b.toList.length)).length
        + b.toList.length := by
      simp only [List.length_append] at h
      omega
    obtain ⟨j3, jr2, rfl, hj3⟩ : ∃ j3 jr2, jr = j3 ++ jr2 ∧ j3.length = 1 :=
      ⟨jr.take 1, jr.drop 1, (List.take_append_drop _ _).symm, by simp; omega⟩
    have hjr2 : jr2.length = (nexus.varintBytes 9 (nexus.toUint64 b.toList.length)).length
        + b.toList.length := by
      simp only [List.length_append] at hjr
      omega
    obtain ⟨j2, j1, rfl, hj2⟩ : ∃ j2 j1, jr2 = j2 ++ j1 ∧
        j2.length = (nexus.varintBytes 9 (nexus.toUint64 b.toList.length)).length :=
      ⟨jr2.take (nexus.varintBytes 9 (nexus.toUint64 b.toList.length)).length,
        jr2.drop (nexus.varintBytes 9 (nexus.toUint64 b.toList.length)).length,
        (List.take_append_drop _ _).symm, by simp; omega⟩
    have hj1 : j1.length = b.toList.length := by
      simp only [List.length_append] at hjr2
      omega
    obtain ⟨o, rfl⟩ : ∃ o, j3 = [o] := by
      cases j3 with
      | nil => simp at hj3
      | cons o os =>
        have : os = [] := List.length_eq_zero.1 (by simpa using hj3)
        exact ⟨o, by rw [this]⟩
    unfold nexus.marshalLoop
    simp only
    have hi1 : (((p0 ++ (j0 ++ ([o] ++ (j2 ++ j1)))).length : Int) - (b.toList.length : Int))
        = ((p0 ++ j0 ++ [o] ++ j2).length : Int) := by
      simp only [List.length_append, List.length_singleton]
      push_cast
      omega
    have hbuf1 : p0 ++ (j0 ++ ([o] ++ (j2 ++ j1))) ++ tail
        = (p0 ++ j0 ++ [o] ++ j2) ++ j1 ++ tail := by simp
    rw [hi1, hbuf1, nexus.copyAt_mid _ j1 tail b.toList hj1]
    simp only
    unfold nexus.encodeVarintQuery
    simp only
    have hbase : (((p0 ++ j0 ++ [o] ++ j2).length : Int)
        - (nexus.sovQuery (nexus.toUint64 b.toList.length) : Int))
        = ((p0 ++ j0 ++ [o]).length : Int) := by
      rw [← nexus.varintBytes_length _ (nexus.toUint64_lt _)]
      simp only [List.length_append, List.length_singleton]
      push_cast
      omega
    have hbuf2 : (p0 ++ j0 ++ [o] ++ j2) ++ b.toList ++ tail
        = (p0 ++ j0 ++ [o]) ++ j2 ++ (b.toList ++ tail) := by simp
    rw [hbase, hbuf2, nexus.setBytes_mid _ _ j2 _ hj2]
    simp only
    have hi3 : (((p0 ++ j0 ++ [o]).length : Int) - 1) = ((p0 ++ j0).length : Int) := by
      simp only [List.length_append, List.length_singleton]
      push_cast
      omega
    have hbuf3 : (p0 ++ j0 ++ [o]) ++ nexus.varintBytes 9 (nexus.toUint64 b.toList.length)
        ++ (b.toList ++ tail)
        = (p0 ++ j0) ++ o :: (nexus.varintBytes 9 (nexus.toUint64 b.toList.length)
          ++ (b.toList ++ tail)) := by simp
    rw [hi3, hbuf3, nexus.setByte_mid]
    simp only
    have hbuf4 : (p0 ++ j0) ++ 10 :: (nexus.varintBytes 9 (nexus.toUint64 b.toList.length)
        ++ (b.toList ++ tail)) = p0 ++ j0 ++ (nexus.encodeField b ++ tail) := by
      simp [nexus.encodeField]
    rw [hbuf4, ih p0 j0 (nexus.encodeField b ++ tail) hj0]
    simp [nexus.wire_append, nexus.wire]

/-- Method `Marshal` returns the wire form of the maintainers. -/
theorem nexus.Marshal_eq (m : nexus.QueryChainMaintainersResponse) :
    nexus.Marshal m = Returned.ok (nexus.wire m.Maintainers) := by
  unfold nexus.Marshal nexus.MarshalToSizedBuffer
  simp only
  have h := nexus.marshalLoop_eq m.Maintainers.reverse [] (List.replicate (nexus.Size m) 0) []
    (by simp [nexus.Size_eq])
  simp only [List.nil_append, List.append_nil, List.reverse_reverse, List.length_nil,
    Nat.cast_zero] at h
  rw [h]
  simp only [List.length_replicate, sub_zero]
  rw [if_neg]
  · simp [nexus.Size_eq]
  · simp [nexus.Size_eq]

theorem nexus.toInt_of_lt (n : Nat) (h : n < 2 ^ 63) : nexus.toInt n = (n : Int) := by
  unfold nexus.toInt
  have h1 : n % 2 ^ 64 = n := Nat.mod_eq_of_lt (by omega)
  rw [h1, if_pos h]

theorem nexus.encodeField_le_wire (b : ValAddress) (bs : List ValAddress) (h : b ∈ bs) :
    (nexus.encodeField b).length ≤ (nexus.wire bs).length := by
  induction bs with
  | nil => simp at h
  | cons c cs ih =>
    rw [nexus.wire_cons, List.length_append]
    rcases List.mem_cons.1 h with rfl | h
    · omega
    · have := ih h
      omega

theorem nexus.length_le_wire (bs : List ValAddress) : bs.length ≤ (nexus.wire bs).length := by
  induction bs with
  | nil => simp
  | cons c cs ih =>
    rw [nexus.wire_cons, List.length_append, nexus.encodeField_length, List.length_cons]
    omega

/-- The loop of `Unmarshal` reads the wire form of a list of maintainers back, each
maintainer as a slice of its bytes. -/
theorem nexus.unmarshalLoop_wire (l : Nat) (hl : l < 2 ^ 63) : ∀ (bs : List ValAddress)
    (fuel : Nat) (acc : List ValAddress), bs.length ≤ fuel → (nexus.wire bs).length ≤ l →
    nexus.unmarshalLoop l fuel (nexus.wire bs) acc
      = .ok (acc ++ bs.map (fun b => some b.toList)) := by
  intro bs
  induction bs with
  | nil =>
    intro fuel acc _ _
    cases fuel <;> simp [nexus.unmarshalLoop, nexus.wire]
  | cons b rest ih =>
    intro fuel acc hfuel hlen
    cases fuel with
    | zero => simp at hfuel
    | succ fuel =>
      have hfuel2 : rest.length ≤ fuel := by simpa using hfuel
      rw [nexus.wire_cons, List.length_append, nexus.encodeField_length] at hlen
      have hblen : b.toList.length < 2 ^ 63 := by omega
      have hu : nexus.toUint64 b.toList.length = b.toList.length :=
        Nat.mod_eq_of_lt (by omega)
      have hw : nexus.wire (b :: rest) = 10 :: (nexus.varintBytes 9 b.toList.length
          ++ (b.toList ++ nexus.wire rest)) := by
        rw [nexus.wire_cons, nexus.encodeField, hu]
        simp
      have hvl := nexus.varintBytes_length b.toList.length (by omega)
      rw [hw, nexus.unmarshalLoop]
      rw [if_neg (by simp)]
      have htag : nexus.readVarint 0 0 (10 :: (nexus.varintBytes 9 b.toList.length
          ++ (b.toList ++ nexus.wire rest))) = .ok (10, nexus.varintBytes 9 b.toList.length
            ++ (b.toList ++ nexus.wire rest)) := by
        have := nexus.readVarint_last 0 0 10 (nexus.varintBytes 9 b.toList.length
          ++ (b.toList ++ nexus.wire rest)) (by norm_num) (by norm_num) (by norm_num)
          (by norm_num)
        simpa using this
      have hlenv : nexus.readVarint 0 0 (nexus.varintBytes 9 b.toList.length
          ++ (b.toList ++ nexus.wire rest)) = .ok (b.toList.length, b.toList ++ nexus.wire rest) := by
        have := nexus.readVarint_varintBytes 9 b.toList.length 0 0 (b.toList ++ nexus.wire rest)
          (by
            have : (2 : Nat) ^ 63 ≤ 128 ^ (9 + 1) := by norm_num
            omega) (by norm_num) (by norm_num) (by
            have : (2 : Nat) ^ 63 ≤ 2 ^ (64 - 0) := by norm_num
            omega)
        simpa using this
      simp only [htag]
      have h3 : nexus.toInt32 (10 >>> 3) = 1 := by decide
      have h7 : (10 : Nat) &&& 7 = 2 := by decide
      rw [h3, h7]
      simp only [hlenv]
      rw [nexus.toInt_of_lt _ hblen]
      have hpost : l - (b.toList ++ nexus.wire rest).length + ((b.toList.length : Nat) : Int).toNat
          < 2 ^ 63 := by
        simp only [List.length_append, Int.toNat_ofNat]
        omega
      rw [nexus.toInt_of_lt _ hpost]
      have hle : ¬ (((l - (b.toList ++ nexus.wire rest).length
          + ((b.toList.length : Nat) : Int).toNat : Nat) : Int) > (l : Int)) := by
        simp only [List.length_append, Int.toNat_ofNat]
        omega
      simp only [Int.toNat_ofNat, List.drop_left, List.take_left] at hle ⊢
      have hrest : (nexus.wire rest).length ≤ l := by omega
      simp [hle, ih fuel (acc ++ [some b.toList]) hfuel2 hrest]
      rw [if_neg (by omega), if_neg (by omega), if_neg (by omega)]

/-- Method `Unmarshal` into an empty message reads the wire form back. -/
theorem nexus.Unmarshal_wire (bs : List ValAddress) (h : (nexus.wire bs).length < 2 ^ 63) :
    nexus.Unmarshal { Maintainers := [] } (nexus.wire bs)
      = Returned.ok { Maintainers := bs.map (fun b => some b.toList) } := by
  unfold nexus.Unmarshal
  rw [nexus.unmarshalLoop_wire _ h bs _ [] (nexus.length_le_wire bs) (le_refl _)]
  simp

theorem tss.penalizeCriminals_foldl_ctx (s : tss.msgServer σ π) (lib : tss.Lib) (poll : π)
    (criminals : List Criminal) (acc : σ × List Call) :
    (criminals.foldl (tss.penalizeStep s lib poll) acc).1 =
      (criminals.filter (tss.inRoster lib (s.voter.Poll.GetVoters poll))).foldl
        (fun c cr => s.TSSKeeper.PenalizeCriminal c (lib.ValAddressFromBech32 cr.PartyUid)
          cr.CrimeType) acc.1 := by
  induction criminals generalizing acc with
  | nil => simp
  | cons c cs ih =>
    rw [List.foldl_cons, ih]
    by_cases hc : tss.inRoster lib (s.voter.Poll.GetVoters poll) c = true
    · have h1 := (tss.validateCriminal_inRoster lib (s.voter.Poll.GetVoters poll) c).2 hc
      simp [tss.penalizeStep, h1, hc]
    · have h1 : tss.validateCriminal (lib.ValAddressFromBech32 c.PartyUid)
          (s.voter.Poll.GetVoters poll) ≠ none :=
        fun h => hc ((tss.validateCriminal_inRoster lib _ c).1 h)
      obtain ⟨e, he⟩ := Option.ne_none_iff_exists'.1 h1
      simp [tss.penalizeStep, he, hc]

theorem tss.penalizeCriminals_ctx (s : tss.msgServer σ π) (lib : tss.Lib) (ctx : σ) (poll : π)
    (criminals : List Criminal) :
    (tss.penalizeCriminals s lib ctx poll criminals).1 =
      (criminals.filter (tss.inRoster lib (s.voter.Poll.GetVoters poll))).foldl
        (fun c cr => s.TSSKeeper.PenalizeCriminal c (lib.ValAddressFromBech32 cr.PartyUid)
          cr.CrimeType) ctx := by
  unfold tss.penalizeCriminals
  rw [tss.penalizeCriminals_foldl_ctx]

/-- A successful run of the loop of `CreateBurnTokens` makes the calls of `burnTraceSpec`
and leaves the context of `burnContextSpec`, for one command per address first seen. -/
theorem evm.burnLoop_spec (s : evm.msgServer σ π) (lib : evm.Lib) (clib : evm.CmdLib σ)
    (chainStr : String) (chainID : Nat) (key : KeyID) (deposits : List ERC20Deposit) :
    ∀ (st st2 : evm.BurnLoop σ),
      evm.createBurnTokensLoop s lib clib chainStr chainID key deposits st = .ok st2 →
      ∃ cmds : List Command,
        st2.trace = st.trace ++ evm.burnTraceSpec chainStr lib.AddressHex deposits st.seen cmds ∧
        st2.ctx = evm.burnContextSpec s chainStr lib.AddressHex deposits st.seen cmds st.ctx ∧
        cmds.length = ((deposits.map (fun d => lib.AddressHex d.BurnerAddress)).toFinset
          \ st.seen.toFinset).card := by
  induction deposits with
  | nil =>
    intro st st2 h
    simp only [evm.createBurnTokensLoop, Except.ok.injEq] at h
    subst h
    exact ⟨[], by simp [evm.burnTraceSpec], by simp [evm.burnContextSpec], by simp⟩
  | cons d rest ih =>
    intro st st2 h
    unfold evm.createBurnTokensLoop at h
    dsimp only at h
    split at h
    · next hseen =>
      obtain ⟨cmds, h1, hc, h2⟩ := ih _ _ h
      refine ⟨cmds, ?_, ?_, ?_⟩
      · rw [h1]
        simp [evm.burnTraceSpec, hseen]
      · rw [hc]
        simp [evm.burnContextSpec, hseen]
      · rw [h2]
        congr 1
        ext x
        simp only [List.map_cons, List.toFinset_cons, Finset.mem_sdiff, Finset.mem_insert,
          List.mem_toFinset]
        constructor
        · rintro ⟨hx, hn⟩
          exact ⟨Or.inr hx, hn⟩
        · rintro ⟨hx | hx, hn⟩
          · subst hx
            exact absurd hseen hn
          · exact ⟨hx, hn⟩
    · next hseen =>
      split at h
      · exact Except.noConfusion h
      · split at h
        · exact Except.noConfusion h
        · next cmd hcmd =>
          split at h
          · exact Except.noConfusion h
          · next hq =>
            obtain ⟨cmds, h1, hc, h2⟩ := ih _ _ h
            refine ⟨cmd :: cmds, ?_, ?_, ?_⟩
            · rw [h1]
              simp [evm.burnTraceSpec, hseen, hq]
            · rw [hc]
              simp [evm.burnContextSpec, hseen]
            · simp only [List.length_cons, h2, List.map_cons, List.toFinset_cons]
              have hnot : lib.AddressHex d.BurnerAddress ∉
                  (rest.map (fun d => lib.AddressHex d.BurnerAddress)).toFinset
                    \ (insert (lib.AddressHex d.BurnerAddress) st.seen.toFinset) := by
                simp
              rw [← Finset.card_insert_of_not_mem hnot]
              congr 1
              ext x
              simp only [Finset.mem_insert, Finset.mem_sdiff, List.mem_toFinset]
              constructor
              · rintro (hx | ⟨hx, hn⟩)
                · subst hx
                  exact ⟨Or.inl rfl, hseen⟩
                · exact ⟨Or.inr hx, fun hc => hn (Or.inr hc)⟩
              · rintro ⟨hx | hx, hn⟩
                · exact Or.inl hx
                · by_cases hxe : x = lib.AddressHex d.BurnerAddress
                  · exact Or.inl hxe
                  · exact Or.inr ⟨hx, fun hc => hc.elim hxe hn⟩

theorem vote.lastValues_snoc (bs : List vote.Ballot) (b : vote.Ballot) :
    vote.lastValues (bs ++ [b]) =
      (b.Voter, b.Value) :: (vote.lastValues bs).filter (fun x => !x.1.Equals b.Voter) := by
  simp [vote.lastValues, List.foldl_append]

theorem vote.decide_lt_eq (a b : Int) : decide (a < b) = !decide (b ≤ a) := by
  by_cases h : b ≤ a
  · have : ¬ a < b := by omega
    simp [h, this]
  · have : a < b := by omega
    simp [h, this]

theorem vote.power_eq_rosterWeight (p0 q : vote.PollMeta) (h2 : q.Voters = p0.Voters)
    (a : ValAddress) : q.power a = vote.rosterWeight p0.Voters a := by
  unfold vote.PollMeta.power vote.rosterWeight
  rw [h2]
  all_goals (cases List.find? (fun v => v.Validator.Equals a) p0.Voters <;> rfl)

theorem vote.weight_eq_weightBehind (p0 q : vote.PollMeta) (bs : List vote.Ballot)
    (V : VoteData) (hv : q.Votes = vote.lastValues bs) (h2 : q.Voters = p0.Voters) :
    q.weight V = vote.weightBehind p0.Voters bs V := by
  unfold vote.PollMeta.weight vote.weightBehind
  rw [hv]
  simp only [vote.power_eq_rosterWeight p0 q h2]

/-- On a poll record whose recorded votes are the last values of the ballots, the tally
of the engine is the tally of the ballots. -/
theorem vote.crosses_eq_passes (p0 q : vote.PollMeta) (bs : List vote.Ballot) (V : VoteData)
    (hv : q.Votes = vote.lastValues bs) (h2 : q.Voters = p0.Voters)
    (h3 : q.Threshold = p0.Threshold) (h4 : q.TotalVotingPower = p0.TotalVotingPower)
    (h5 : q.MinVoterCount = p0.MinVoterCount) :
    q.crosses V = vote.passes p0 bs V := by
  unfold vote.PollMeta.crosses vote.passes
  rw [vote.weight_eq_weightBehind p0 q bs V hv h2, h3, h4, h5]
  unfold vote.PollMeta.voterCount vote.votersBehind
  rw [hv]

theorem vote.cannotWin_eq_pathLeft (p0 q : vote.PollMeta) (bs : List vote.Ballot)
    (hv : q.Votes = vote.lastValues bs) (h2 : q.Voters = p0.Voters)
    (h3 : q.Threshold = p0.Threshold) (h4 : q.TotalVotingPower = p0.TotalVotingPower) :
    q.cannotWin = !vote.pathLeft p0 bs := by
  unfold vote.PollMeta.cannotWin vote.pathLeft
  rw [vote.decide_lt_eq, h3, h4]
  have hbest : q.best = vote.leadingWeight p0.Voters bs := by
    unfold vote.PollMeta.best vote.leadingWeight
    rw [hv]
    simp only [vote.weight_eq_weightBehind p0 q bs _ hv h2]
  have hun : q.unvoted = vote.unvotedWeight p0.Voters bs := by
    unfold vote.PollMeta.unvoted vote.unvotedWeight
    rw [hv, h2]
  rw [hbest, hun]

/-- While no voted value passes the decision test and a path is left, the engine holds
the fresh poll with the last values of the ballots recorded. -/
theorem vote.run_undecided (p0 : vote.PollMeta) (bs : List vote.Ballot)
    (hs : p0.State = PollState.Pending) (hvotes : p0.Votes = []) :
    ∀ (k : Nat),
      (∀ b ∈ bs.take k, p0.inRoster b.Voter = true ∧ b.Height ≤ p0.ExpiresAt) →
      (∀ j, j ≤ k → ∀ b ∈ bs.take j, vote.passes p0 (bs.take j) b.Value = false) →
      (∀ j, j < k → vote.pathLeft p0 (bs.take (j + 1)) = true) →
      vote.run p0 (bs.take k) = { p0 with Votes := vote.lastValues (bs.take k) } := by
  intro k
  induction k with
  | zero =>
    intro _ _ _
    simp [vote.run, vote.lastValues, ← hvotes]
  | succ k ih =>
    intro hb hnone hpath
    have hprev := ih
      (fun b hbm => hb b (by
        rw [List.take_succ]
        exact List.mem_append_left _ hbm))
      (fun j hj => hnone j (Nat.le_succ_of_le hj))
      (fun j hj => hpath j (Nat.lt_succ_of_lt hj))
    rw [vote.run_take_succ, hprev]
    cases hk : bs[k]? with
    | none =>
      simp only
      have : bs.take (k + 1) = bs.take k := by
        rw [List.take_succ, hk]
        simp
      rw [this]
    | some b =>
      simp only
      have htake : bs.take (k + 1) = bs.take k ++ [b] := by
        rw [List.take_succ, hk]
        rfl
      have hbmem : b ∈ bs.take (k + 1) := by
        rw [htake]
        simp
      have hroster := (hb b hbmem).1
      have hheight := (hb b hbmem).2
      have hnp := hnone (k + 1) (le_refl _) b hbmem
      have hpl := hpath k (Nat.lt_succ_self k)
      rw [vote.Vote_pending_eq { p0 with Votes := vote.lastValues (bs.take k) } b.Height
        b.Voter b.Value hs hroster]
      have hrec : ({ p0 with Votes := vote.lastValues (bs.take k) } : vote.PollMeta).record
          b.Voter b.Value = { p0 with Votes := vote.lastValues (bs.take (k + 1)) } := by
        rw [htake, vote.lastValues_snoc]
        rfl
      rw [hrec]
      have hc := vote.crosses_eq_passes p0 { p0 with Votes := vote.lastValues (bs.take (k + 1)) }
        (bs.take (k + 1)) b.Value rfl rfl rfl rfl rfl
      have hw := vote.cannotWin_eq_pathLeft p0
        { p0 with Votes := vote.lastValues (bs.take (k + 1)) } (bs.take (k + 1)) rfl rfl rfl rfl
      rw [hnp] at hc
      rw [hpl] at hw
      have hexp : ¬ (({ p0 with Votes := vote.lastValues (bs.take k) } : vote.PollMeta).ExpiresAt
          < b.Height) := by
        show ¬ (p0.ExpiresAt < b.Height)
        omega
      rw [if_neg hexp, hc, hw]
      simp

end lemmas

section claims

variable {σ π : Type}

/-- C1: `validateCriminal(c, p)` returns no error exactly when some voter of
`p.GetVoters()` has a validator address equal to `c` (the same bytes, as `Equals` tests
it); in every other case it returns an error. -/
theorem validateCriminal_iff_voter (P : Poll π) (p : π) (c : ValAddress) :
    (tss.validateCriminal c (P.GetVoters p) = none ↔
      ∃ voter ∈ P.GetVoters p, voter.Validator.toList = c.toList) ∧
    ((tss.validateCriminal c (P.GetVoters p)).isSome = true ↔
      ¬ ∃ voter ∈ P.GetVoters p, voter.Validator.toList = c.toList) := by
  refine ⟨tss.validateCriminal_eq_none c _, ?_⟩
  rw [← tss.validateCriminal_eq_none c, Option.isSome_iff_ne_none]

/-- Counterexample to C5 as stated: on a Completed poll whose sign result carries a
signature of zero bytes, `VoteSig` stores that empty signature and sets the status to
Signed. -/
theorem VoteSig_stores_empty_signature :
    Call.GetResult PollState.Completed (VoteData.SignResult tss.sigZeroBytes)
      ∈ tss.runSigZeroBytes.trace ∧
    tss.sigZeroBytes.GetSignature.toList = [] ∧
    Call.SetSig "sig" (some []) ∈ tss.runSigZeroBytes.trace ∧
    Call.SetSigStatus "sig" SigStatus.Signed ∈ tss.runSigZeroBytes.trace ∧
    tss.runSigZeroBytes.result = Result.ok "" := by
  decide

/-- C6, where the code diverges: when `VoteSig` fetched from a Completed poll a sign
result with neither a signature nor a criminal list, it deletes the sign info, sets the
status to Aborted and calls `AllowOverride`, and then panics on the nil criminal list
instead of returning success. -/
theorem VoteSig_panics_without_criminal_list (s : tss.msgServer σ π) (lib : tss.Lib) (ctx : σ)
    (req : VoteSigRequest) (r : SignResult)
    (h : Call.GetResult PollState.Completed (VoteData.SignResult r)
      ∈ (tss.VoteSig s lib ctx req).trace)
    (hs : r.GetSignature = none) (hc : r.GetCriminals = none) :
    (tss.VoteSig s lib ctx req).result =
      Result.panic "invalid memory address or nil pointer dereference" ∧
    Call.DeleteInfoForSig req.PollKey.ID ∈ (tss.VoteSig s lib ctx req).trace ∧
    Call.SetSigStatus req.PollKey.ID SigStatus.Aborted ∈ (tss.VoteSig s lib ctx req).trace ∧
    Call.AllowOverride ∈ (tss.VoteSig s lib ctx req).trace := by
  generalize hout : tss.VoteSig s lib ctx req = out at h ⊢
  unfold tss.VoteSig at hout
  dsimp only at hout
  repeat' split at hout
  all_goals subst hout
  all_goals simp_all [tss.penalizeCriminals_trace, state_eq_comm, result_eq_comm]

/-- Witness of the divergence of C6 on the mock server: the run on a sign result with
no signature and no criminal list panics. -/
theorem VoteSig_panics_without_criminal_list_witness :
    Call.GetResult PollState.Completed (VoteData.SignResult tss.sigUnset)
      ∈ tss.runSigUnset.trace ∧
    tss.sigUnset.GetSignature = none ∧ tss.sigUnset.GetCriminals = none ∧
    tss.runSigUnset.result = Result.panic "invalid memory address or nil pointer dereference" :=
  have h := VoteSig_panics_without_criminal_list (tss.mockServer {} (tss.pollSig tss.sigUnset))
    tss.mockLib [] (tss.reqSig tss.sigUnset) tss.sigUnset (by decide) (by decide) (by decide)
  ⟨by decide, by decide, by decide, h.1⟩

/-- C7: in every vote handler of the tss and evm message servers, every `GetResult` call
is on a poll in state Completed and comes after a `Vote` that returned no error, an
`Is(Pending)` that returned false and an `Is(Failed)` that returned false. -/
theorem GetResult_only_on_completed_poll (st : tss.msgServer σ π) (se : evm.msgServer σ π)
    (lt : tss.Lib) (le : evm.Lib) (ctx : σ) :
    (∀ req, GetResultGuarded (tss.VotePubKey st lt ctx req).trace) ∧
    (∀ req, GetResultGuarded (tss.VoteSig st lt ctx req).trace) ∧
    (∀ req, GetResultGuarded (evm.VoteConfirmGatewayDeployment se ctx req).trace) ∧
    (∀ req, GetResultGuarded (evm.VoteConfirmChain se ctx req).trace) ∧
    (∀ req, GetResultGuarded (evm.VoteConfirmDeposit se le ctx req).trace) ∧
    (∀ req, GetResultGuarded (evm.VoteConfirmToken se le ctx req).trace) ∧
    (∀ req, GetResultGuarded (evm.VoteConfirmTransferKey se ctx req).trace) :=
  ⟨fun req => GetResultGuarded_of_scan _ (tss.scan_VotePubKey st lt ctx req),
    fun req => GetResultGuarded_of_scan _ (tss.scan_VoteSig st lt ctx req),
    fun req => GetResultGuarded_of_scan _ (evm.scan_VoteConfirmGatewayDeployment se ctx req),
    fun req => GetResultGuarded_of_scan _ (evm.scan_VoteConfirmChain se ctx req),
    fun req => GetResultGuarded_of_scan _ (evm.scan_VoteConfirmDeposit se le ctx req),
    fun req => GetResultGuarded_of_scan _ (evm.scan_VoteConfirmToken se le ctx req),
    fun req => GetResultGuarded_of_scan _ (evm.scan_VoteConfirmTransferKey se ctx req)⟩

/-- C8: `Ack` returns an error, makes no call (so no `SetAvailableOperator`) and leaves
the context as it was when the sender resolves to no validator, and also when the
resolved validator is already recorded as available for the request's ID and ack type. -/
theorem Ack_rejects_unknown_or_recorded_sender (s : tss.msgServer σ π) (lib : tss.Lib) (ctx : σ)
    (req : AckRequest)
    (h : (s.snapshotter.GetOperator ctx req.Sender).Empty = true ∨
      s.TSSKeeper.IsOperatorAvailable ctx req.ID req.AckType
        (s.snapshotter.GetOperator ctx req.Sender) = true) :
    (tss.Ack s lib ctx req).result.isErr = true ∧
    (tss.Ack s lib ctx req).trace = [] ∧
    (tss.Ack s lib ctx req).ctx = ctx := by
  generalize hout : tss.Ack s lib ctx req = out
  unfold tss.Ack at hout
  dsimp only at hout
  repeat' split at hout
  all_goals subst hout
  all_goals simp_all [Result.isErr]

/-- Witness of C8 on the mock server: a sender resolving to no validator, and a validator
already recorded as available. -/
theorem Ack_rejects_unknown_or_recorded_sender_witness :
    Bytes.Empty none = true ∧
    tss.runAckNoValidator.result.isErr = true ∧ tss.runAckNoValidator.trace = [] ∧
    tss.runAckDuplicate.result.isErr = true ∧ tss.runAckDuplicate.trace = [] :=
  have h1 := Ack_rejects_unknown_or_recorded_sender
    (tss.mockServer { operator := none } tss.pollIdle) tss.mockLib [] tss.reqAckKeygen
    (Or.inl (by decide))
  have h2 := Ack_rejects_unknown_or_recorded_sender
    (tss.mockServer { available := true } tss.pollIdle) tss.mockLib [] tss.reqAckKeygen
    (Or.inr (by decide))
  ⟨by decide, h1.1, h1.2.1, h2.1, h2.2.1⟩

/-- C9: for a sender resolving to a validator not yet recorded as available, a keygen
`Ack` with a valid key ID whose keygen has started, and a sign `Ack` for a sig ID that
already has a key, return success, make no call (so no `SetAvailableOperator`) and leave
the context as it was. -/
theorem Ack_late_is_accepted_without_effect (s : tss.msgServer σ π) (lib : tss.Lib) (ctx : σ)
    (req : AckRequest)
    (hv : (s.snapshotter.GetOperator ctx req.Sender).Empty = false)
    (ha : s.TSSKeeper.IsOperatorAvailable ctx req.ID req.AckType
      (s.snapshotter.GetOperator ctx req.Sender) = false)
    (hl : (req.AckType = AckType.Keygen ∧ lib.KeyIDValidate req.ID = none ∧
        s.TSSKeeper.HasKeygenStarted ctx req.ID = true) ∨
      (req.AckType = AckType.Sign ∧ (s.TSSKeeper.GetKeyForSigID ctx req.ID).isSome = true)) :
    (tss.Ack s lib ctx req).result = Result.ok "" ∧
    (tss.Ack s lib ctx req).trace = [] ∧
    (tss.Ack s lib ctx req).ctx = ctx := by
  generalize hout : tss.Ack s lib ctx req = out
  unfold tss.Ack at hout
  dsimp only at hout
  repeat' split at hout
  all_goals subst hout
  all_goals simp_all

/-- Witness of C9 on the mock server: a late keygen acknowledgment and a late sign
acknowledgment. -/
theorem Ack_late_is_accepted_without_effect_witness :
    tss.runAckLateKeygen.result = Result.ok "" ∧ tss.runAckLateKeygen.trace = [] ∧
    tss.runAckLateSign.result = Result.ok "" ∧ tss.runAckLateSign.trace = [] :=
  have h1 := Ack_late_is_accepted_without_effect
    (tss.mockServer { keygenStarted := true } tss.pollIdle) tss.mockLib [] tss.reqAckKeygen
    (by decide) (by decide) (Or.inl (by decide))
  have h2 := Ack_late_is_accepted_without_effect
    (tss.mockServer { keyForSig := some { ID := "key", Value := (3, 4), Role := KeyRole.MasterKey } }
      tss.pollIdle) tss.mockLib [] tss.reqAckSign
    (by decide) (by decide) (Or.inr (by decide))
  ⟨h1.1, h1.2.1, h2.1, h2.2.1⟩

/-- C10, as the code has it: a duplicate `Ack`, sent by a validator already recorded as
available for the same ID and ack type, is rejected: `Ack` returns the error that the
sender already submitted an ACK message, makes no call and leaves the context as it was. -/
theorem Ack_duplicate_is_rejected (s : tss.msgServer σ π) (lib : tss.Lib) (ctx : σ)
    (req : AckRequest)
    (hv : (s.snapshotter.GetOperator ctx req.Sender).Empty = false)
    (ha : s.TSSKeeper.IsOperatorAvailable ctx req.ID req.AckType
      (s.snapshotter.GetOperator ctx req.Sender) = true) :
    (tss.Ack s lib ctx req).result =
      Result.err "sender already submitted an ACK message for keygen/sig ID" ∧
    (tss.Ack s lib ctx req).trace = [] ∧
    (tss.Ack s lib ctx req).ctx = ctx := by
  generalize hout : tss.Ack s lib ctx req = out
  unfold tss.Ack at hout
  dsimp only at hout
  repeat' split at hout
  all_goals subst hout
  all_goals simp_all

/-- Witness of the amended C10 on the mock server. -/
theorem Ack_duplicate_is_rejected_witness :
    Bytes.Empty (some [1]) = false ∧
    tss.runAckDuplicate.result =
      Result.err "sender already submitted an ACK message for keygen/sig ID" ∧
    tss.runAckDuplicate.ctx = [] :=
  have h := Ack_duplicate_is_rejected (tss.mockServer { available := true } tss.pollIdle)
    tss.mockLib [] tss.reqAckKeygen (by decide) (by decide)
  ⟨by decide, h.1, h.2.2⟩

/-- Counterexample to C10 as stated: the duplicate keygen acknowledgment of a validator
already recorded as available does not return success. -/
theorem Ack_duplicate_not_accepted :
    (tss.mockServer { available := true } tss.pollIdle).TSSKeeper.IsOperatorAvailable []
      tss.reqAckKeygen.ID tss.reqAckKeygen.AckType (some [1]) = true ∧
    tss.runAckDuplicate.result.isOk = false ∧
    tss.runAckDuplicate.result.isErr = true := by
  decide

/-- C11: `StartKeygen` returns an error without calling `ScheduleKeygen` (no call at all,
context unchanged) whenever `HasKeygenStarted` holds for the request's key ID; when it
does not hold, `StartKeygen` calls `ScheduleKeygen` once, makes no other call, and
returns an error exactly when `ScheduleKeygen` does. -/
theorem StartKeygen_guards_ScheduleKeygen (s : tss.msgServer σ π) (ctx : σ)
    (req : StartKeygenRequest) :
    (s.TSSKeeper.HasKeygenStarted ctx req.KeyID = true →
      (tss.StartKeygen s ctx req).result.isErr = true ∧
      (tss.StartKeygen s ctx req).trace = [] ∧
      (tss.StartKeygen s ctx req).ctx = ctx) ∧
    (s.TSSKeeper.HasKeygenStarted ctx req.KeyID = false →
      (tss.StartKeygen s ctx req).trace =
        [Call.ScheduleKeygen req (s.TSSKeeper.ScheduleKeygen ctx req).1] ∧
      (tss.StartKeygen s ctx req).ctx = (s.TSSKeeper.ScheduleKeygen ctx req).2 ∧
      ((tss.StartKeygen s ctx req).result.isErr = true ↔
        (s.TSSKeeper.ScheduleKeygen ctx req).1 ≠ none) ∧
      ((tss.StartKeygen s ctx req).result = Result.ok "" ↔
        (s.TSSKeeper.ScheduleKeygen ctx req).1 = none)) := by
  generalize hout : tss.StartKeygen s ctx req = out
  unfold tss.StartKeygen at hout
  dsimp only at hout
  repeat' split at hout
  all_goals subst hout
  all_goals simp_all [Result.isErr]

/-- Witness of C11 on the mock server: a started keygen, and a key ID not yet started. -/
theorem StartKeygen_guards_ScheduleKeygen_witness :
    (tss.StartKeygen (tss.mockServer { keygenStarted := true } tss.pollIdle) []
        tss.reqStartKeygen).result.isErr = true ∧
    (tss.StartKeygen (tss.mockServer {} tss.pollIdle) [] tss.reqStartKeygen).trace =
      [Call.ScheduleKeygen tss.reqStartKeygen none] ∧
    (tss.StartKeygen (tss.mockServer {} tss.pollIdle) [] tss.reqStartKeygen).result =
      Result.ok "" :=
  have h1 := (StartKeygen_guards_ScheduleKeygen
    (tss.mockServer { keygenStarted := true } tss.pollIdle) [] tss.reqStartKeygen).1 (by decide)
  have h2 := (StartKeygen_guards_ScheduleKeygen
    (tss.mockServer {} tss.pollIdle) [] tss.reqStartKeygen).2 (by decide)
  ⟨h1.1, h2.1, h2.2.2.2.2 (by decide)⟩

/-- C13: the `RotateKey` handler returns an error and makes no call (neither
`AssignNextKey` nor the keeper's `RotateKey`) when the chain is unknown, when a current
key exists for the chain and role, and when the key fails `AssertMatchesRequirements`;
and whenever it calls the keeper's `RotateKey`, its first call was an `AssignNextKey`
for the same chain and role that returned no error. -/
theorem RotateKey_checks_before_assigning (s : tss.msgServer σ π) (ctx : σ)
    (req : RotateKeyRequest) :
    (s.nexus.GetChain ctx req.Chain = none →
      (tss.RotateKey s ctx req).result.isErr = true ∧ (tss.RotateKey s ctx req).trace = [] ∧
      (tss.RotateKey s ctx req).ctx = ctx) ∧
    (∀ chain, s.nexus.GetChain ctx req.Chain = some chain →
      (s.TSSKeeper.GetCurrentKeyID ctx chain req.KeyRole).isSome = true →
      (tss.RotateKey s ctx req).result.isErr = true ∧ (tss.RotateKey s ctx req).trace = [] ∧
      (tss.RotateKey s ctx req).ctx = ctx) ∧
    (∀ chain, s.nexus.GetChain ctx req.Chain = some chain →
      s.TSSKeeper.AssertMatchesRequirements ctx chain req.KeyID req.KeyRole ≠ none →
      (tss.RotateKey s ctx req).result.isErr = true ∧ (tss.RotateKey s ctx req).trace = [] ∧
      (tss.RotateKey s ctx req).ctx = ctx) ∧
    (∀ chain role e, Call.RotateKey chain role e ∈ (tss.RotateKey s ctx req).trace →
      (tss.RotateKey s ctx req).trace.head? =
        some (Call.AssignNextKey chain role req.KeyID none)) := by
  generalize hout : tss.RotateKey s ctx req = out
  unfold tss.RotateKey at hout
  dsimp only at hout
  repeat' split at hout
  all_goals subst hout
  all_goals simp_all [Result.isErr]

/-- Witness of C13 on the mock server: an unknown chain, an active key, a key failing
the requirements, and a rotation after a successful assignment. -/
theorem RotateKey_checks_before_assigning_witness :
    (tss.RotateKey (tss.mockServer {} tss.pollIdle) [] tss.reqRotateKey).result.isErr = true ∧
    (tss.RotateKey (tss.mockServer { chain := some tss.chainBitcoin, currentKey := some "old" }
        tss.pollIdle) [] tss.reqRotateKey).result.isErr = true ∧
    (tss.RotateKey (tss.mockServerBadKey { chain := some tss.chainBitcoin } tss.pollIdle) []
        tss.reqRotateKey).trace = [] ∧
    Call.RotateKey tss.chainBitcoin KeyRole.MasterKey none ∈
      (tss.RotateKey (tss.mockServer { chain := some tss.chainBitcoin } tss.pollIdle) []
        tss.reqRotateKey).trace ∧
    (tss.RotateKey (tss.mockServer { chain := some tss.chainBitcoin } tss.pollIdle) []
        tss.reqRotateKey).trace.head? =
      some (Call.AssignNextKey tss.chainBitcoin KeyRole.MasterKey "key" none) :=
  have h1 := (RotateKey_checks_before_assigning (tss.mockServer {} tss.pollIdle) []
    tss.reqRotateKey).1 (by decide)
  have h2 := (RotateKey_checks_before_assigning
    (tss.mockServer { chain := some tss.chainBitcoin, currentKey := some "old" } tss.pollIdle)
    [] tss.reqRotateKey).2.1 tss.chainBitcoin (by decide) (by decide)
  have h3 := (RotateKey_checks_before_assigning
    (tss.mockServerBadKey { chain := some tss.chainBitcoin } tss.pollIdle)
    [] tss.reqRotateKey).2.2.1 tss.chainBitcoin (by decide) (by decide)
  have h4 := (RotateKey_checks_before_assigning
    (tss.mockServer { chain := some tss.chainBitcoin } tss.pollIdle)
    [] tss.reqRotateKey).2.2.2 tss.chainBitcoin KeyRole.MasterKey none (by decide)
  ⟨h1.1, h2.1, h3.2.1, by decide, h4⟩

/-- C14: whenever `poll.Vote` returns an error, `VotePubKey` and `VoteSig` return that
error and do no outcome processing: no key, group recovery info or signature is stored,
no signature status set, no keygen or sign bookkeeping deleted, the result is not
fetched, `AllowOverride` is not called and nobody is penalized. -/
theorem Vote_error_stops_processing (s : tss.msgServer σ π) (lib : tss.Lib) (ctx : σ) :
    (∀ (req : VotePubKeyRequest) voter data e,
      Call.Vote voter data (some e) ∈ (tss.VotePubKey s lib ctx req).trace →
      (tss.VotePubKey s lib ctx req).result = Result.err e ∧
      (∀ c ∈ (tss.VotePubKey s lib ctx req).trace, isOutcomeProcessing c = false)) ∧
    (∀ (req : VoteSigRequest) voter data e,
      Call.Vote voter data (some e) ∈ (tss.VoteSig s lib ctx req).trace →
      (tss.VoteSig s lib ctx req).result = Result.err e ∧
      (∀ c ∈ (tss.VoteSig s lib ctx req).trace, isOutcomeProcessing c = false)) := by
  constructor
  · intro req voter data e h
    generalize hout : tss.VotePubKey s lib ctx req = out at h ⊢
    unfold tss.VotePubKey at hout
    dsimp only at hout
    repeat' split at hout
    all_goals subst hout
    all_goals simp_all [tss.deleteKeygenCalls, tss.penalizeCriminals_trace, isOutcomeProcessing]
  · intro req voter data e h
    generalize hout : tss.VoteSig s lib ctx req = out at h ⊢
    unfold tss.VoteSig at hout
    dsimp only at hout
    repeat' split at hout
    all_goals subst hout
    all_goals simp_all [tss.penalizeCriminals_trace, isOutcomeProcessing]

/-- Witness of C14 on the mock server: both handlers on a poll whose `Vote` returns an
error. -/
theorem Vote_error_stops_processing_witness :
    tss.runPubKeyVoteError.result = Result.err "address is not eligible to vote in this poll" ∧
    tss.runSigVoteError.result = Result.err "address is not eligible to vote in this poll" :=
  have h1 := (Vote_error_stops_processing (tss.mockServer {} tss.pollVoteError) tss.mockLib []).1
    tss.reqPubKeyData (some [1])
    (VoteData.KeygenVoteData { PubKey := some [3, 4], GroupRecoveryInfo := some [5] })
    "address is not eligible to vote in this poll" (by decide)
  have h2 := (Vote_error_stops_processing (tss.mockServer {} tss.pollVoteError) tss.mockLib []).2
    (tss.reqSig tss.sigTwoBytes) (some [1]) (VoteData.SignResult tss.sigTwoBytes)
    "address is not eligible to vote in this poll" (by decide)
  ⟨h1.1, h2.1⟩

/-- Counterexample to C15 as stated: a registered proxy sends well-formed public-key data
for a key ID whose key is already stored, after having submitted its private recovery
info before; `VotePubKey` returns an error. -/
theorem VotePubKey_duplicate_data_is_rejected :
    (tss.mockServer { key := some tss.storedKey, hasRecovery := true } tss.pollKey).snapshotter.GetOperator
      [] tss.reqPubKeyData.Sender = some [1] ∧
    (tss.mockServer { key := some tss.storedKey, hasRecovery := true } tss.pollKey).TSSKeeper.GetKey
      [] "key" = some tss.storedKey ∧
    tss.runPubKeyDuplicate.result =
      Result.err "voter already submitted their private recovery info" := by
  decide

/-- C16, as the code has it: whenever a tss handler returns an error, the context is as
it was on entry unless the handler had already made a keeper write. `VoteSig` never has;
`Ack` and `StartKeygen` only when the error is the one `SetAvailableOperator` or
`ScheduleKeygen` returned; `RotateKey` only when `AssignNextKey` or the keeper's
`RotateKey` returned the error; `VotePubKey` only after recording the private recovery
info of a public-key vote; `RegisterExternalKeys` only after storing an earlier key. -/
theorem error_after_keeper_write_paths (s : tss.msgServer σ π) (lib : tss.Lib) (ctx : σ) :
    (∀ req, (tss.RegisterExternalKeys s lib ctx req).result.isErr = true →
      ((tss.RegisterExternalKeys s lib ctx req).trace = [] ∧
        (tss.RegisterExternalKeys s lib ctx req).ctx = ctx) ∨
      ∃ k pk, Call.SetKey k pk ∈ (tss.RegisterExternalKeys s lib ctx req).trace) ∧
    (∀ req, (tss.Ack s lib ctx req).result.isErr = true →
      ((tss.Ack s lib ctx req).trace = [] ∧ (tss.Ack s lib ctx req).ctx = ctx) ∨
      ∃ e, (tss.Ack s lib ctx req).trace = [Call.SetAvailableOperator req.ID req.AckType
        (s.snapshotter.GetOperator ctx req.Sender) (some e)]) ∧
    (∀ req, (tss.StartKeygen s ctx req).result.isErr = true →
      ((tss.StartKeygen s ctx req).trace = [] ∧ (tss.StartKeygen s ctx req).ctx = ctx) ∨
      ∃ e, (tss.StartKeygen s ctx req).trace = [Call.ScheduleKeygen req (some e)]) ∧
    (∀ req, (tss.RotateKey s ctx req).result.isErr = true →
      ((tss.RotateKey s ctx req).trace = [] ∧ (tss.RotateKey s ctx req).ctx = ctx) ∨
      (∃ chain e, (tss.RotateKey s ctx req).trace =
        [Call.AssignNextKey chain req.KeyRole req.KeyID (some e)]) ∨
      (∃ chain e, (tss.RotateKey s ctx req).trace =
        [Call.AssignNextKey chain req.KeyRole req.KeyID none,
          Call.RotateKey chain req.KeyRole (some e)])) ∧
    (∀ req, (tss.VotePubKey s lib ctx req).result.isErr = true →
      (keeperWrites (tss.VotePubKey s lib ctx req).trace = [] ∧
        (tss.VotePubKey s lib ctx req).ctx = ctx) ∨
      ∃ d, req.Result = KeygenResultData.Data d ∧
        keeperWrites (tss.VotePubKey s lib ctx req).trace =
          [Call.SetPrivateRecoveryInfo (s.snapshotter.GetOperator ctx req.Sender) req.PollKey.ID
            d.PrivateRecoverInfo]) ∧
    (∀ req, (tss.VoteSig s lib ctx req).result.isErr = true →
      keeperWrites (tss.VoteSig s lib ctx req).trace = [] ∧
      (tss.VoteSig s lib ctx req).ctx = ctx) := by
  refine ⟨?_, ?_, ?_, ?_, ?_, ?_⟩
  · intro req h
    generalize hout : tss.RegisterExternalKeys s lib ctx req = out at h ⊢
    unfold tss.RegisterExternalKeys at hout
    dsimp only at hout
    split at hout
    · subst hout; simp
    · split at hout
      · subst hout; simp
      · split at hout
        · rename_i msg st hloop
          subst hout
          rcases tss.registerExternalKeysLoop_error s lib _ _ _ _ _ hloop with ⟨h1, h2⟩ | hex
          · exact Or.inl ⟨h1, h2⟩
          · exact Or.inr hex
        · subst hout
          simp [Result.isErr] at h
  · intro req h
    generalize hout : tss.Ack s lib ctx req = out at h ⊢
    unfold tss.Ack at hout
    dsimp only at hout
    repeat' split at hout
    all_goals subst hout
    all_goals simp_all [Result.isErr]
  · intro req h
    generalize hout : tss.StartKeygen s ctx req = out at h ⊢
    unfold tss.StartKeygen at hout
    dsimp only at hout
    repeat' split at hout
    all_goals subst hout
    all_goals simp_all [Result.isErr]
  · intro req h
    generalize hout : tss.RotateKey s ctx req = out at h ⊢
    unfold tss.RotateKey at hout
    dsimp only at hout
    repeat' split at hout
    all_goals subst hout
    all_goals simp_all [Result.isErr]
  · intro req h
    generalize hout : tss.VotePubKey s lib ctx req = out at h ⊢
    unfold tss.VotePubKey at hout
    dsimp only at hout
    repeat' split at hout
    all_goals subst hout
    all_goals simp_all [Result.isErr, keeperWrites, isKeeperWrite, tss.deleteKeygenCalls]
  · intro req h
    generalize hout : tss.VoteSig s lib ctx req = out at h ⊢
    unfold tss.VoteSig at hout
    dsimp only at hout
    repeat' split at hout
    all_goals subst hout
    all_goals simp_all [Result.isErr, keeperWrites, isKeeperWrite]

/-- Witness of the amended C16 on the mock server: the error of `VotePubKey` on a failing
`Vote` comes after the private recovery info was recorded. -/
theorem error_after_keeper_write_paths_witness :
    tss.runPubKeyVoteError.result.isErr = true ∧
    ((keeperWrites tss.runPubKeyVoteError.trace = [] ∧ tss.runPubKeyVoteError.ctx = []) ∨
      ∃ d, tss.reqPubKeyData.Result = KeygenResultData.Data d ∧
        keeperWrites tss.runPubKeyVoteError.trace =
          [Call.SetPrivateRecoveryInfo (some [1]) "key" d.PrivateRecoverInfo]) :=
  ⟨by decide,
    (error_after_keeper_write_paths (tss.mockServer {} tss.pollVoteError) tss.mockLib
      []).2.2.2.2.1 tss.reqPubKeyData (by decide)⟩

/-- Counterexample to C16 as stated: `VotePubKey` returns the error of `poll.Vote` after
having recorded the voter's private recovery info, and `RegisterExternalKeys` returns an
error on its second key after having stored the first; in both runs the context is not
as it was on entry. -/
theorem error_returned_after_keeper_write :
    tss.runPubKeyVoteError.result.isErr = true ∧
    tss.runPubKeyVoteError.ctx = [Call.SetPrivateRecoveryInfo (some [1]) "key" (some [6])] ∧
    tss.runRegisterSecondBad.result.isErr = true ∧
    tss.runRegisterSecondBad.ctx =
      [Call.SetKey "ext1" (3, 4), Call.SetKeyRole "ext1" KeyRole.ExternalKey] := by
  decide

/-- C19, where the code diverges: whenever the vote leaves the poll in a terminal state
(`Is(Pending)` returned false), `VotePubKey` emits, through its deferred call, the event
built before the action tag is appended: that event carries the module name and the poll
key but no action tag. Every other event of the run carries all three. -/
theorem VotePubKey_deferred_event_lacks_action (s : tss.msgServer σ π) (lib : tss.Lib)
    (ctx : σ) (req : VotePubKeyRequest)
    (h : Call.Is PollState.Pending false ∈ (tss.VotePubKey s lib ctx req).trace) :
    Call.EmitEvent (tss.keygenPollEvent req.PollKey) ∈ (tss.VotePubKey s lib ctx req).trace ∧
    (tss.keygenPollEvent req.PollKey).hasKey AttrKey.AttributeKeyAction = false ∧
    (tss.keygenPollEvent req.PollKey).isComplete = false ∧
    (∀ e, Call.EmitEvent e ∈ (tss.VotePubKey s lib ctx req).trace →
      e = tss.keygenPollEvent req.PollKey ∨ e.isComplete = true) := by
  generalize hout : tss.VotePubKey s lib ctx req = out at h ⊢
  unfold tss.VotePubKey at hout
  dsimp only at hout
  repeat' split at hout
  all_goals subst hout
  all_goals simp_all [tss.deleteKeygenCalls, tss.penalizeCriminals_trace, tss.keygenPollEvent,
    Event.hasKey, Event.isComplete, NewEvent, Event.AppendAttributes]

/-- Witness of the divergence of C19 on the mock server: on a Failed poll and on a
Completed poll with a key, a `VotePubKey` event without action tag is emitted. -/
theorem VotePubKey_deferred_event_lacks_action_witness :
    Call.Is PollState.Pending false ∈ tss.runPubKeyFailed.trace ∧
    Call.EmitEvent (tss.keygenPollEvent { Module := "tss", ID := "key" })
      ∈ tss.runPubKeyFailed.trace ∧
    Call.EmitEvent (tss.keygenPollEvent { Module := "tss", ID := "key" })
      ∈ tss.runPubKeyGood.trace ∧
    (tss.keygenPollEvent { Module := "tss", ID := "key" }).isComplete = false :=
  have h1 := VotePubKey_deferred_event_lacks_action (tss.mockServer {} tss.pollFailed)
    tss.mockLib [] tss.reqPubKeyCriminals (by decide)
  have h2 := VotePubKey_deferred_event_lacks_action (tss.mockServer {} tss.pollKey)
    tss.mockLib [] tss.reqPubKeyData (by decide)
  ⟨by decide, h1.1, h2.1, h1.2.2.1⟩

/-- C20, where the code diverges: the handler returned by `NewHandler` has no case for
`AckRequest` (nor for `RegisterExternalKeysRequest`): it rejects them as unrecognized
message types without calling `Ack`, making no call and leaving the context as it was,
also where `Ack` itself returns success. The six other request types are dispatched to
their `msgServer` methods: same calls, same context, success exactly when the method
succeeds. -/
theorem NewHandler_rejects_AckRequest (server : tss.msgServer σ π) (lib : tss.Lib)
    (wrap : String → String) (ctx : σ) :
    (∀ m, (tss.NewHandler server lib wrap ctx (tss.Msg.AckRequest m)).result =
        Result.err (wrap "unrecognized tss message type") ∧
      (tss.NewHandler server lib wrap ctx (tss.Msg.AckRequest m)).trace = [] ∧
      (tss.NewHandler server lib wrap ctx (tss.Msg.AckRequest m)).ctx = ctx) ∧
    (∀ m, (tss.NewHandler server lib wrap ctx (tss.Msg.RegisterExternalKeysRequest m)).result =
        Result.err (wrap "unrecognized tss message type")) ∧
    (tss.Ack (tss.mockServer {} tss.pollIdle) tss.mockLib [] tss.reqAckKeygen).result =
        Result.ok "" ∧
    (tss.NewHandler (tss.mockServer {} tss.pollIdle) tss.mockLib id []
        (tss.Msg.AckRequest tss.reqAckKeygen)).result.isErr = true ∧
    (∀ m, (tss.NewHandler server lib wrap ctx (tss.Msg.StartKeygenRequest m)).trace =
        (tss.StartKeygen server ctx m).trace ∧
      (tss.NewHandler server lib wrap ctx (tss.Msg.StartKeygenRequest m)).ctx =
        (tss.StartKeygen server ctx m).ctx ∧
      (tss.NewHandler server lib wrap ctx (tss.Msg.StartKeygenRequest m)).result.isOk =
        (tss.StartKeygen server ctx m).result.isOk) ∧
    (∀ m, (tss.NewHandler server lib wrap ctx (tss.Msg.RotateKeyRequest m)).trace =
        (tss.RotateKey server ctx m).trace ∧
      (tss.NewHandler server lib wrap ctx (tss.Msg.RotateKeyRequest m)).ctx =
        (tss.RotateKey server ctx m).ctx ∧
      (tss.NewHandler server lib wrap ctx (tss.Msg.RotateKeyRequest m)).result.isOk =
        (tss.RotateKey server ctx m).result.isOk) ∧
    (∀ m, (tss.NewHandler server lib wrap ctx (tss.Msg.VotePubKeyRequest m)).trace =
        (tss.VotePubKey server lib ctx m).trace ∧
      (tss.NewHandler server lib wrap ctx (tss.Msg.VotePubKeyRequest m)).ctx =
        (tss.VotePubKey server lib ctx m).ctx ∧
      (tss.NewHandler server lib wrap ctx (tss.Msg.VotePubKeyRequest m)).result.isOk =
        (tss.VotePubKey server lib ctx m).result.isOk) ∧
    (∀ m, (tss.NewHandler server lib wrap ctx (tss.Msg.VoteSigRequest m)).trace =
        (tss.VoteSig server lib ctx m).trace ∧
      (tss.NewHandler server lib wrap ctx (tss.Msg.VoteSigRequest m)).ctx =
        (tss.VoteSig server lib ctx m).ctx ∧
      (tss.NewHandler server lib wrap ctx (tss.Msg.VoteSigRequest m)).result.isOk =
        (tss.VoteSig server lib ctx m).result.isOk) ∧
    (∀ m, (tss.NewHandler server lib wrap ctx (tss.Msg.ProcessKeygenTrafficRequest m)).trace =
        (tss.ProcessKeygenTraffic server lib ctx m).trace ∧
      (tss.NewHandler server lib wrap ctx (tss.Msg.ProcessKeygenTrafficRequest m)).result.isOk =
        (tss.ProcessKeygenTraffic server lib ctx m).result.isOk) ∧
    (∀ m, (tss.NewHandler server lib wrap ctx (tss.Msg.ProcessSignTrafficRequest m)).trace =
        (tss.ProcessSignTraffic server ctx m).trace ∧
      (tss.NewHandler server lib wrap ctx (tss.Msg.ProcessSignTrafficRequest m)).result.isOk =
        (tss.ProcessSignTraffic server ctx m).result.isOk) := by
  have key : ∀ (o : Outcome σ π),
      (match o.result with
        | Result.err e => ({ o with result := Result.err (wrap e) } : Outcome σ π)
        | _ => o).trace = o.trace ∧
      (match o.result with
        | Result.err e => ({ o with result := Result.err (wrap e) } : Outcome σ π)
        | _ => o).ctx = o.ctx ∧
      (match o.result with
        | Result.err e => ({ o with result := Result.err (wrap e) } : Outcome σ π)
        | _ => o).result.isOk = o.result.isOk := by
    intro o
    cases h : o.result <;> simp [h, Result.isOk]
  refine ⟨?_, ?_, by decide, by decide, ?_, ?_, ?_, ?_, ?_, ?_⟩
  · intro m; simp [tss.NewHandler]
  · intro m; simp [tss.NewHandler]
  · intro m; exact key _
  · intro m; exact key _
  · intro m; exact key _
  · intro m; exact key _
  · intro m; exact ⟨(key _).1, (key _).2.2⟩
  · intro m; exact ⟨(key _).1, (key _).2.2⟩

/-- C22: `VoteConfirmDeposit` deletes the poll's pending deposit before any vote is cast
only when a stored deposit is found for the request's transaction ID and burner address,
a pending deposit is found for the request's poll key, and the two are equal under Go
`==` (all fields, the amount by its pointer, so they are the same value). A request that
names an already confirmed or burned deposit which does not match the poll's pending
deposit makes no call, leaves the context as it was and returns success. -/
theorem VoteConfirmDeposit_deletes_pending_only_on_match (s : evm.msgServer σ π)
    (lib : evm.Lib) (ctx : σ) (req : evm.VoteConfirmDepositRequest) :
    (∀ c k, Call.DeletePendingDeposit c k ∈ beforeVote (evm.VoteConfirmDeposit s lib ctx req).trace →
      ∃ chain stored st pending,
        s.nexus.GetChain ctx req.Chain = some chain ∧ c = chain.Name ∧ k = req.PollKey ∧
        s.BaseKeeper.ForChain.GetDeposit ctx chain.Name req.TxID req.BurnAddress
          = some (stored, st) ∧
        s.BaseKeeper.ForChain.GetPendingDeposit ctx chain.Name req.PollKey = some pending ∧
        stored.eq pending = true ∧
        (stored.Amount.val = pending.Amount.val → stored = pending)) ∧
    (∀ chain stored st,
      s.nexus.GetChain ctx req.Chain = some chain →
      s.nexus.IsChainActivated ctx chain = true →
      s.BaseKeeper.ForChain.GetDeposit ctx chain.Name req.TxID req.BurnAddress
        = some (stored, st) →
      st = DepositState.CONFIRMED ∨ st = DepositState.BURNED →
      (∀ pending, s.BaseKeeper.ForChain.GetPendingDeposit ctx chain.Name req.PollKey
        = some pending → stored.eq pending = false) →
      (evm.VoteConfirmDeposit s lib ctx req).result.isOk = true ∧
      (evm.VoteConfirmDeposit s lib ctx req).trace = [] ∧
      (evm.VoteConfirmDeposit s lib ctx req).ctx = ctx) := by
  constructor
  · intro c k h
    have hb := evm.beforeVote_VoteConfirmDeposit s lib ctx req
    cases hchain : s.nexus.GetChain ctx req.Chain with
    | none =>
      rw [hb.1 hchain] at h
      exact absurd h (List.not_mem_nil _)
    | some chain =>
      rw [hb.2 chain hchain] at h
      split at h
      · next hcond =>
        obtain ⟨_, hcond⟩ := hcond
        cases hd : s.BaseKeeper.ForChain.GetDeposit ctx chain.Name req.TxID req.BurnAddress with
        | none => simp [hd] at hcond
        | some sd =>
          cases hp : s.BaseKeeper.ForChain.GetPendingDeposit ctx chain.Name req.PollKey with
          | none => simp [hd, hp] at hcond
          | some pending =>
            obtain ⟨stored, st⟩ := sd
            simp [hd, hp] at hcond
            simp at h
            exact ⟨chain, stored, st, pending, rfl, h.1, h.2, hd, hp, hcond,
              ERC20Deposit.eq_of_eq stored pending hcond⟩
      · exact absurd h (List.not_mem_nil _)
  · intro chain stored st hc ha hd hst hne
    generalize hout : evm.VoteConfirmDeposit s lib ctx req = out
    unfold evm.VoteConfirmDeposit at hout
    dsimp only at hout
    repeat' split at hout
    all_goals subst hout
    all_goals
      cases hp : s.BaseKeeper.ForChain.GetPendingDeposit ctx chain.Name req.PollKey
    all_goals rcases hst with rfl | rfl
    all_goals simp_all [evm.validateChainActivated, Result.isOk]

/-- Witness of C22 on the mock server: the same deposit decoded twice (two pointers) is
not a match, so the pending deposit stays and the handler returns success without a
call; with the stored deposit being the pending value itself the deletion comes first. -/
theorem VoteConfirmDeposit_deletes_pending_only_on_match_witness :
    evm.runDepositAlreadyConfirmed.result.isOk = true ∧
    evm.runDepositAlreadyConfirmed.trace = [] ∧
    Call.DeletePendingDeposit "Ethereum" { Module := "evm", ID := "deposit" }
      ∈ beforeVote evm.runDepositSamePointer.trace ∧
    (evm.depositOf 1 100).eq (evm.depositOf 1 100) = true :=
  have h1 := (VoteConfirmDeposit_deletes_pending_only_on_match
    (evm.mockServer { pendingDeposit := some (evm.depositOf 1 100)
                      deposit := some (evm.depositOf 2 100, DepositState.CONFIRMED) }
      (evm.pollBool true)) evm.mockLib [] evm.reqDeposit).2
    evm.chainEthereum (evm.depositOf 2 100) DepositState.CONFIRMED rfl rfl rfl (Or.inl rfl)
    (fun pending hp => by cases hp; decide)
  ⟨h1.1, h1.2.1, by decide, by decide⟩

/-- C28, where the code diverges: every coin `VoteConfirmDeposit` enqueues for transfer
has the asset of the poll's pending deposit and, as amount, the low 64 bits of the
deposit's amount read as a signed integer (`BigInt().Int64()`). That is the deposit's
amount when it is below 2^63 and a different number for every amount from 2^63 on. -/
theorem VoteConfirmDeposit_enqueues_low_64_bits (s : evm.msgServer σ π) (lib : evm.Lib)
    (ctx : σ) (req : evm.VoteConfirmDepositRequest) (chain : Chain) (pending : ERC20Deposit)
    (hc : s.nexus.GetChain ctx req.Chain = some chain)
    (hp : s.BaseKeeper.ForChain.GetPendingDeposit ctx chain.Name req.PollKey = some pending) :
    (∀ c ∈ enqueuedCoins (evm.VoteConfirmDeposit s lib ctx req).trace,
      c = { Denom := pending.Asset, Amount := evm.toInt64 pending.Amount.val }) ∧
    (pending.Amount.val < 2 ^ 63 →
      ∀ c ∈ enqueuedCoins (evm.VoteConfirmDeposit s lib ctx req).trace,
        c.Amount = (pending.Amount.val : Int)) ∧
    (2 ^ 63 ≤ pending.Amount.val →
      ∀ c ∈ enqueuedCoins (evm.VoteConfirmDeposit s lib ctx req).trace,
        c.Amount ≠ (pending.Amount.val : Int)) := by
  have h1 : ∀ c ∈ enqueuedCoins (evm.VoteConfirmDeposit s lib ctx req).trace,
      c = { Denom := pending.Asset, Amount := evm.toInt64 pending.Amount.val } := by
    generalize hout : evm.VoteConfirmDeposit s lib ctx req = out
    unfold evm.VoteConfirmDeposit at hout
    dsimp only at hout
    repeat' split at hout
    all_goals subst hout
    all_goals simp_all [enqueuedCoins_nil, enqueuedCoins_delete]
    all_goals first
      | exact evm.enqueued_vote_nil s lib req _ pending _
      | exact evm.enqueued_vote_delete s lib req _ pending _ _ _
  refine ⟨h1, ?_, ?_⟩
  · intro hlt c hcm
    rw [h1 c hcm]
    exact evm.toInt64_of_lt _ hlt
  · intro hge c hcm
    rw [h1 c hcm]
    exact evm.toInt64_ne_of_ge _ hge

/-- Witness of the divergence of C28 on the mock server: confirming a deposit of
2^64 + 5 enqueues a coin of 5, and confirming a deposit of 2^63 panics on the negative
coin amount. -/
theorem VoteConfirmDeposit_enqueues_low_64_bits_witness :
    enqueuedCoins (evm.runDepositConfirmed (2 ^ 64 + 5)).trace
      = [{ Denom := "satoshi", Amount := 5 }] ∧
    (evm.runDepositConfirmed (2 ^ 64 + 5)).result = Result.ok "" ∧
    (∀ c ∈ enqueuedCoins (evm.runDepositConfirmed (2 ^ 64 + 5)).trace,
      c.Amount ≠ ((2 ^ 64 + 5 : Nat) : Int)) ∧
    (evm.runDepositConfirmed (2 ^ 63)).result = Result.panic "invalid coin" ∧
    enqueuedCoins (evm.runDepositConfirmed 100).trace = [{ Denom := "satoshi", Amount := 100 }] :=
  have h := VoteConfirmDeposit_enqueues_low_64_bits
    (evm.mockServer { pendingDeposit := some (evm.depositOf 1 (2 ^ 64 + 5)) } (evm.pollBool true))
    evm.mockLib [] evm.reqDeposit evm.chainEthereum (evm.depositOf 1 (2 ^ 64 + 5)) rfl rfl
  ⟨by decide, by decide, h.2.2 (by decide), by decide, by decide⟩

/-- C29, where the code diverges: on a Completed poll whose sign result carries neither
a signature nor a criminal list, `VoteSig` deletes the sign info, sets the status to
Aborted and penalizes nobody, but then reads the entries of the missing criminal list:
it does not return success, it panics. -/
theorem VoteSig_not_total_without_criminal_list (s : tss.msgServer σ π) (lib : tss.Lib)
    (ctx : σ) (req : VoteSigRequest) (r : SignResult)
    (h : Call.GetResult PollState.Completed (VoteData.SignResult r)
      ∈ (tss.VoteSig s lib ctx req).trace)
    (hd : r.SignResultData = SignResultData.unset ∨
      r.SignResultData = SignResultData.Criminals none) :
    (tss.VoteSig s lib ctx req).result.isOk = false ∧
    (tss.VoteSig s lib ctx req).result =
      Result.panic "invalid memory address or nil pointer dereference" ∧
    keeperWrites (tss.VoteSig s lib ctx req).trace =
      [Call.DeleteInfoForSig req.PollKey.ID,
       Call.SetSigStatus req.PollKey.ID SigStatus.Aborted] ∧
    penalties (tss.VoteSig s lib ctx req).trace = [] := by
  have hs : r.GetSignature = none := by
    rcases hd with hd | hd <;> simp [SignResult.GetSignature, hd]
  have hc : r.GetCriminals = none := by
    rcases hd with hd | hd <;> simp [SignResult.GetCriminals, hd]
  clear hd
  generalize hout : tss.VoteSig s lib ctx req = out at h ⊢
  unfold tss.VoteSig at hout
  dsimp only at hout
  repeat' split at hout
  all_goals subst hout
  all_goals simp_all [tss.penalizeCriminals_trace, state_eq_comm, result_eq_comm, Result.isOk,
    keeperWrites, isKeeperWrite, penalties]

/-- Witness of the divergence of C29 on the mock server, for a sign result whose oneof is
unset. -/
theorem VoteSig_not_total_without_criminal_list_witness :
    Call.GetResult PollState.Completed (VoteData.SignResult tss.sigUnset)
      ∈ tss.runSigUnset.trace ∧
    tss.sigUnset.SignResultData = SignResultData.unset ∧
    tss.runSigUnset.result.isOk = false ∧
    penalties tss.runSigUnset.trace = [] :=
  have h := VoteSig_not_total_without_criminal_list
    (tss.mockServer {} (tss.pollSig tss.sigUnset)) tss.mockLib [] (tss.reqSig tss.sigUnset)
    tss.sigUnset (by decide) (Or.inl rfl)
  ⟨by decide, rfl, h.1, h.2.2.2⟩

/-- C24: `VoteConfirmTransferKey` calls the signer's `RotateKey` exactly when the vote
leaves the poll Completed with a confirming result: then once, for the chain and the key
role of the pending transfer's next key, and after archiving the pending transfer key.
When the poll is Pending, Failed or Completed with a rejecting result there is no
rotation, and when the transfer key is already archived the handler returns success
without any call. -/
theorem VoteConfirmTransferKey_rotates_on_confirmation (s : evm.msgServer σ π) (ctx : σ)
    (req : evm.VoteConfirmTransferKeyRequest) :
    ((rotations (evm.VoteConfirmTransferKey s ctx req).trace ≠ []) ↔
      Call.GetResult PollState.Completed (VoteData.BoolValue true)
        ∈ (evm.VoteConfirmTransferKey s ctx req).trace) ∧
    (∀ chain pending,
      s.nexus.GetChain ctx req.Chain = some chain →
      s.BaseKeeper.ForChain.GetPendingTransferKey ctx chain.Name req.PollKey = some pending →
      Call.GetResult PollState.Completed (VoteData.BoolValue true)
        ∈ (evm.VoteConfirmTransferKey s ctx req).trace →
      rotations (evm.VoteConfirmTransferKey s ctx req).trace =
        [(chain, s.signer.GetKeyRole ctx pending.NextKeyID,
          (s.signer.RotateKey (s.BaseKeeper.ForChain.ArchiveTransferKey ctx chain.Name req.PollKey)
            chain (s.signer.GetKeyRole ctx pending.NextKeyID)).1)] ∧
      Call.ArchiveTransferKey chain.Name req.PollKey
        ∈ beforeRotateKey (evm.VoteConfirmTransferKey s ctx req).trace) ∧
    (Call.Is PollState.Pending true ∈ (evm.VoteConfirmTransferKey s ctx req).trace →
      rotations (evm.VoteConfirmTransferKey s ctx req).trace = []) ∧
    (Call.Is PollState.Failed true ∈ (evm.VoteConfirmTransferKey s ctx req).trace →
      rotations (evm.VoteConfirmTransferKey s ctx req).trace = []) ∧
    (∀ st, Call.GetResult st (VoteData.BoolValue false)
        ∈ (evm.VoteConfirmTransferKey s ctx req).trace →
      rotations (evm.VoteConfirmTransferKey s ctx req).trace = []) ∧
    (∀ chain archived,
      s.nexus.GetChain ctx req.Chain = some chain →
      s.nexus.IsChainActivated ctx chain = true →
      s.BaseKeeper.ForChain.GetArchivedTransferKey ctx chain.Name req.PollKey = some archived →
      (evm.VoteConfirmTransferKey s ctx req).result.isOk = true ∧
      (evm.VoteConfirmTransferKey s ctx req).trace = [] ∧
      (evm.VoteConfirmTransferKey s ctx req).ctx = ctx) := by
  generalize hout : evm.VoteConfirmTransferKey s ctx req = out
  unfold evm.VoteConfirmTransferKey at hout
  dsimp only at hout
  repeat' split at hout
  all_goals subst hout
  all_goals simp_all [rotations, beforeRotateKey, isRotateKey, List.takeWhile,
    evm.validateChainActivated, Poll.state_completed, state_eq_comm, result_eq_comm,
    Result.isOk]
  all_goals repeat' (first | intro _ | apply And.intro)
  all_goals subst_vars
  all_goals simp_all

/-- Witness of C24 on the mock server: a confirming result rotates once after the
archiving, a rejecting result and an archived transfer key do not rotate. -/
theorem VoteConfirmTransferKey_rotates_on_confirmation_witness :
    Call.GetResult PollState.Completed (VoteData.BoolValue true)
      ∈ evm.runTransferConfirmed.trace ∧
    rotations evm.runTransferConfirmed.trace = [(evm.chainEthereum, KeyRole.MasterKey, none)] ∧
    Call.ArchiveTransferKey "Ethereum" { Module := "evm", ID := "transfer" }
      ∈ beforeRotateKey evm.runTransferConfirmed.trace ∧
    rotations evm.runTransferRejected.trace = [] ∧
    evm.runTransferArchived.result.isOk = true ∧ evm.runTransferArchived.trace = [] :=
  have h1 := (VoteConfirmTransferKey_rotates_on_confirmation
    (evm.mockServer { pendingTransferKey := some evm.transferNext } (evm.pollBool true)) []
    evm.reqTransferKey).2.1 evm.chainEthereum evm.transferNext rfl rfl (by decide)
  have h2 := (VoteConfirmTransferKey_rotates_on_confirmation
    (evm.mockServer { pendingTransferKey := some evm.transferNext } (evm.pollBool false)) []
    evm.reqTransferKey).2.2.2.2.1 PollState.Completed (by decide)
  have h3 := (VoteConfirmTransferKey_rotates_on_confirmation
    (evm.mockServer { archivedTransferKey := some evm.transferNext } (evm.pollBool true)) []
    evm.reqTransferKey).2.2.2.2.2 evm.chainEthereum evm.transferNext rfl rfl rfl
  ⟨by decide, h1.1.trans (by decide), h1.2, h2, h3.1, h3.2.1⟩

/-- C23: `createTransferKeyCommand` returns an error, makes no call (so no
`AssignNextKey`) and leaves the context as it was whenever a next master key or a next
secondary key is assigned for the chain, whichever transfer type is requested. -/
theorem createTransferKeyCommand_rejects_pending_rotation (s : evm.msgServer σ π)
    (lib : evm.CmdLib σ) (ctx : σ) (transferKeyType : TransferKeyType) (chainStr : String)
    (nextKeyID : KeyID) (chain : Chain)
    (hc : s.nexus.GetChain ctx chainStr = some chain)
    (h : (s.signer.GetNextKeyID ctx chain KeyRole.MasterKey).isSome = true ∨
      (s.signer.GetNextKeyID ctx chain KeyRole.SecondaryKey).isSome = true) :
    (evm.createTransferKeyCommand s lib ctx transferKeyType chainStr nextKeyID).result.isErr
      = true ∧
    (evm.createTransferKeyCommand s lib ctx transferKeyType chainStr nextKeyID).trace = [] ∧
    (evm.createTransferKeyCommand s lib ctx transferKeyType chainStr nextKeyID).ctx = ctx := by
  generalize hout : evm.createTransferKeyCommand s lib ctx transferKeyType chainStr nextKeyID
    = out
  unfold evm.createTransferKeyCommand at hout
  dsimp only at hout
  repeat' split at hout
  all_goals subst hout
  all_goals simp_all [Returned.isErr]

/-- Witness of C23 on the mock server: a transfer of ownership with a next secondary key
assigned and a transfer of operatorship with a next master key assigned both fail, and
without a next key the command is built after one `AssignNextKey`. -/
theorem createTransferKeyCommand_rejects_pending_rotation_witness :
    (evm.createTransferKeyCommand
      (evm.mockServer { nextSecondaryKey := some "pending" } (evm.pollBool true)) evm.mockCmdLib []
      TransferKeyType.Ownership "ethereum" "next").result
      = Returned.err "next secondary key already assigned for chain, rotate key first" ∧
    (evm.createTransferKeyCommand
      (evm.mockServer { nextMasterKey := some "pending" } (evm.pollBool true)) evm.mockCmdLib []
      TransferKeyType.Operatorship "ethereum" "next").trace = [] ∧
    (evm.createTransferKeyCommand (evm.mockServer {} (evm.pollBool true)) evm.mockCmdLib []
      TransferKeyType.Ownership "ethereum" "next").trace
      = [Call.AssignNextKey evm.chainEthereum KeyRole.MasterKey "next" none] :=
  have h2 := createTransferKeyCommand_rejects_pending_rotation
    (evm.mockServer { nextMasterKey := some "pending" } (evm.pollBool true)) evm.mockCmdLib []
    TransferKeyType.Operatorship "ethereum" "next" evm.chainEthereum rfl (Or.inl rfl)
  ⟨by decide, h2.2.1, by decide⟩

/-- C26: for a key count `k` between 0 and 255 and a threshold with
0 < Numerator ≤ Denominator ≤ 10^18, `getMultisigThreshold` returns the ceiling of
`k * Numerator / Denominator`, which is at most `k`; for every larger key count (a Go
int, so below 2^63) it returns that ceiling reduced modulo 256. -/
theorem getMultisigThreshold_is_ceiling (k n d : Int) (hk : 0 ≤ k) (hk63 : k < 2 ^ 63)
    (hn : 0 < n) (hnd : n ≤ d) (hd : d ≤ 10 ^ 18) :
    ⌈(k : ℚ) * (n : ℚ) / (d : ℚ)⌉ ≤ k ∧
    (k ≤ 255 → evm.getMultisigThreshold k { Numerator := n, Denominator := d } =
      some ⌈(k : ℚ) * (n : ℚ) / (d : ℚ)⌉.toNat) ∧
    evm.getMultisigThreshold k { Numerator := n, Denominator := d } =
      some (⌈(k : ℚ) * (n : ℚ) / (d : ℚ)⌉ % 256).toNat := by
  have hd0 : 0 < d := lt_of_lt_of_le hn hnd
  have hceil : ⌈(k : ℚ) * (n : ℚ) / (d : ℚ)⌉ =
      if k * n % d = 0 then k * n / d else k * n / d + 1 := by
    rw [← Int.ceil_div_eq (k * n) d hd0]
    push_cast
    rfl
  obtain ⟨h1, h2, h3⟩ := evm.getMultisigThreshold_eq k n d hk hk63 hn hnd hd
  rw [hceil]
  refine ⟨h2, ?_, h1⟩
  intro hk255
  rw [h1]
  unfold toUint8
  congr 2
  apply Int.emod_eq_of_lt h3
  omega

/-- Witness of C26: three keys at threshold 2/3 need 2, and 300 keys at threshold 1/1
give 300 modulo 256. -/
theorem getMultisigThreshold_is_ceiling_witness :
    evm.getMultisigThreshold 3 { Numerator := 2, Denominator := 3 } = some 2 ∧
    evm.getMultisigThreshold 300 { Numerator := 1, Denominator := 1 } = some 44 :=
  have h1 := getMultisigThreshold_is_ceiling 3 2 3 (by decide) (by decide) (by decide)
    (by decide) (by decide)
  have h2 := getMultisigThreshold_is_ceiling 300 1 1 (by decide) (by decide) (by decide)
    (by decide) (by decide)
  have c1 : ⌈((3 : Int) : ℚ) * ((2 : Int) : ℚ) / ((3 : Int) : ℚ)⌉ = 2 := by
    rw [Int.ceil_eq_iff]; norm_num
  have c2 : ⌈((300 : Int) : ℚ) * ((1 : Int) : ℚ) / ((1 : Int) : ℚ)⌉ = 300 := by
    rw [Int.ceil_eq_iff]; norm_num
  ⟨(h1.2.1 (by decide)).trans (by rw [c1]; rfl), h2.2.2.trans (by rw [c2]; rfl)⟩

/-- C27: when the number of external keys equals the Denominator of the external
multisig threshold and 0 < Numerator ≤ Denominator ≤ 255, `getMultisigThreshold` of that
number is `uint8(Numerator)`, the Numerator itself, so `getGatewayDeploymentBytecode`
passes the same external-key threshold to the single-sig gateway bytecode and to the
multisig gateway bytecode. -/
theorem gateway_external_threshold_is_numerator (s : evm.msgServer σ π) (lib : evm.CmdLib σ)
    (ctx : σ) (chain : Chain) (ids : List KeyID) (pubKeys : List PublicKey)
    (hids : s.signer.GetExternalKeyIDs ctx chain = some ids)
    (hkeys : evm.externalPubKeys s lib ctx ids = .ok pubKeys)
    (hlen : (lib.KeysToAddresses pubKeys).length = pubKeys.length)
    (hcount : (ids.length : Int) = (s.signer.GetExternalMultisigThreshold ctx).Denominator)
    (hn : 0 < (s.signer.GetExternalMultisigThreshold ctx).Numerator)
    (hnd : (s.signer.GetExternalMultisigThreshold ctx).Numerator
      ≤ (s.signer.GetExternalMultisigThreshold ctx).Denominator)
    (hd : (s.signer.GetExternalMultisigThreshold ctx).Denominator ≤ 255) :
    evm.getMultisigThreshold (ids.length : Int) (s.signer.GetExternalMultisigThreshold ctx) =
      some (toUint8 (s.signer.GetExternalMultisigThreshold ctx).Numerator) ∧
    toUint8 (s.signer.GetExternalMultisigThreshold ctx).Numerator =
      (s.signer.GetExternalMultisigThreshold ctx).Numerator.toNat ∧
    (∀ master secondary masterPubKey secondaryPubKey,
      chain.KeyType = KeyType.Threshold →
      s.signer.GetCurrentKey ctx chain KeyRole.MasterKey = some master →
      s.signer.GetCurrentKey ctx chain KeyRole.SecondaryKey = some secondary →
      lib.GetECDSAPubKey master = .ok masterPubKey →
      lib.GetECDSAPubKey secondary = .ok secondaryPubKey →
      evm.getGatewayDeploymentBytecode s lib ctx chain =
        evm.ofExcept (lib.GetSinglesigGatewayDeploymentBytecode
          (s.BaseKeeper.ForChain.GetGatewayByteCodes ctx chain.Name)
          (lib.KeysToAddresses pubKeys)
          (toUint8 (s.signer.GetExternalMultisigThreshold ctx).Numerator)
          (lib.PubkeyToAddress masterPubKey) (lib.PubkeyToAddress secondaryPubKey))) ∧
    (∀ master secondary masterAddresses masterThreshold secondaryAddresses secondaryThreshold,
      chain.KeyType = KeyType.Multisig →
      s.signer.GetCurrentKey ctx chain KeyRole.MasterKey = some master →
      s.signer.GetCurrentKey ctx chain KeyRole.SecondaryKey = some secondary →
      evm.getMultisigAddresses lib master = .ok (masterAddresses, masterThreshold) →
      evm.getMultisigAddresses lib secondary = .ok (secondaryAddresses, secondaryThreshold) →
      evm.getGatewayDeploymentBytecode s lib ctx chain =
        evm.ofExcept (lib.GetMultisigGatewayDeploymentBytecode
          (s.BaseKeeper.ForChain.GetGatewayByteCodes ctx chain.Name)
          (lib.KeysToAddresses pubKeys)
          (toUint8 (s.signer.GetExternalMultisigThreshold ctx).Numerator)
          masterAddresses masterThreshold secondaryAddresses secondaryThreshold)) := by
  generalize hthr : s.signer.GetExternalMultisigThreshold ctx = thr at *
  obtain ⟨n, d⟩ := thr
  simp only at hcount hn hnd hd ⊢
  have hd0 : 0 < d := lt_of_lt_of_le hn hnd
  have hgmt : evm.getMultisigThreshold (ids.length : Int) { Numerator := n, Denominator := d }
      = some (toUint8 n) := by
    have h := (evm.getMultisigThreshold_eq d n d (le_of_lt hd0)
      (lt_of_le_of_lt hd (by norm_num)) hn hnd (le_trans hd (by norm_num))).1
    rw [hcount, h]
    have hmod : d * n % d = 0 := Int.mul_emod_right d n
    rw [if_pos hmod, Int.mul_ediv_cancel_left n (ne_of_gt hd0)]
  have haddr : ((lib.KeysToAddresses pubKeys).length : Int) = (ids.length : Int) := by
    rw [hlen, evm.externalPubKeys_length s lib ctx ids pubKeys hkeys]
  refine ⟨hgmt, ?_, ?_, ?_⟩
  · unfold toUint8
    congr 1
    apply Int.emod_eq_of_lt (le_of_lt hn)
    omega
  · intro master secondary mpk spk hty hm hs hmp hsp
    unfold evm.getGatewayDeploymentBytecode
    simp only [hids, hkeys, haddr, hthr, hgmt, hm, hs, hty, hmp, hsp]
  · intro master secondary ma mt sa st hty hm hs hma hsa
    unfold evm.getGatewayDeploymentBytecode
    simp only [hids, hkeys, haddr, hthr, hgmt, hm, hs, hty, hma, hsa]

/-- Witness of C27 on the mock server: with three external keys at threshold 2/3 both
gateway bytecodes are built with external threshold 2. -/
theorem gateway_external_threshold_is_numerator_witness :
    evm.getMultisigThreshold 3 { Numerator := 2, Denominator := 3 } = some 2 ∧
    evm.getGatewayDeploymentBytecode (evm.mockServer (evm.cannedExternal evm.chainEthereum)
        (evm.pollBool true)) evm.mockCmdLib [] evm.chainEthereum =
      Returned.ok (some [96, 128, 3, 4, 3, 4, 3, 4, 2, 3, 4, 3, 4]) ∧
    evm.getGatewayDeploymentBytecode (evm.mockServer (evm.cannedExternal evm.chainPolygon)
        (evm.pollBool true)) evm.mockCmdLib [] evm.chainPolygon =
      Returned.ok (some [96, 128, 3, 4, 3, 4, 3, 4, 2, 3, 4, 1, 3, 4, 1]) :=
  have h1 := gateway_external_threshold_is_numerator
    (evm.mockServer (evm.cannedExternal evm.chainEthereum) (evm.pollBool true)) evm.mockCmdLib []
    evm.chainEthereum ["e1", "e2", "e3"] [(3, 4), (3, 4), (3, 4)] rfl rfl rfl rfl
    (by decide) (by decide) (by decide)
  have h2 := gateway_external_threshold_is_numerator
    (evm.mockServer (evm.cannedExternal evm.chainPolygon) (evm.pollBool true)) evm.mockCmdLib []
    evm.chainPolygon ["e1", "e2", "e3"] [(3, 4), (3, 4), (3, 4)] rfl rfl rfl rfl
    (by decide) (by decide) (by decide)
  ⟨h1.1.trans rfl,
    (h1.2.2.1 { ID := "next", Value := (3, 4), Role := KeyRole.MasterKey }
      { ID := "next", Value := (3, 4), Role := KeyRole.MasterKey } (3, 4) (3, 4)
      rfl rfl rfl rfl rfl).trans rfl,
    (h2.2.2.2 { ID := "next", Value := (3, 4), Role := KeyRole.MasterKey }
      { ID := "next", Value := (3, 4), Role := KeyRole.MasterKey } [[3, 4]] 1 [[3, 4]] 1
      rfl rfl rfl rfl rfl).trans rfl⟩

/-- Claim C30: for every `QueryChainMaintainersResponse` whose encoding has a length
that a Go `int` can hold, `Marshal` succeeds with exactly `Size` bytes, and `Unmarshal`
of those bytes into an empty message succeeds and yields the maintainers with the same
bytes in the same order. -/
theorem Marshal_Unmarshal_roundtrip (m : nexus.QueryChainMaintainersResponse)
    (hsize : nexus.Size m < 2 ^ 63) :
    ∃ bytes, nexus.Marshal m = Returned.ok bytes ∧ bytes.length = nexus.Size m ∧
      ∃ m2, nexus.Unmarshal { Maintainers := [] } bytes = Returned.ok m2 ∧
        m2.Maintainers.map Bytes.toList = m.Maintainers.map Bytes.toList := by
  refine ⟨nexus.wire m.Maintainers, nexus.Marshal_eq m, (nexus.Size_eq m).symm, _,
    nexus.Unmarshal_wire m.Maintainers (by rw [← nexus.Size_eq]; exact hsize), ?_⟩
  simp [Bytes.toList, Function.comp_def]

/-- Witness of claim C30 on a response with three maintainers, one of them empty. -/
theorem Marshal_Unmarshal_roundtrip_witness :
    nexus.Size nexus.threeMaintainers < 2 ^ 63 ∧
    ∃ bytes, nexus.Marshal nexus.threeMaintainers = Returned.ok bytes ∧
      bytes.length = nexus.Size nexus.threeMaintainers ∧
      ∃ m2, nexus.Unmarshal { Maintainers := [] } bytes = Returned.ok m2 ∧
        m2.Maintainers.map Bytes.toList
          = nexus.threeMaintainers.Maintainers.map Bytes.toList :=
  ⟨by decide, Marshal_Unmarshal_roundtrip nexus.threeMaintainers (by decide)⟩

/-- C3: when `VotePubKey` fetched a `KeygenVoteData` result from a Completed poll and its
`PubKey` parses, the handler stores the parsed key under the poll's key ID and then the
group recovery info: the context it leaves is that of `SetGroupRecoveryInfo` after
`SetKey` on the context it voted in, with no deletion of keygen bookkeeping applied or
called, and it returns success; when the `PubKey` does not parse it returns an error,
makes no `SetKey` call and leaves the context it voted in. -/
theorem VotePubKey_completed_with_key (s : tss.msgServer σ π) (lib : tss.Lib) (ctx : σ)
    (req : VotePubKeyRequest) (d : KeygenVoteData)
    (h : Call.GetResult PollState.Completed (VoteData.KeygenVoteData d)
      ∈ (tss.VotePubKey s lib ctx req).trace) :
    (∀ pk, lib.ParsePubKey d.PubKey = some pk →
      (tss.VotePubKey s lib ctx req).result = Result.ok "" ∧
      (tss.VotePubKey s lib ctx req).ctx =
        s.TSSKeeper.SetGroupRecoveryInfo
          (s.TSSKeeper.SetKey (tss.switchContext s ctx req) req.PollKey.ID pk)
          req.PollKey.ID d.GroupRecoveryInfo ∧
      Call.SetKey req.PollKey.ID pk ∈ (tss.VotePubKey s lib ctx req).trace ∧
      Call.SetGroupRecoveryInfo req.PollKey.ID d.GroupRecoveryInfo
        ∈ (tss.VotePubKey s lib ctx req).trace ∧
      (∀ c ∈ (tss.VotePubKey s lib ctx req).trace, isKeygenDelete c = false)) ∧
    (lib.ParsePubKey d.PubKey = none →
      (tss.VotePubKey s lib ctx req).result.isErr = true ∧
      (tss.VotePubKey s lib ctx req).ctx = tss.switchContext s ctx req ∧
      (∀ k pk, Call.SetKey k pk ∉ (tss.VotePubKey s lib ctx req).trace)) := by
  generalize hout : tss.VotePubKey s lib ctx req = out at h ⊢
  unfold tss.VotePubKey at hout
  dsimp only at hout
  repeat' split at hout
  all_goals subst hout
  all_goals simp_all [tss.deleteKeygenCalls, tss.penalizeCriminals_trace, state_eq_comm,
    result_eq_comm, isKeygenDelete, Result.isErr, tss.switchContext]

/-- Witness of C3 on the mock server: a run storing the parsed key (3, 4) after the
voter's recovery info, and a run whose decided key does not parse. -/
theorem VotePubKey_completed_with_key_witness :
    (Call.GetResult PollState.Completed
        (VoteData.KeygenVoteData { PubKey := some [3, 4], GroupRecoveryInfo := some [5] })
        ∈ tss.runPubKeyGood.trace ∧
      tss.mockLib.ParsePubKey (some [3, 4]) = some (3, 4) ∧
      tss.runPubKeyGood.result = Result.ok "" ∧
      tss.runPubKeyGood.ctx = [Call.SetPrivateRecoveryInfo (some [1]) "key" (some [6]),
        Call.SetKey "key" (3, 4), Call.SetGroupRecoveryInfo "key" (some [5])]) ∧
    (Call.GetResult PollState.Completed
        (VoteData.KeygenVoteData { PubKey := some [3], GroupRecoveryInfo := some [5] })
        ∈ tss.runPubKeyBad.trace ∧
      tss.mockLib.ParsePubKey (some [3]) = none ∧
      tss.runPubKeyBad.result.isErr = true ∧
      tss.runPubKeyBad.ctx = [Call.SetPrivateRecoveryInfo (some [1]) "key" (some [6])]) :=
  have h1 := (VotePubKey_completed_with_key (tss.mockServer {} tss.pollKey) tss.mockLib []
    tss.reqPubKeyData { PubKey := some [3, 4], GroupRecoveryInfo := some [5] }
    (by decide)).1 (3, 4) (by decide)
  have h2 := (VotePubKey_completed_with_key (tss.mockServer {} tss.pollBadKey) tss.mockLib []
    tss.reqPubKeyData { PubKey := some [3], GroupRecoveryInfo := some [5] }
    (by decide)).2 (by decide)
  ⟨⟨by decide, by decide, h1.1, h1.2.1.trans (by decide)⟩,
    ⟨by decide, by decide, h2.1, h2.2.1.trans (by decide)⟩⟩

/-- C4: when `VotePubKey` fetched a criminal list from a Completed poll, the handler
deletes the snapshot counter, the keygen start, the keygen participants and all recovery
infos of the key ID, calls `AllowOverride` on the poll it voted on, makes no `SetKey`
call and returns success: the context it leaves is that of the four deletions, in this
order, on the context it voted in, followed only by the `PenalizeCriminal` writes for the
reported criminals of the roster, and the poll it leaves is the voted poll after
`AllowOverride`. -/
theorem VotePubKey_completed_with_criminals (s : tss.msgServer σ π) (lib : tss.Lib) (ctx : σ)
    (req : VotePubKeyRequest) (l : CriminalList)
    (h : Call.GetResult PollState.Completed (VoteData.CriminalList l)
      ∈ (tss.VotePubKey s lib ctx req).trace) :
    (tss.VotePubKey s lib ctx req).result = Result.ok "" ∧
    (tss.VotePubKey s lib ctx req).poll =
      some (s.voter.Poll.AllowOverride
        (s.voter.Poll.Vote (s.voter.GetPoll (tss.switchContext s ctx req) req.PollKey)
          (s.snapshotter.GetOperator ctx req.Sender) (tss.switchVoteData req)).2) ∧
    (tss.VotePubKey s lib ctx req).ctx =
      (l.Criminals.filter (tss.inRoster lib (s.voter.Poll.GetVoters
          (s.voter.Poll.AllowOverride
            (s.voter.Poll.Vote (s.voter.GetPoll (tss.switchContext s ctx req) req.PollKey)
              (s.snapshotter.GetOperator ctx req.Sender) (tss.switchVoteData req)).2)))).foldl
        (fun c cr => s.TSSKeeper.PenalizeCriminal c (lib.ValAddressFromBech32 cr.PartyUid)
          cr.CrimeType)
        (s.TSSKeeper.DeleteAllRecoveryInfos
          (s.TSSKeeper.DeleteParticipantsInKeygen
            (s.TSSKeeper.DeleteKeygenStart
              (s.TSSKeeper.DeleteSnapshotCounterForKeyID (tss.switchContext s ctx req)
                req.PollKey.ID)
              req.PollKey.ID)
            req.PollKey.ID)
          req.PollKey.ID) ∧
    Call.DeleteSnapshotCounterForKeyID req.PollKey.ID ∈ (tss.VotePubKey s lib ctx req).trace ∧
    Call.DeleteKeygenStart req.PollKey.ID ∈ (tss.VotePubKey s lib ctx req).trace ∧
    Call.DeleteParticipantsInKeygen req.PollKey.ID ∈ (tss.VotePubKey s lib ctx req).trace ∧
    Call.DeleteAllRecoveryInfos req.PollKey.ID ∈ (tss.VotePubKey s lib ctx req).trace ∧
    Call.AllowOverride ∈ (tss.VotePubKey s lib ctx req).trace ∧
    (∀ k pk, Call.SetKey k pk ∉ (tss.VotePubKey s lib ctx req).trace) := by
  generalize hout : tss.VotePubKey s lib ctx req = out at h ⊢
  unfold tss.VotePubKey at hout
  dsimp only at hout
  repeat' split at hout
  all_goals subst hout
  all_goals simp_all [tss.deleteKeygenCalls, tss.penalizeCriminals_trace, state_eq_comm,
    result_eq_comm, tss.switchContext, tss.switchVoteData, tss.deleteKeygenState,
    tss.penalizeCriminals_ctx]

/-- Witness of C4 on the mock server: the context after the run holds the four deletions
and then the penalties of the two reported entries of the roster. -/
theorem VotePubKey_completed_with_criminals_witness :
    Call.GetResult PollState.Completed (VoteData.CriminalList tss.criminalsABCA)
      ∈ tss.runPubKeyCriminals.trace ∧
    tss.runPubKeyCriminals.result = Result.ok "" ∧
    tss.runPubKeyCriminals.poll = some { tss.pollCriminals with overridden := true } ∧
    tss.runPubKeyCriminals.ctx =
      [Call.DeleteSnapshotCounterForKeyID "key", Call.DeleteKeygenStart "key",
       Call.DeleteParticipantsInKeygen "key", Call.DeleteAllRecoveryInfos "key",
       Call.PenalizeCriminal (some [97]) 1, Call.PenalizeCriminal (some [97]) 4] ∧
    Call.AllowOverride ∈ tss.runPubKeyCriminals.trace :=
  have h := VotePubKey_completed_with_criminals (tss.mockServer {} tss.pollCriminals)
    tss.mockLib [] tss.reqPubKeyCriminals tss.criminalsABCA (by decide)
  ⟨by decide, h.1, h.2.1.trans (by decide), h.2.2.1.trans (by decide), h.2.2.2.2.2.2.2.1⟩

/-- C2, where the code diverges on a sign result without criminal list: when `VotePubKey`
fetched a criminal list from a Completed poll, or `VoteSig` fetched from a Completed poll
a sign result without signature but with a criminal list, the handler returns success,
its `PenalizeCriminal` calls are exactly the entries of the list whose address is in the
roster of the poll, once each, in list order, each with its own crime type, and the
context it leaves is that of these `PenalizeCriminal` writes applied in this order after
the deletions of the path (entries outside the roster are skipped, the rest still
processed). When the sign result has neither signature nor criminal list, `VoteSig`
panics instead of returning success; it has penalized no one. -/
theorem penalize_roster_entries (s : tss.msgServer σ π) (lib : tss.Lib) (ctx : σ) :
    (∀ (req : VotePubKeyRequest) (l : CriminalList),
      Call.GetResult PollState.Completed (VoteData.CriminalList l)
          ∈ (tss.VotePubKey s lib ctx req).trace →
      (tss.VotePubKey s lib ctx req).result = Result.ok "" ∧
      penalties (tss.VotePubKey s lib ctx req).trace =
        (l.Criminals.filter (tss.inRoster lib (s.voter.Poll.GetVoters
          (s.voter.Poll.AllowOverride
            (s.voter.Poll.Vote (s.voter.GetPoll (tss.switchContext s ctx req) req.PollKey)
              (s.snapshotter.GetOperator ctx req.Sender) (tss.switchVoteData req)).2)))).map
          (fun c => (lib.ValAddressFromBech32 c.PartyUid, c.CrimeType)) ∧
      (tss.VotePubKey s lib ctx req).ctx =
        (l.Criminals.filter (tss.inRoster lib (s.voter.Poll.GetVoters
          (s.voter.Poll.AllowOverride
            (s.voter.Poll.Vote (s.voter.GetPoll (tss.switchContext s ctx req) req.PollKey)
              (s.snapshotter.GetOperator ctx req.Sender) (tss.switchVoteData req)).2)))).foldl
          (fun c cr => s.TSSKeeper.PenalizeCriminal c (lib.ValAddressFromBech32 cr.PartyUid)
            cr.CrimeType)
          (s.TSSKeeper.DeleteAllRecoveryInfos
            (s.TSSKeeper.DeleteParticipantsInKeygen
              (s.TSSKeeper.DeleteKeygenStart
                (s.TSSKeeper.DeleteSnapshotCounterForKeyID (tss.switchContext s ctx req)
                  req.PollKey.ID)
                req.PollKey.ID)
              req.PollKey.ID)
            req.PollKey.ID)) ∧
    (∀ (req : VoteSigRequest) (r : SignResult),
      Call.GetResult PollState.Completed (VoteData.SignResult r)
          ∈ (tss.VoteSig s lib ctx req).trace →
      r.GetSignature = none →
      (∀ l, r.GetCriminals = some l →
        (tss.VoteSig s lib ctx req).result = Result.ok "" ∧
        penalties (tss.VoteSig s lib ctx req).trace =
          (l.Criminals.filter (tss.inRoster lib (s.voter.Poll.GetVoters
            (s.voter.Poll.AllowOverride
              (s.voter.Poll.Vote (s.voter.GetPoll ctx req.PollKey)
                (s.snapshotter.GetOperator ctx req.Sender)
                (VoteData.SignResult req.Result)).2)))).map
            (fun c => (lib.ValAddressFromBech32 c.PartyUid, c.CrimeType)) ∧
        (tss.VoteSig s lib ctx req).ctx =
          (l.Criminals.filter (tss.inRoster lib (s.voter.Poll.GetVoters
            (s.voter.Poll.AllowOverride
              (s.voter.Poll.Vote (s.voter.GetPoll ctx req.PollKey)
                (s.snapshotter.GetOperator ctx req.Sender)
                (VoteData.SignResult req.Result)).2)))).foldl
            (fun c cr => s.TSSKeeper.PenalizeCriminal c (lib.ValAddressFromBech32 cr.PartyUid)
              cr.CrimeType)
            (s.TSSKeeper.SetSigStatus (s.TSSKeeper.DeleteInfoForSig ctx req.PollKey.ID)
              req.PollKey.ID SigStatus.Aborted)) ∧
      (r.GetCriminals = none →
        (tss.VoteSig s lib ctx req).result =
          Result.panic "invalid memory address or nil pointer dereference" ∧
        penalties (tss.VoteSig s lib ctx req).trace = [] ∧
        (tss.VoteSig s lib ctx req).ctx =
          s.TSSKeeper.SetSigStatus (s.TSSKeeper.DeleteInfoForSig ctx req.PollKey.ID)
            req.PollKey.ID SigStatus.Aborted)) := by
  constructor
  · intro req l h
    generalize hout : tss.VotePubKey s lib ctx req = out at h ⊢
    unfold tss.VotePubKey at hout
    dsimp only at hout
    repeat' split at hout
    all_goals subst hout
    all_goals simp_all [tss.deleteKeygenCalls, tss.penalizeCriminals_trace, penalties_append,
      penalties_map, penalties_cons, penalties_nil, state_eq_comm, result_eq_comm,
      tss.switchContext, tss.switchVoteData, tss.deleteKeygenState, tss.penalizeCriminals_ctx]
  · intro req r h hs
    generalize hout : tss.VoteSig s lib ctx req = out at h ⊢
    unfold tss.VoteSig at hout
    dsimp only at hout
    repeat' split at hout
    all_goals subst hout
    all_goals simp_all [tss.penalizeCriminals_trace, penalties_append, penalties_map,
      penalties_cons, penalties_nil, state_eq_comm, result_eq_comm, tss.penalizeCriminals_ctx]

/-- Witness of C2 on the mock server: of the reported entries b, a, c, a only the two
entries for a, which is in the roster, are penalized, in order, in both handlers; on a
sign result with neither signature nor criminal list `VoteSig` panics. -/
theorem penalize_roster_entries_witness :
    (Call.GetResult PollState.Completed (VoteData.CriminalList tss.criminalsABCA)
        ∈ tss.runPubKeyCriminals.trace ∧
      tss.runPubKeyCriminals.result = Result.ok "" ∧
      penalties tss.runPubKeyCriminals.trace = [(some [97], 1), (some [97], 4)] ∧
      penalties tss.runPubKeyCriminals.ctx = [(some [97], 1), (some [97], 4)]) ∧
    (Call.GetResult PollState.Completed (VoteData.SignResult tss.sigCriminals)
        ∈ tss.runSigCriminals.trace ∧
      tss.sigCriminals.GetSignature = none ∧
      tss.sigCriminals.GetCriminals = some tss.criminalsABCA ∧
      tss.runSigCriminals.result = Result.ok "" ∧
      penalties tss.runSigCriminals.trace = [(some [97], 1), (some [97], 4)] ∧
      tss.runSigCriminals.ctx = [Call.DeleteInfoForSig "sig",
        Call.SetSigStatus "sig" SigStatus.Aborted, Call.PenalizeCriminal (some [97]) 1,
        Call.PenalizeCriminal (some [97]) 4]) ∧
    (Call.GetResult PollState.Completed (VoteData.SignResult tss.sigUnset)
        ∈ tss.runSigUnset.trace ∧
      tss.sigUnset.GetSignature = none ∧ tss.sigUnset.GetCriminals = none ∧
      tss.runSigUnset.result.isOk = false ∧
      tss.runSigUnset.ctx = [Call.DeleteInfoForSig "sig",
        Call.SetSigStatus "sig" SigStatus.Aborted]) :=
  have h1 := (penalize_roster_entries (tss.mockServer {} tss.pollCriminals) tss.mockLib []).1
    tss.reqPubKeyCriminals tss.criminalsABCA (by decide)
  have h2 := ((penalize_roster_entries (tss.mockServer {} (tss.pollSig tss.sigCriminals))
    tss.mockLib []).2 (tss.reqSig tss.sigCriminals) tss.sigCriminals
    (by decide) (by decide)).1 tss.criminalsABCA (by decide)
  have h3 := ((penalize_roster_entries (tss.mockServer {} (tss.pollSig tss.sigUnset))
    tss.mockLib []).2 (tss.reqSig tss.sigUnset) tss.sigUnset
    (by decide) (by decide)).2 (by decide)
  ⟨⟨by decide, h1.1, h1.2.1.trans (by decide), by decide⟩,
    ⟨by decide, by decide, by decide, h2.1, h2.2.1.trans (by decide), h2.2.2.trans (by decide)⟩,
    ⟨by decide, by decide, by decide, by decide, h3.2.2.trans (by decide)⟩⟩

/-- C5, as the code has it: when `VoteSig` fetched a sign result from a Completed poll,
the signature is stored under the sig ID and the status set to Signed exactly when the
result carries a signature, that is a non-nil one of any length, zero included: the
context the handler leaves is then that of `SetSigStatus` Signed after `SetSig` on the
context of the request. A result without signature makes no `SetSig` call and no
`SetSigStatus` call with Signed: the context it leaves is that of `DeleteInfoForSig` and
`SetSigStatus` Aborted, followed only by the `PenalizeCriminal` writes for the reported
criminals of the roster. -/
theorem VoteSig_stores_present_signature (s : tss.msgServer σ π) (lib : tss.Lib) (ctx : σ)
    (req : VoteSigRequest) (r : SignResult)
    (h : Call.GetResult PollState.Completed (VoteData.SignResult r)
      ∈ (tss.VoteSig s lib ctx req).trace) :
    (∀ sig, r.GetSignature = some sig →
      (tss.VoteSig s lib ctx req).result = Result.ok "" ∧
      (tss.VoteSig s lib ctx req).ctx =
        s.TSSKeeper.SetSigStatus (s.TSSKeeper.SetSig ctx req.PollKey.ID (some sig))
          req.PollKey.ID SigStatus.Signed ∧
      Call.SetSig req.PollKey.ID (some sig) ∈ (tss.VoteSig s lib ctx req).trace ∧
      Call.SetSigStatus req.PollKey.ID SigStatus.Signed ∈ (tss.VoteSig s lib ctx req).trace) ∧
    (r.GetSignature = none →
      (∀ i sg, Call.SetSig i sg ∉ (tss.VoteSig s lib ctx req).trace) ∧
      (∀ i, Call.SetSigStatus i SigStatus.Signed ∉ (tss.VoteSig s lib ctx req).trace) ∧
      (∀ l, r.GetCriminals = some l →
        (tss.VoteSig s lib ctx req).ctx =
          (l.Criminals.filter (tss.inRoster lib (s.voter.Poll.GetVoters
            (s.voter.Poll.AllowOverride
              (s.voter.Poll.Vote (s.voter.GetPoll ctx req.PollKey)
                (s.snapshotter.GetOperator ctx req.Sender)
                (VoteData.SignResult req.Result)).2)))).foldl
            (fun c cr => s.TSSKeeper.PenalizeCriminal c (lib.ValAddressFromBech32 cr.PartyUid)
              cr.CrimeType)
            (s.TSSKeeper.SetSigStatus (s.TSSKeeper.DeleteInfoForSig ctx req.PollKey.ID)
              req.PollKey.ID SigStatus.Aborted)) ∧
      (r.GetCriminals = none →
        (tss.VoteSig s lib ctx req).ctx =
          s.TSSKeeper.SetSigStatus (s.TSSKeeper.DeleteInfoForSig ctx req.PollKey.ID)
            req.PollKey.ID SigStatus.Aborted)) := by
  generalize hout : tss.VoteSig s lib ctx req = out at h ⊢
  unfold tss.VoteSig at hout
  dsimp only at hout
  repeat' split at hout
  all_goals subst hout
  all_goals simp_all [tss.penalizeCriminals_trace, state_eq_comm, result_eq_comm,
    tss.penalizeCriminals_ctx]

/-- Witness of the amended C5 on the mock server: a two-byte signature is stored and the
status set to Signed; a result with a criminal list stores no signature. -/
theorem VoteSig_stores_present_signature_witness :
    (Call.GetResult PollState.Completed (VoteData.SignResult tss.sigTwoBytes)
        ∈ tss.runSigTwoBytes.trace ∧
      tss.sigTwoBytes.GetSignature = some [1, 2] ∧
      tss.runSigTwoBytes.result = Result.ok "" ∧
      tss.runSigTwoBytes.ctx =
        [Call.SetSig "sig" (some [1, 2]), Call.SetSigStatus "sig" SigStatus.Signed]) ∧
    (Call.GetResult PollState.Completed (VoteData.SignResult tss.sigCriminals)
        ∈ tss.runSigCriminals.trace ∧
      tss.sigCriminals.GetSignature = none ∧
      (∀ i sg, Call.SetSig i sg ∉ tss.runSigCriminals.trace)) :=
  have h1 := (VoteSig_stores_present_signature (tss.mockServer {} (tss.pollSig tss.sigTwoBytes))
    tss.mockLib [] (tss.reqSig tss.sigTwoBytes) tss.sigTwoBytes (by decide)).1 [1, 2]
    (by decide)
  have h2 := (VoteSig_stores_present_signature (tss.mockServer {} (tss.pollSig tss.sigCriminals))
    tss.mockLib [] (tss.reqSig tss.sigCriminals) tss.sigCriminals (by decide)).2 (by decide)
  ⟨⟨by decide, by decide, h1.1, h1.2.1.trans (by decide)⟩, ⟨by decide, by decide, h2.1⟩⟩

/-- C17: when the vote leaves the poll Failed, `VotePubKey` deletes the snapshot counter,
the keygen start, the participants and all recovery infos of the key ID, makes no
`SetKey` call and returns success: the context it leaves is that of the four deletions,
in this order, on the context it voted in. `VoteSig` deletes the sign info, makes no
`SetSig` call and returns success: the context it leaves is that of `DeleteInfoForSig` on
the context of the request. Neither calls `GetResult`, `AllowOverride` or
`PenalizeCriminal`. -/
theorem Failed_poll_is_cleaned_up (s : tss.msgServer σ π) (lib : tss.Lib) (ctx : σ) :
    (∀ (req : VotePubKeyRequest),
      Call.Is PollState.Failed true ∈ (tss.VotePubKey s lib ctx req).trace →
      (tss.VotePubKey s lib ctx req).result = Result.ok "" ∧
      (tss.VotePubKey s lib ctx req).ctx =
        s.TSSKeeper.DeleteAllRecoveryInfos
          (s.TSSKeeper.DeleteParticipantsInKeygen
            (s.TSSKeeper.DeleteKeygenStart
              (s.TSSKeeper.DeleteSnapshotCounterForKeyID (tss.switchContext s ctx req)
                req.PollKey.ID)
              req.PollKey.ID)
            req.PollKey.ID)
          req.PollKey.ID ∧
      (tss.VotePubKey s lib ctx req).poll =
        some (s.voter.Poll.Vote (s.voter.GetPoll (tss.switchContext s ctx req) req.PollKey)
          (s.snapshotter.GetOperator ctx req.Sender) (tss.switchVoteData req)).2 ∧
      Call.DeleteSnapshotCounterForKeyID req.PollKey.ID
        ∈ (tss.VotePubKey s lib ctx req).trace ∧
      Call.DeleteKeygenStart req.PollKey.ID ∈ (tss.VotePubKey s lib ctx req).trace ∧
      Call.DeleteParticipantsInKeygen req.PollKey.ID ∈ (tss.VotePubKey s lib ctx req).trace ∧
      Call.DeleteAllRecoveryInfos req.PollKey.ID ∈ (tss.VotePubKey s lib ctx req).trace ∧
      (∀ k pk, Call.SetKey k pk ∉ (tss.VotePubKey s lib ctx req).trace) ∧
      (∀ c ∈ (tss.VotePubKey s lib ctx req).trace, isResultUse c = false)) ∧
    (∀ (req : VoteSigRequest),
      Call.Is PollState.Failed true ∈ (tss.VoteSig s lib ctx req).trace →
      (tss.VoteSig s lib ctx req).result = Result.ok "" ∧
      (tss.VoteSig s lib ctx req).ctx = s.TSSKeeper.DeleteInfoForSig ctx req.PollKey.ID ∧
      (tss.VoteSig s lib ctx req).poll =
        some (s.voter.Poll.Vote (s.voter.GetPoll ctx req.PollKey)
          (s.snapshotter.GetOperator ctx req.Sender) (VoteData.SignResult req.Result)).2 ∧
      Call.DeleteInfoForSig req.PollKey.ID ∈ (tss.VoteSig s lib ctx req).trace ∧
      (∀ i sg, Call.SetSig i sg ∉ (tss.VoteSig s lib ctx req).trace) ∧
      (∀ c ∈ (tss.VoteSig s lib ctx req).trace, isResultUse c = false)) := by
  constructor
  · intro req h
    generalize hout : tss.VotePubKey s lib ctx req = out at h ⊢
    unfold tss.VotePubKey at hout
    dsimp only at hout
    repeat' split at hout
    all_goals subst hout
    all_goals simp_all [tss.deleteKeygenCalls, tss.penalizeCriminals_trace, isResultUse,
      tss.switchContext, tss.switchVoteData, tss.deleteKeygenState]
  · intro req h
    generalize hout : tss.VoteSig s lib ctx req = out at h ⊢
    unfold tss.VoteSig at hout
    dsimp only at hout
    repeat' split at hout
    all_goals subst hout
    all_goals simp_all [tss.penalizeCriminals_trace, isResultUse]

/-- Witness of C17 on the mock server: both handlers on a Failed poll, with the contexts
they leave. -/
theorem Failed_poll_is_cleaned_up_witness :
    Call.Is PollState.Failed true ∈ tss.runPubKeyFailed.trace ∧
    tss.runPubKeyFailed.result = Result.ok "" ∧
    tss.runPubKeyFailed.ctx =
      [Call.DeleteSnapshotCounterForKeyID "key", Call.DeleteKeygenStart "key",
       Call.DeleteParticipantsInKeygen "key", Call.DeleteAllRecoveryInfos "key"] ∧
    Call.Is PollState.Failed true ∈ tss.runSigFailed.trace ∧
    tss.runSigFailed.result = Result.ok "" ∧
    tss.runSigFailed.ctx = [Call.DeleteInfoForSig "sig"] :=
  have h1 := (Failed_poll_is_cleaned_up (tss.mockServer {} tss.pollFailed) tss.mockLib []).1
    tss.reqPubKeyCriminals (by decide)
  have h2 := (Failed_poll_is_cleaned_up (tss.mockServer {} tss.pollFailed) tss.mockLib []).2
    (tss.reqSig tss.sigTwoBytes) (by decide)
  ⟨by decide, h1.1, h1.2.1.trans (by decide), by decide, h2.1, h2.2.1.trans (by decide)⟩

/-- C15, as the code has it: for a `VotePubKey` request sent by a registered validator
proxy when the key of the poll's key ID is stored, a criminal list returns success with
no call made and the context left as it was. Public-key data goes through the checks of
the switch first: it returns an error, with no call made and the context left as it was,
when the voter has already submitted private recovery info (a duplicate), when no
snapshot counter or no snapshot is found for the key ID, when the voter is not a
validator of that snapshot, or when the public key is nil; otherwise the voter's private
recovery info is recorded and, the key being still found after that write, the handler
returns success having made that one write. In none of these cases is `poll.Vote`
called. -/
theorem VotePubKey_on_stored_key (s : tss.msgServer σ π) (lib : tss.Lib) (ctx : σ)
    (req : VotePubKeyRequest)
    (hv : s.snapshotter.GetOperator ctx req.Sender ≠ none)
    (hk : (s.TSSKeeper.GetKey ctx req.PollKey.ID).isSome = true) :
    (∀ l, req.Result = KeygenResultData.Criminals l →
      (tss.VotePubKey s lib ctx req).result = Result.ok "" ∧
      (tss.VotePubKey s lib ctx req).trace = [] ∧
      (tss.VotePubKey s lib ctx req).ctx = ctx) ∧
    (∀ d, req.Result = KeygenResultData.Data d →
      s.TSSKeeper.HasPrivateRecoveryInfos ctx (s.snapshotter.GetOperator ctx req.Sender)
        req.PollKey.ID = true →
      (tss.VotePubKey s lib ctx req).result =
        Result.err "voter already submitted their private recovery info" ∧
      (tss.VotePubKey s lib ctx req).trace = [] ∧
      (tss.VotePubKey s lib ctx req).ctx = ctx) ∧
    (∀ d, req.Result = KeygenResultData.Data d →
      s.TSSKeeper.HasPrivateRecoveryInfos ctx (s.snapshotter.GetOperator ctx req.Sender)
        req.PollKey.ID = false →
      (s.TSSKeeper.GetSnapshotCounterForKeyID ctx req.PollKey.ID = none ∨
        (∃ counter, s.TSSKeeper.GetSnapshotCounterForKeyID ctx req.PollKey.ID = some counter ∧
          s.snapshotter.GetSnapshot ctx counter = none) ∨
        (∃ counter snapshot,
          s.TSSKeeper.GetSnapshotCounterForKeyID ctx req.PollKey.ID = some counter ∧
          s.snapshotter.GetSnapshot ctx counter = some snapshot ∧
          snapshot.GetValidator (s.snapshotter.GetOperator ctx req.Sender) = none) ∨
        d.PubKey = none) →
      (tss.VotePubKey s lib ctx req).result.isErr = true ∧
      (tss.VotePubKey s lib ctx req).trace = [] ∧
      (tss.VotePubKey s lib ctx req).ctx = ctx) ∧
    (∀ d pk counter snapshot val, req.Result = KeygenResultData.Data d →
      s.TSSKeeper.HasPrivateRecoveryInfos ctx (s.snapshotter.GetOperator ctx req.Sender)
        req.PollKey.ID = false →
      s.TSSKeeper.GetSnapshotCounterForKeyID ctx req.PollKey.ID = some counter →
      s.snapshotter.GetSnapshot ctx counter = some snapshot →
      snapshot.GetValidator (s.snapshotter.GetOperator ctx req.Sender) = some val →
      d.PubKey = some pk →
      (s.TSSKeeper.GetKey (s.TSSKeeper.SetPrivateRecoveryInfo ctx
        (s.snapshotter.GetOperator ctx req.Sender) req.PollKey.ID d.PrivateRecoverInfo)
        req.PollKey.ID).isSome = true →
      (tss.VotePubKey s lib ctx req).result = Result.ok "" ∧
      (tss.VotePubKey s lib ctx req).trace =
        [Call.SetPrivateRecoveryInfo (s.snapshotter.GetOperator ctx req.Sender) req.PollKey.ID
          d.PrivateRecoverInfo] ∧
      (tss.VotePubKey s lib ctx req).ctx =
        s.TSSKeeper.SetPrivateRecoveryInfo ctx (s.snapshotter.GetOperator ctx req.Sender)
          req.PollKey.ID d.PrivateRecoverInfo) := by
  generalize hout : tss.VotePubKey s lib ctx req = out
  unfold tss.VotePubKey at hout
  dsimp only at hout
  repeat' split at hout
  all_goals subst hout
  all_goals simp_all [Result.isErr]
  all_goals repeat' (first | intro _ | apply And.intro)
  all_goals subst_vars
  all_goals simp_all

/-- Witness of the amended C15 on the mock server: a late vote with keygen output is
absorbed after its recovery info is recorded, and a duplicate one returns an error. -/
theorem VotePubKey_on_stored_key_witness :
    tss.runPubKeyLate.result = Result.ok "" ∧
    tss.runPubKeyLate.trace = [Call.SetPrivateRecoveryInfo (some [1]) "key" (some [6])] ∧
    tss.runPubKeyLate.ctx = [Call.SetPrivateRecoveryInfo (some [1]) "key" (some [6])] ∧
    tss.runPubKeyDuplicate.result.isErr = true ∧
    tss.runPubKeyDuplicate.ctx = [] :=
  have h1 := (VotePubKey_on_stored_key (tss.mockServer { key := some tss.storedKey } tss.pollKey)
    tss.mockLib [] tss.reqPubKeyData (by decide) (by decide)).2.2.2
    { PubKey := some [3, 4], GroupRecoverInfo := some [5], PrivateRecoverInfo := some [6] }
    [3, 4] 1 { Validators := [{ Validator := some [1], VotingPower := 10 }], Counter := 1 }
    { Validator := some [1], VotingPower := 10 }
    (by decide) (by decide) (by decide) (by decide) (by decide) (by decide) (by decide)
  have h2 := (VotePubKey_on_stored_key
    (tss.mockServer { key := some tss.storedKey, hasRecovery := true } tss.pollKey)
    tss.mockLib [] tss.reqPubKeyData (by decide) (by decide)).2.1
    { PubKey := some [3, 4], GroupRecoverInfo := some [5], PrivateRecoverInfo := some [6] }
    (by decide) (by decide)
  ⟨h1.1, h1.2.1, h1.2.2.trans (by decide), (congrArg Result.isErr h2.1).trans rfl, h2.2.2⟩

/-- C25: on every successful `CreateBurnTokens` call with a non-empty list of confirmed
deposits, the calls are those of `burnTraceSpec` and the context left is that of
`burnContextSpec`: the chain keeper has deleted every confirmed deposit and stored it
again with state BURNED, in order, and has enqueued one burn command at the first
occurrence of each burner address, so the number of commands enqueued is the number of
distinct burner addresses among the deposits. -/
theorem CreateBurnTokens_burns_every_deposit (s : evm.msgServer σ π) (lib : evm.Lib)
    (clib : evm.CmdLib σ) (ctx : σ) (req : evm.CreateBurnTokensRequest)
    (hok : (evm.CreateBurnTokens s lib clib ctx req).result.isOk = true)
    (hne : s.BaseKeeper.ForChain.GetConfirmedDeposits ctx req.Chain ≠ [])
    (hinj : ∀ a ∈ (s.BaseKeeper.ForChain.GetConfirmedDeposits ctx req.Chain).map
        (fun d => d.BurnerAddress),
      ∀ b ∈ (s.BaseKeeper.ForChain.GetConfirmedDeposits ctx req.Chain).map
        (fun d => d.BurnerAddress),
      lib.AddressHex a = lib.AddressHex b → a = b) :
    (evm.CreateBurnTokens s lib clib ctx req).trace =
      evm.burnTraceSpec req.Chain lib.AddressHex
        (s.BaseKeeper.ForChain.GetConfirmedDeposits ctx req.Chain) []
        (enqueuedCommands (evm.CreateBurnTokens s lib clib ctx req).trace) ∧
    (evm.CreateBurnTokens s lib clib ctx req).ctx =
      evm.burnContextSpec s req.Chain lib.AddressHex
        (s.BaseKeeper.ForChain.GetConfirmedDeposits ctx req.Chain) []
        (enqueuedCommands (evm.CreateBurnTokens s lib clib ctx req).trace) ctx ∧
    depositWrites (evm.CreateBurnTokens s lib clib ctx req).trace =
      ((s.BaseKeeper.ForChain.GetConfirmedDeposits ctx req.Chain).map
        (fun d => [Call.DeleteDeposit req.Chain d,
          Call.SetDeposit req.Chain d DepositState.BURNED])).flatten ∧
    (enqueuedCommands (evm.CreateBurnTokens s lib clib ctx req).trace).length =
      ((s.BaseKeeper.ForChain.GetConfirmedDeposits ctx req.Chain).map
        (fun d => d.BurnerAddress)).dedup.length := by
  have key : ∃ cmds : List Command,
      (evm.CreateBurnTokens s lib clib ctx req).trace =
        evm.burnTraceSpec req.Chain lib.AddressHex
          (s.BaseKeeper.ForChain.GetConfirmedDeposits ctx req.Chain) [] cmds ∧
      (evm.CreateBurnTokens s lib clib ctx req).ctx =
        evm.burnContextSpec s req.Chain lib.AddressHex
          (s.BaseKeeper.ForChain.GetConfirmedDeposits ctx req.Chain) [] cmds ctx ∧
      cmds.length = (((s.BaseKeeper.ForChain.GetConfirmedDeposits ctx req.Chain).map
        (fun d => lib.AddressHex d.BurnerAddress)).toFinset \ ([] : List String).toFinset).card := by
    generalize hout : evm.CreateBurnTokens s lib clib ctx req = out at hok ⊢
    unfold evm.CreateBurnTokens at hout
    dsimp only at hout
    repeat' split at hout
    all_goals subst hout
    all_goals try (exfalso; simp_all [Result.isOk]; done)
    next st hloop =>
      obtain ⟨cmds, h1, hc, h2⟩ := evm.burnLoop_spec s lib clib _ _ _ _ _ _ hloop
      exact ⟨cmds, by simpa using h1, by simpa using hc, h2⟩
  obtain ⟨cmds, h1, hc, h2⟩ := key
  have h3 := evm.enqueuedCommands_burnTraceSpec req.Chain lib.AddressHex _ [] cmds h2
  rw [← h1] at h3
  refine ⟨?_, ?_, ?_, ?_⟩
  · rw [h3]
    exact h1
  · rw [h3]
    exact hc
  · rw [h1]
    exact evm.depositWrites_burnTraceSpec _ _ _ _ _
  · rw [h3, h2]
    simp only [List.toFinset_nil, Finset.sdiff_empty]
    rw [List.card_toFinset]
    have := List.dedup_length_map_of_injOn lib.AddressHex
      ((s.BaseKeeper.ForChain.GetConfirmedDeposits ctx req.Chain).map (fun d => d.BurnerAddress))
      hinj
    rw [List.map_map] at this
    exact this

/-- Witness of C25 on the mock server: three deposits, the first and the third to the
same burner address, are all burned and two commands are enqueued, after the first and
after the second deposit; the journal of keeper writes holds them in this order. -/
theorem CreateBurnTokens_burns_every_deposit_witness :
    evm.runBurnABA.result.isOk = true ∧
    (enqueuedCommands evm.runBurnABA.trace).length = 2 ∧
    evm.runBurnABA.ctx.map (fun c =>
      match c with
      | Call.DeleteDeposit _ d => ("delete", d.TxID)
      | Call.SetDeposit _ d _ => ("set", d.TxID)
      | Call.EnqueueCommand _ _ _ => ("enqueue", [])
      | _ => ("", [])) =
      [("delete", [1]), ("set", [1]), ("enqueue", []), ("delete", [2]), ("set", [2]),
       ("enqueue", []), ("delete", [3]), ("set", [3])] :=
  have h := CreateBurnTokens_burns_every_deposit
    (evm.mockServer { confirmedDeposits := evm.depositsABA } (evm.pollBool true)) evm.mockLib
    evm.mockCmdLib [] { Sender := some [2], Chain := "ethereum" } (by decide) (by decide)
    (by decide)
  ⟨by decide, h.2.2.2.trans (by decide), by decide⟩

/-- C18, as the poll engine of the spec has it, with the tally taken from the ballots:
for a fresh Pending poll without override, with non-negative roster weights and
threshold denominator, and votes by roster members up to the expiry height, if after
each of the first `k` votes no voted value has weight at least the threshold times the
total power with at least the minimum number of distinct voters behind it and a path to
a decision is left, and `V` has not such weight and voters after `k` votes but has after
`k + 1`, then the poll is Pending up to vote `k`, becomes Completed with result `V` at
vote `k + 1`, and no later vote changes it. -/
theorem Poll_decided_at_first_crossing (p0 : vote.PollMeta) (bs : List vote.Ballot)
    (k : Nat) (V : VoteData)
    (hs : p0.State = PollState.Pending) (hvotes : p0.Votes = [])
    (ho : p0.OverrideAllowed = false)
    (hpow : ∀ v ∈ p0.Voters, 0 ≤ v.VotingPower)
    (hden : 0 ≤ p0.Threshold.Denominator)
    (hb : ∀ b ∈ bs.take (k + 1), p0.inRoster b.Voter = true ∧ b.Height ≤ p0.ExpiresAt)
    (hnone : ∀ j, j ≤ k → ∀ b ∈ bs.take j, vote.passes p0 (bs.take j) b.Value = false)
    (hpath : ∀ j, j < k → vote.pathLeft p0 (bs.take (j + 1)) = true)
    (hbefore : vote.passes p0 (bs.take k) V = false)
    (hafter : vote.passes p0 (bs.take (k + 1)) V = true) :
    (∀ j, j ≤ k → (vote.run p0 (bs.take j)).State = PollState.Pending) ∧
    (vote.run p0 (bs.take (k + 1))).State = PollState.Completed ∧
    (vote.run p0 (bs.take (k + 1))).Result = some V ∧
    (∀ j, k < j → vote.run p0 (bs.take j) = vote.run p0 (bs.take (k + 1))) := by
  have hmem : ∀ j, j ≤ k + 1 → ∀ b ∈ bs.take j, b ∈ bs.take (k + 1) := by
    intro j hj b hbm
    obtain ⟨d, hd⟩ := Nat.exists_eq_add_of_le hj
    rw [hd, List.take_add]
    exact List.mem_append_left _ hbm
  have hund : ∀ j, j ≤ k →
      vote.run p0 (bs.take j) = { p0 with Votes := vote.lastValues (bs.take j) } := by
    intro j hj
    exact vote.run_undecided p0 bs hs hvotes j
      (fun b hbm => hb b (hmem j (Nat.le_succ_of_le hj) b hbm))
      (fun i hi => hnone i (le_trans hi hj))
      (fun i hi => hpath i (lt_of_lt_of_le hi hj))
  have hk := hund k (le_refl k)
  have hdone : (vote.run p0 (bs.take (k + 1))).State = PollState.Completed ∧
      (vote.run p0 (bs.take (k + 1))).Result = some V := by
    rw [vote.run_take_succ, hk]
    cases hbk : bs[k]? with
    | none =>
      have : bs.take (k + 1) = bs.take k := by
        rw [List.take_succ, hbk]
        simp
      rw [this, hbefore] at hafter
      exact Bool.noConfusion hafter
    | some b =>
      simp only
      have htake : bs.take (k + 1) = bs.take k ++ [b] := by
        rw [List.take_succ, hbk]
        rfl
      have hbmem : b ∈ bs.take (k + 1) := by
        rw [htake]
        simp
      have hroster := (hb b hbmem).1
      have hheight := (hb b hbmem).2
      have hq : ({ p0 with Votes := vote.lastValues (bs.take k) } : vote.PollMeta).crosses V
          = false := by
        refine Eq.trans (vote.crosses_eq_passes p0 _ (bs.take k) V ?_ ?_ ?_ ?_ ?_) hbefore
        all_goals rfl
      have hrec : ({ p0 with Votes := vote.lastValues (bs.take k) } : vote.PollMeta).record
          b.Voter b.Value = { p0 with Votes := vote.lastValues (bs.take (k + 1)) } := by
        rw [htake, vote.lastValues_snoc]
        rfl
      have hexp : ¬ (({ p0 with Votes := vote.lastValues (bs.take k) } : vote.PollMeta).ExpiresAt
          < b.Height) := by
        show ¬ (p0.ExpiresAt < b.Height)
        omega
      have hr : (vote.Vote { p0 with Votes := vote.lastValues (bs.take k) } b.Height b.Voter
          b.Value).2.crosses V = true := by
        rw [vote.Vote_pending_eq { p0 with Votes := vote.lastValues (bs.take k) } b.Height
          b.Voter b.Value hs hroster, if_neg hexp, hrec]
        split
        · refine Eq.trans (vote.crosses_eq_passes p0 _ (bs.take (k + 1)) V ?_ ?_ ?_ ?_ ?_) hafter
          all_goals rfl
        · split
          · refine Eq.trans (vote.crosses_eq_passes p0 _ (bs.take (k + 1)) V ?_ ?_ ?_ ?_ ?_)
              hafter
            all_goals rfl
          · refine Eq.trans (vote.crosses_eq_passes p0 _ (bs.take (k + 1)) V ?_ ?_ ?_ ?_ ?_)
              hafter
            all_goals rfl
      exact vote.Vote_crossing { p0 with Votes := vote.lastValues (bs.take k) } b.Height
        b.Voter b.Value V ho hpow hden hq hr
  refine ⟨?_, hdone.1, hdone.2, ?_⟩
  · intro j hj
    rw [hund j hj]
    exact hs
  · intro j hj
    apply vote.run_take_frozen p0 bs (k + 1) j hj ho
    rw [hdone.1]
    decide

/-- Witness of the amended C18 and the examples of the claim: with total power 100,
threshold 2/3 and minimum voter count 3, votes of weight 40, 40 and 20 for one value
leave the poll Pending after the first and the second vote and decide it at the third;
with minimum voter count 4 the same votes put the weight 100 behind the value and leave
the poll Pending. -/
theorem Poll_decided_at_first_crossing_witness :
    ((vote.examplePoll 3).State = PollState.Pending ∧
      (vote.examplePoll 3).Votes = [] ∧
      (vote.examplePoll 3).OverrideAllowed = false ∧
      (∀ b ∈ vote.ballotsABC.take 3, (vote.examplePoll 3).inRoster b.Voter = true ∧
        b.Height ≤ (vote.examplePoll 3).ExpiresAt) ∧
      (∀ j, j ≤ 2 → vote.passes (vote.examplePoll 3) (vote.ballotsABC.take j)
        (VoteData.BoolValue true) = false) ∧
      (∀ j, j < 2 → vote.pathLeft (vote.examplePoll 3) (vote.ballotsABC.take (j + 1)) = true) ∧
      vote.passes (vote.examplePoll 3) (vote.ballotsABC.take 3) (VoteData.BoolValue true)
        = true) ∧
    ((∀ j, j ≤ 2 →
        (vote.run (vote.examplePoll 3) (vote.ballotsABC.take j)).State = PollState.Pending) ∧
      (vote.run (vote.examplePoll 3) (vote.ballotsABC.take 3)).State = PollState.Completed ∧
      (vote.run (vote.examplePoll 3) (vote.ballotsABC.take 3)).Result
        = some (VoteData.BoolValue true)) ∧
    (vote.weightBehind (vote.examplePoll 4).Voters vote.ballotsABC (VoteData.BoolValue true)
        = 100 ∧
      vote.passes (vote.examplePoll 4) vote.ballotsABC (VoteData.BoolValue true) = false ∧
      (vote.run (vote.examplePoll 4) vote.ballotsABC).State = PollState.Pending) :=
  have h := Poll_decided_at_first_crossing (vote.examplePoll 3) vote.ballotsABC 2
    (VoteData.BoolValue true) rfl rfl rfl (by decide) (by decide) (by decide) (by decide)
    (by decide) (by decide) (by decide)
  ⟨⟨rfl, rfl, rfl, by decide, by decide, by decide, by decide⟩, ⟨h.1, h.2.1, h.2.2.1⟩,
    ⟨by decide, by decide, by decide⟩⟩

/-- Counterexample to C18 as stated, on the poll engine of the spec: with total power
100, threshold 2/3 and minimum voter count 3, A (40) votes for a value, B (40) against
it, C (20) for it and then B for it. The fourth vote is the first after which the weight
behind the value, 100 with 3 distinct voters, is at least 2/3 of the total power, and no
other value ever is; yet the poll is not Completed: it went Failed at the second vote,
when the unvoted weight 20 could lift neither value past the threshold, and stays
Failed. -/
theorem Poll_failed_before_crossing :
    (∀ b ∈ vote.ballotsABCB, (vote.examplePoll 3).inRoster b.Voter = true ∧
      b.Height ≤ (vote.examplePoll 3).ExpiresAt) ∧
    (∀ j, j ≤ 3 → vote.passes (vote.examplePoll 3) (vote.ballotsABCB.take j)
      (VoteData.BoolValue true) = false) ∧
    vote.weightBehind (vote.examplePoll 3).Voters vote.ballotsABCB (VoteData.BoolValue true)
      = 100 ∧
    vote.votersBehind vote.ballotsABCB (VoteData.BoolValue true) = 3 ∧
    vote.passes (vote.examplePoll 3) vote.ballotsABCB (VoteData.BoolValue true) = true ∧
    (∀ j, j ≤ 4 → vote.passes (vote.examplePoll 3) (vote.ballotsABCB.take j)
      (VoteData.BoolValue false) = false) ∧
    (vote.run (vote.examplePoll 3) (vote.ballotsABCB.take 1)).State = PollState.Pending ∧
    (vote.run (vote.examplePoll 3) (vote.ballotsABCB.take 2)).State = PollState.Failed ∧
    vote.pathLeft (vote.examplePoll 3) (vote.ballotsABCB.take 2) = false ∧
    (vote.run (vote.examplePoll 3) vote.ballotsABCB).State = PollState.Failed ∧
    (vote.run (vote.examplePoll 3) vote.ballotsABCB).Result = none := by
  decide

end claims
end Axelar
